import Mathlib

/-!
Verification of the abrvalg language core (lexer, token stream, parser,
tree-walking interpreter) against its natural-language specification.

The definitions below are a shallow embedding of the Python sources
`abrvalg/lexer.py`, `abrvalg/parser.py` and `abrvalg/interpreter.py`:
pure Python functions become Lean functions, in-place mutation of the
token-stream cursor and of environments becomes explicit state passing,
and raised exceptions become explicit error results.  Loops that the
host language runs unboundedly (the expression-parser climb, the
interpreter's while/for loops, recursive calls) take an explicit fuel
parameter; exhausting the fuel is reported as a dedicated error that no
real execution of the Python program can produce, and every theorem
below either supplies enough fuel explicitly or takes the evaluation
result as a hypothesis.

Host-semantics notes (the Python code delegates these to the host):
Python floats are modelled as rationals (IEEE-754 rounding is not
modelled; no theorem in this file depends on float arithmetic), and
in-place mutation of arrays/dictionaries through subscript assignment
(`a[k] = v`, `eval_setitem`) is not modelled since arrays are embedded
as immutable lists; no claim concerns subscript assignment.  Everything
else follows the source line by line.
-/

namespace Abrvalg

/-! ## Lexer (`abrvalg/lexer.py`)

Tokens are `Token(name, value, line, column)` namedtuples; a token value
is `None`, a string, an int or a float. -/

/-- A decoded Python value carried by a token (`None`, `str`, `int` or
`float`); also used as an environment key, since the interpreter uses
token values (identifier names, and through sloppy assignment targets
also numbers) as dictionary keys. -/
inductive TokenVal where
  | none
  | str (s : String)
  | int (n : Int)
  | float (q : Rat)
  deriving DecidableEq, Repr

/-- `Token` namedtuple from `lexer.py`: kind name, decoded value, 1-based
line, 1-based column (0 for synthesized INDENT/DEDENT). -/
structure Token where
  name : String
  value : TokenVal
  line : Nat
  column : Nat
  deriving DecidableEq, Repr

/-- The escape table of `decode_str`: `\r \n \t \\ \" \'`. -/
def escapeChars : List Char := ['r', 'n', 't', '\\', '\'', '"']

/-- Replacement for one escape character from the table. -/
def escapeChar (c : Char) : Char :=
  if c = 'r' then '\r'
  else if c = 'n' then '\n'
  else if c = 't' then '\t'
  else c   -- '\\', '\'' and '"' map to themselves

/-- The substitution performed by `decode_str`'s `regex.sub`: the regex
`\\(r|n|t|\\|'|")` replaces a backslash followed by a character from the
escape table; a backslash followed by anything else matches no rule and
is left in place.  (The `raise` inside `replace` is unreachable: the
regex only ever hands `replace` a character of the table.) -/
def subEscapes : List Char → List Char
  | [] => []
  | '\\' :: c :: rest =>
    if c ∈ escapeChars then escapeChar c :: subEscapes rest
    else '\\' :: subEscapes (c :: rest)
  | c :: rest => c :: subEscapes rest

/-- `decode_str`: strip the surrounding quotes (`s[1:-1]`) and resolve
the escape table. -/
def decode_str (s : List Char) : List Char :=
  subEscapes ((s.drop 1).dropLast)

/-- Digits of a numeral as a natural number. -/
def digitsToNat (cs : List Char) : Nat :=
  cs.foldl (fun acc c => acc * 10 + (c.toNat - '0'.toNat)) 0

/-- `decode_num`: `int(s)` when the literal is all digits, else
`float(s)`.  The lexer only feeds it `\d+` or `\d+\.\d+`. -/
def decode_num (cs : List Char) : TokenVal :=
  if '.' ∈ cs then
    let intPart := cs.takeWhile (· ≠ '.')
    let fracPart := (cs.dropWhile (· ≠ '.')).drop 1
    .float ((digitsToNat intPart : Rat) +
      (digitsToNat fracPart : Rat) / ((10 : Rat) ^ fracPart.length))
  else
    .int (digitsToNat cs)

/-- A lexer rule matcher: on success returns (matched text, rest). -/
def Matcher := List Char → Option (List Char × List Char)

/-- Rule `COMMENT`: `#.*` (the rest of the line). -/
def matchComment : Matcher
  | '#' :: rest => some ('#' :: rest, [])
  | _ => none

/-- Backtracking body of the string rule `q((\\q|[^q])*)q` after the
opening quote: returns (raw body, rest after the closing quote).  At a
`\q` pair the greedy alternation first tries to treat it as an escape
and continue; if no closing quote is ever found it backtracks, consumes
the backslash via `[^q]` and lets the quote close the string — exactly
the Python `re` behaviour. -/
def strBodyAux (q : Char) : Nat → List Char → Option (List Char × List Char)
  | 0, _ => none   -- fuel exhausted: unreachable with fuel ≥ length + 1
  | _ + 1, [] => none
  | fl + 1, c :: rest =>
    if c = q then some ([], rest)
    else if c = '\\' then
      match rest with
      | [] => none
      | c2 :: rest2 =>
        if c2 = q then
          match strBodyAux q fl rest2 with
          | some (b, r) => some ('\\' :: c2 :: b, r)
          | Option.none => some (['\\'], rest2)
        else
          match strBodyAux q fl (c2 :: rest2) with
          | some (b, r) => some ('\\' :: b, r)
          | Option.none => none
    else
      match strBodyAux q fl rest with
      | some (b, r) => some (c :: b, r)
      | Option.none => none

def strBody (q : Char) (cs : List Char) : Option (List Char × List Char) :=
  strBodyAux q (cs.length + 1) cs

/-- Rule `STRING` for quote character `q`. -/
def matchString (q : Char) : Matcher
  | c :: rest =>
    if c = q then
      match strBody q rest with
      | some (b, r) => some (q :: b ++ [q], r)
      | Option.none => none
    else none
  | [] => none

def isDigit (c : Char) : Bool := '0' ≤ c ∧ c ≤ '9'

def isNameStart (c : Char) : Bool :=
  ('a' ≤ c ∧ c ≤ 'z') ∨ ('A' ≤ c ∧ c ≤ 'Z') ∨ c = '_'

def isNameChar (c : Char) : Bool := isNameStart c ∨ isDigit c

/-- Rule `NUMBER`: `\d+\.\d+`. -/
def matchFloat : Matcher := fun cs =>
  let intPart := cs.takeWhile isDigit
  let rest₁ := cs.dropWhile isDigit
  if intPart.isEmpty then none
  else match rest₁ with
    | '.' :: rest₂ =>
      let fracPart := rest₂.takeWhile isDigit
      if fracPart.isEmpty then none
      else some (intPart ++ '.' :: fracPart, rest₂.dropWhile isDigit)
    | _ => none

/-- Rule `NUMBER`: `\d+`. -/
def matchInt : Matcher := fun cs =>
  let ds := cs.takeWhile isDigit
  if ds.isEmpty then none else some (ds, cs.dropWhile isDigit)

/-- Rule `NAME`: `[a-zA-Z_]\w*`. -/
def matchName : Matcher
  | c :: rest =>
    if isNameStart c then some (c :: rest.takeWhile isNameChar, rest.dropWhile isNameChar)
    else none
  | [] => none

/-- Rule `WHITESPACE`: `[ \t]+`. -/
def matchWhitespace : Matcher
  | c :: rest =>
    if c = ' ' ∨ c = '\t' then
      some (c :: rest.takeWhile (fun d => d = ' ' ∨ d = '\t'),
            rest.dropWhile (fun d => d = ' ' ∨ d = '\t'))
    else none
  | [] => none

/-- Rule `NEWLINE`: `\n+` (never fires: `tokenize` hands the line
tokenizer single lines, which contain no newline). -/
def matchNewlineRule : Matcher
  | c :: rest =>
    if c = '\n' then
      some (c :: rest.takeWhile (· = '\n'), rest.dropWhile (· = '\n'))
    else none
  | [] => none

/-- Matcher for an ordered alternation of literal strings (first
alternative that matches wins, as in Python `re`). -/
def matchLits (lits : List (List Char)) : Matcher := fun cs =>
  match lits.find? (fun lit => lit.isPrefixOf cs) with
  | some lit => some (lit, cs.drop lit.length)
  | Option.none => none

/-- The ordered rule set of `Lexer.rules`; first match wins, and rules
with the same name are alternated in declaration order exactly as the
grouped regex does. -/
def lexerRules : List (String × Matcher) :=
  [("COMMENT", matchComment),
   ("STRING", matchString '"'),
   ("STRING", matchString '\''),
   ("NUMBER", matchFloat),
   ("NUMBER", matchInt),
   ("NAME", matchName),
   ("WHITESPACE", matchWhitespace),
   ("NEWLINE", matchNewlineRule),
   ("OPERATOR", matchLits [['+'], ['*'], ['-'], ['/'], ['%']]),
   ("OPERATOR", matchLits [['<', '='], ['>', '='], ['=', '='], ['!', '='], ['<'], ['>']]),
   ("OPERATOR", matchLits [['|', '|'], ['&', '&']]),
   ("OPERATOR", matchLits [['.', '.', '.'], ['.', '.']]),
   ("OPERATOR", matchLits [['!']]),
   ("ASSIGN", matchLits [['=']]),
   ("LPAREN", matchLits [['(']]),
   ("RPAREN", matchLits [[')']]),
   ("LBRACK", matchLits [['[']]),
   ("RBRACK", matchLits [[']']]),
   ("LCBRACK", matchLits [['\x7b']]),
   ("RCBRACK", matchLits [['\x7d']]),
   ("COLON", matchLits [[':']]),
   ("COMMA", matchLits [[',']])]

/-- First rule of `lexerRules` that matches at the current position. -/
def firstRuleMatch (cs : List Char) : Option (String × List Char × List Char) :=
  lexerRules.foldr (fun (r : String × Matcher) acc =>
    match r.2 cs with
    | some (mt, rest) => some (r.1, mt, rest)
    | Option.none => acc) Option.none

/-- `Lexer.keywords`: NAME tokens whose text is a keyword are re-tagged
and their value cleared. -/
def keywordName : String → Option String
  | "func" => some "FUNCTION"
  | "return" => some "RETURN"
  | "else" => some "ELSE"
  | "elif" => some "ELIF"
  | "if" => some "IF"
  | "while" => some "WHILE"
  | "break" => some "BREAK"
  | "continue" => some "CONTINUE"
  | "for" => some "FOR"
  | "in" => some "IN"
  | "match" => some "MATCH"
  | "when" => some "WHEN"
  | _ => Option.none

/-- `Lexer.ignore_tokens`. -/
def ignoreTokens : List String := ["WHITESPACE", "COMMENT"]

/-- The messages of the `ParserError` raise sites in `parser.py`. -/
inductive PMsg where
  | unaryUnsupported (op : String)   -- 'Unary operator {} is not supported'
  | expectedExpression               -- 'Expected expression'
  | dictValueExpected                -- 'Dictionary value expected'
  | subscriptKeyRequired             -- 'Subscript operator key is required'
  | expectedFunctionBody             -- 'Expected function body'
  | expectedElifCondition            -- 'Expected `elif` condition'
  | expectedElifBody                 -- 'Expected `elif` body'
  | expectedElseBody                 -- 'Expected `else` body'
  | expectedIfCondition              -- 'Expected `if` condition'
  | expectedIfBody                   -- 'Expected if body'
  | patternExpected                  -- 'Pattern expression expected'
  | whenPatternExpected              -- 'One or more `when` pattern excepted'
  | whileConditionExpected           -- 'While condition expected'
  | expectedLoopBody                 -- 'Expected loop body'
  | returnOutsideFunction            -- 'Return outside of function'
  | breakOutsideLoop                 -- 'Break outside of loop'
  | continueOutsideLoop              -- 'Continue outside of loop'
  deriving DecidableEq, Repr

/-- Pipeline failures.  The Python code raises `AbrvalgSyntaxError`
(structured: message, line, column) from both lexer and parser; the
constructors below enumerate each raise site's message.  `indexError`,
`keyError` and `attributeError` model raw host exceptions escaping from
the code, and `fuel` is the artefact of the fuel embedding. -/
inductive Failure where
  | unexpectedCharacter (c : Char) (line column : Nat)     -- 'Unexpected character {}'
  | unexpectedEnd (line column : Nat)                      -- 'Unexpected end of input'
  | expected (exp got : String) (line column : Nat)        -- 'Expected {}, got {}'
  | endExpected (line column : Nat)                        -- 'End expected'
  | parserError (msg : PMsg) (line column : Nat)           -- ParserError sites
  | indexError                                             -- raw IndexError
  | keyError                                               -- raw KeyError
  | attributeError                                         -- raw AttributeError
  | fuel                                                   -- fuel exhausted (no Python counterpart)
  deriving DecidableEq, Repr

/-- `Lexer._tokenize_line`: scan a single (indent-stripped) line left to
right; the first matching rule wins, ignored rules produce no token, a
position with no matching rule is a `LexerError`.  Fuel is the number of
remaining scan steps (each step consumes at least one character, so
`cs.length + 1` is always enough). -/
def tokenizeLineAux : Nat → Nat → Nat → List Char → Except Failure (List Token)
  | 0, _, _, _ => .error .fuel
  | _ + 1, _, _, [] => .ok []
  | f + 1, lineNum, pos, c :: cs =>
    match firstRuleMatch (c :: cs) with
    | Option.none => .error (.unexpectedCharacter c lineNum (pos + 1))
    | some (name, mt, rest) =>
      match tokenizeLineAux f lineNum (pos + mt.length) rest with
      | .error e => .error e
      | .ok toks =>
        if name ∈ ignoreTokens then .ok toks
        else
          let text := String.mk mt
          let tok :=
            if name = "STRING" then Token.mk name (.str (String.mk (decode_str mt))) lineNum (pos + 1)
            else if name = "NUMBER" then Token.mk name (decode_num mt) lineNum (pos + 1)
            else if name = "NAME" then
              match keywordName text with
              | some kw => Token.mk kw .none lineNum (pos + 1)
              | Option.none => Token.mk name (.str text) lineNum (pos + 1)
            else Token.mk name (.str text) lineNum (pos + 1)
          .ok (tok :: toks)

def tokenizeLine (lineNum : Nat) (cs : List Char) : Except Failure (List Token) :=
  tokenizeLineAux (cs.length + 1) lineNum 0 cs

/-- Python `str.splitlines` restricted to `\n` terminators: pieces
between newlines, with no empty piece after a trailing newline. -/
def splitLinesAux (acc : List Char) : List Char → List (List Char)
  | [] => [acc.reverse]
  | '\n' :: [] => [acc.reverse]
  | '\n' :: c :: rest => acc.reverse :: splitLinesAux [] (c :: rest)
  | c :: rest => splitLinesAux (c :: acc) rest

def splitLines : List Char → List (List Char)
  | [] => []
  | c :: rest => splitLinesAux [] (c :: rest)

/-- Python `str.rstrip` for the whitespace that can occur here. -/
def rstrip (cs : List Char) : List Char :=
  (cs.reverse.dropWhile (fun c => c = ' ' ∨ c = '\t' ∨ c = '\r' ∨ c = '\n' ∨ c = '\x0b' ∨ c = '\x0c')).reverse

/-- Leading run of character `c` (`Lexer._count_leading_characters`). -/
def countLeading (c : Char) (cs : List Char) : Nat :=
  (cs.takeWhile (· = c)).length

/-- `Lexer._detect_indent`: if the line starts with a space or tab, the
indent unit is that character repeated by its leading run length. -/
def detectIndent (cs : List Char) : Option (List Char) :=
  match cs with
  | c :: _ =>
    if c = ' ' ∨ c = '\t' then some (List.replicate (countLeading c cs) c)
    else Option.none
  | [] => Option.none

/-- Python `str.count(sub)` for a non-empty `sub`: non-overlapping
occurrences, scanning left to right.  (For the empty string Python
returns `len + 1`.)  This counts occurrences anywhere in the line, which
is what `tokenize` uses as the indent level. -/
def countSubAux (u : Char) (us : List Char) : Nat → List Char → Nat
  | 0, _ => 0   -- fuel exhausted: unreachable with fuel ≥ length + 1
  | _ + 1, [] => 0
  | fl + 1, c :: t =>
    if (u :: us).isPrefixOf (c :: t) then 1 + countSubAux u us fl (t.drop us.length)
    else countSubAux u us fl t

def countSub (unit : List Char) (cs : List Char) : Nat :=
  match unit with
  | [] => cs.length + 1
  | u :: us => countSubAux u us (cs.length + 1) cs

/-- The per-line body of `Lexer.tokenize`'s loop, with the mutable
`indent_symbol` / `last_indent_level` state passed explicitly; returns
the emitted tokens together with the final indent level (used for the
trailing DEDENTs). -/
def tokenizeLoop : Option (List Char) → Nat → List (Nat × List Char) →
    Except Failure (List Token × Nat)
  | _, lvl, [] => .ok ([], lvl)
  | sym, lvl, (lineNum, raw) :: rest =>
    let line := rstrip raw
    if line.isEmpty then tokenizeLoop sym lvl rest
    else
      let sym' := match sym with
        | some u => some u
        | Option.none => detectIndent line
      let level := match sym' with
        | some u => countSub u line
        | Option.none => 0
      let stripped := match sym' with
        | some u => line.drop (countSub u line * u.length)
        | Option.none => line
      match tokenizeLine lineNum stripped with
      | .error e => .error e
      | .ok lineToks =>
        if lineToks.isEmpty then tokenizeLoop sym' lvl rest
        else
          let indentToks :=
            if lvl < level then List.replicate (level - lvl) (Token.mk "INDENT" .none lineNum 0)
            else if level < lvl then List.replicate (lvl - level) (Token.mk "DEDENT" .none lineNum 0)
            else []
          match tokenizeLoop sym' level rest with
          | .error e => .error e
          | .ok (ts, finalLvl) =>
            .ok (indentToks ++ lineToks ++
                 Token.mk "NEWLINE" .none lineNum (stripped.length + 1) :: ts, finalLvl)

/-- `Lexer.tokenize`: process the source line by line, then emit
trailing DEDENTs back to level 0 (their line number is the total line
count, the final value of the loop variable). -/
def tokenize (s : String) : Except Failure (List Token) :=
  let lines := splitLines s.data
  let numbered := lines.enum.map (fun p => (p.1 + 1, p.2))
  match tokenizeLoop Option.none 0 numbered with
  | .error e => .error e
  | .ok (ts, lvl) =>
    .ok (ts ++ List.replicate lvl (Token.mk "DEDENT" .none lines.length 0))

/-! ## Token stream (`abrvalg/lexer.py`, class `TokenStream`)

The mutable cursor `self._pos` becomes explicit state passing: consuming
operations return the advanced stream. -/

structure TokenStream where
  tokens : List Token
  pos : Nat
  deriving DecidableEq, Repr

/-- `TokenStream.current`: the token at the cursor; when the cursor is
past the end the Python code catches the `IndexError` and re-raises a
structured 'Unexpected end of input' at the LAST token's position —
but `self._tokens[-1]` itself raises a raw `IndexError` when the token
list is empty. -/
def TokenStream.current (ts : TokenStream) : Except Failure Token :=
  match ts.tokens.get? ts.pos with
  | some t => .ok t
  | Option.none =>
    match ts.tokens.getLast? with
    | some last => .error (.unexpectedEnd last.line last.column)
    | Option.none => .error .indexError

/-- `TokenStream.consume`: return the current token and advance. -/
def TokenStream.consume (ts : TokenStream) : Except Failure (Token × TokenStream) :=
  match ts.current with
  | .error e => .error e
  | .ok t => .ok (t, ⟨ts.tokens, ts.pos + 1⟩)

/-- `TokenStream.consume_expected(*args)`: consume one token per
expected kind, failing with 'Expected X, got Y' at the first mismatch;
returns the last consumed token. -/
def TokenStream.consume_expected (ts : TokenStream) (names : List String) :
    Except Failure (Token × TokenStream) :=
  match names with
  | [] => .error .indexError   -- Python would return None; never called with no kinds
  | [n] =>
    match ts.consume with
    | .error e => .error e
    | .ok (t, ts') =>
      if t.name = n then .ok (t, ts') else .error (.expected n t.name t.line t.column)
  | n :: rest =>
    match ts.consume with
    | .error e => .error e
    | .ok (t, ts') =>
      if t.name = n then ts'.consume_expected rest
      else .error (.expected n t.name t.line t.column)

/-- `TokenStream.is_end`. -/
def TokenStream.is_end (ts : TokenStream) : Bool := ts.pos = ts.tokens.length

/-- `TokenStream.expect_end`. -/
def TokenStream.expect_end (ts : TokenStream) : Except Failure Unit :=
  if ts.is_end then .ok ()
  else
    match ts.current with
    | .error e => .error e
    | .ok t => .error (.endExpected t.line t.column)

/-! ## AST (`abrvalg/ast.py`)

One constructor per namedtuple node.  Fields that the parser can leave
as Python `None` (an `Expression().parse` result used without a check)
are `Option`s; evaluating such an absent expression is the interpreter's
'Unknown node' fault, mirroring `eval_node(None, env)`.  `Number`,
`String` and `Identifier` store the token value verbatim, as the parser
does. -/

inductive Ast where
  | number (value : TokenVal)
  | string (value : TokenVal)
  | identifier (value : TokenVal)
  | assignment (left : Ast) (right : Option Ast)
  | binaryOperator (operator : String) (left right : Ast)
  | unaryOperator (operator : String) (right : Ast)
  | call (left : Ast) (arguments : List Ast)
  | function (name : TokenVal) (params : List TokenVal) (body : List Ast)
  | condition (test : Ast) (ifBody : List Ast) (elifs : List (Ast × List Ast))
      (elseBody : Option (List Ast))
  | matchStmt (test : Option Ast) (patterns : List (Ast × List Ast))
      (elseBody : Option (List Ast))
  | whileLoop (test : Ast) (body : List Ast)
  | forLoop (varName : TokenVal) (collection : Option Ast) (body : List Ast)
  | breakStmt
  | continueStmt
  | returnStmt (value : Option Ast)
  | array (items : List Ast)
  | dictionary (items : List (Ast × Ast))
  | subscript (left key : Ast)
  deriving Repr

/-! ## Parser (`abrvalg/parser.py`)

Recursive descent with precedence climbing.  The mutable
`parser.scope` list (pushed/popped by `enter_scope`) becomes an explicit
parameter: the head of the list is the innermost enclosing construct.
Expression subparsers never read the scope, so the expression functions
do not take it.  All recursion is fuelled; `Failure.fuel` cannot arise
from a Python run. -/

/-- A scope tag pushed by `enter_scope`: `'function'` or `'loop'`. -/
inductive ScopeTag where
  | function
  | loop
  deriving DecidableEq, Repr

/-- The parser's scope stack, innermost construct first. -/
abbrev Scope := List ScopeTag

/-- `Subparser.PRECEDENCE` for binary operator token values (callers
use fixed entries for `call`, `subscript` and `unary`). -/
def precedenceOf : String → Option Nat
  | "*" => some 7
  | "/" => some 7
  | "%" => some 7
  | "+" => some 6
  | "-" => some 6
  | ">" => some 5
  | ">=" => some 5
  | "<" => some 5
  | "<=" => some 5
  | "==" => some 4
  | "!=" => some 4
  | "&&" => some 3
  | "||" => some 2
  | ".." => some 1
  | "..." => some 1
  | _ => Option.none

/-- The string carried by an OPERATOR (or other literal) token. -/
def tvStr : TokenVal → String
  | .str s => s
  | _ => ""   -- unreachable: OPERATOR tokens always carry their text

/-- `Expression.get_next_precedence`: 0 at end of stream or when the
current token has no infix subparser; `PRECEDENCE[token.value]` for an
OPERATOR (a raw `KeyError` for an operator missing from the table, e.g.
`!` used infix), 10 for call/subscript. -/
def getNextPrecedence (ts : TokenStream) : Except Failure Nat :=
  if ts.is_end then .ok 0
  else
    match ts.current with
    | .error e => .error e
    | .ok t =>
      if t.name = "OPERATOR" then
        match precedenceOf (tvStr t.value) with
        | some p => .ok p
        | Option.none => .error .keyError
      else if t.name = "LPAREN" then .ok 10
      else if t.name = "LBRACK" then .ok 10
      else .ok 0

mutual

/-- `Expression.parse`: dispatch a prefix subparser on the current token
(`None` result when there is none), then absorb infix operators while
their precedence exceeds `prec`. -/
def parseExpression : Nat → TokenStream → Nat → Except Failure (Option Ast × TokenStream)
  | 0, _, _ => .error .fuel
  | f + 1, ts, prec =>
    match ts.current with
    | .error e => .error e
    | .ok cur =>
      match parsePrefixForm f cur.name ts with
      | .error e => .error e
      | .ok (Option.none, ts₁) => .ok (Option.none, ts₁)
      | .ok (some left, ts₁) =>
        match parseInfixLoop f left prec ts₁ with
        | .error e => .error e
        | .ok (e, ts₂) => .ok (some e, ts₂)

/-- Prefix dispatch of `Expression.get_prefix_subparser`; an unhandled
token kind yields `None` without consuming. -/
def parsePrefixForm : Nat → String → TokenStream → Except Failure (Option Ast × TokenStream)
  | 0, _, _ => .error .fuel
  | f + 1, kind, ts =>
    if kind = "NUMBER" then
      match ts.consume_expected ["NUMBER"] with
      | .error e => .error e
      | .ok (t, ts') => .ok (some (.number t.value), ts')
    else if kind = "STRING" then
      match ts.consume_expected ["STRING"] with
      | .error e => .error e
      | .ok (t, ts') => .ok (some (.string t.value), ts')
    else if kind = "NAME" then
      match ts.consume_expected ["NAME"] with
      | .error e => .error e
      | .ok (t, ts') => .ok (some (.identifier t.value), ts')
    else if kind = "LPAREN" then
      -- GroupExpression: LPAREN expr RPAREN; the inner expression may be
      -- None, which the group returns unchanged.
      match ts.consume_expected ["LPAREN"] with
      | .error e => .error e
      | .ok (_, ts₁) =>
        match parseExpression f ts₁ 0 with
        | .error e => .error e
        | .ok (inner, ts₂) =>
          match ts₂.consume_expected ["RPAREN"] with
          | .error e => .error e
          | .ok (_, ts₃) => .ok (inner, ts₃)
    else if kind = "LBRACK" then
      match ts.consume_expected ["LBRACK"] with
      | .error e => .error e
      | .ok (_, ts₁) =>
        match parseExprList f ts₁ with
        | .error e => .error e
        | .ok (items, ts₂) =>
          match ts₂.consume_expected ["RBRACK"] with
          | .error e => .error e
          | .ok (_, ts₃) => .ok (some (.array items), ts₃)
    else if kind = "LCBRACK" then
      match ts.consume_expected ["LCBRACK"] with
      | .error e => .error e
      | .ok (_, ts₁) =>
        match parseKeyvals f ts₁ with
        | .error e => .error e
        | .ok (items, ts₂) =>
          match ts₂.consume_expected ["RCBRACK"] with
          | .error e => .error e
          | .ok (_, ts₃) => .ok (some (.dictionary items), ts₃)
    else if kind = "OPERATOR" then
      match parseUnaryExpr f ts with
      | .error e => .error e
      | .ok (e, ts') => .ok (some e, ts')
    else .ok (Option.none, ts)

/-- `UnaryOperatorExpression.parse`: only `-` and `!` are supported; the
operand is parsed at the `unary` precedence (9) and its absence is
'Expected expression' at the then-consumed token. -/
def parseUnaryExpr : Nat → TokenStream → Except Failure (Ast × TokenStream)
  | 0, _ => .error .fuel
  | f + 1, ts =>
    match ts.consume_expected ["OPERATOR"] with
    | .error e => .error e
    | .ok (t, ts₁) =>
      let op := tvStr t.value
      if op ≠ "-" ∧ op ≠ "!" then
        .error (.parserError (.unaryUnsupported op) t.line t.column)
      else
        match parseExpression f ts₁ 9 with
        | .error e => .error e
        | .ok (some right, ts₂) => .ok (.unaryOperator op right, ts₂)
        | .ok (Option.none, ts₂) =>
          match ts₂.consume with
          | .error e => .error e
          | .ok (bad, _) => .error (.parserError .expectedExpression bad.line bad.column)

/-- The `while precedence < get_next_precedence()` climb of
`Expression.parse`, with `Expression.get_infix_subparser` dispatch. -/
def parseInfixLoop : Nat → Ast → Nat → TokenStream → Except Failure (Ast × TokenStream)
  | 0, _, _, _ => .error .fuel
  | f + 1, left, prec, ts =>
    match getNextPrecedence ts with
    | .error e => .error e
    | .ok p =>
      if prec < p then
        match ts.current with
        | .error e => .error e
        | .ok cur =>
          let step : Except Failure (Ast × TokenStream) :=
            if cur.name = "OPERATOR" then parseBinaryExpr f left ts
            else if cur.name = "LPAREN" then parseCallExpr f left ts
            else if cur.name = "LBRACK" then parseSubscriptExpr f left ts
            else .error .attributeError   -- unreachable: p > 0 only for those kinds
          match step with
          | .error e => .error e
          | .ok (op, ts₁) => parseInfixLoop f op prec ts₁
      else .ok (left, ts)

/-- `BinaryOperatorExpression.parse`. -/
def parseBinaryExpr : Nat → Ast → TokenStream → Except Failure (Ast × TokenStream)
  | 0, _, _ => .error .fuel
  | f + 1, left, ts =>
    match ts.consume_expected ["OPERATOR"] with
    | .error e => .error e
    | .ok (t, ts₁) =>
      let op := tvStr t.value
      match precedenceOf op with
      | Option.none => .error .keyError
      | some p =>
        match parseExpression f ts₁ p with
        | .error e => .error e
        | .ok (some right, ts₂) => .ok (.binaryOperator op left right, ts₂)
        | .ok (Option.none, ts₂) =>
          match ts₂.consume with
          | .error e => .error e
          | .ok (bad, _) => .error (.parserError .expectedExpression bad.line bad.column)

/-- `CallExpression.parse`. -/
def parseCallExpr : Nat → Ast → TokenStream → Except Failure (Ast × TokenStream)
  | 0, _, _ => .error .fuel
  | f + 1, left, ts =>
    match ts.consume_expected ["LPAREN"] with
    | .error e => .error e
    | .ok (_, ts₁) =>
      match parseExprList f ts₁ with
      | .error e => .error e
      | .ok (args, ts₂) =>
        match ts₂.consume_expected ["RPAREN"] with
        | .error e => .error e
        | .ok (_, ts₃) => .ok (.call left args, ts₃)

/-- `SubscriptOperatorExpression.parse`. -/
def parseSubscriptExpr : Nat → Ast → TokenStream → Except Failure (Ast × TokenStream)
  | 0, _, _ => .error .fuel
  | f + 1, left, ts =>
    match ts.consume_expected ["LBRACK"] with
    | .error e => .error e
    | .ok (_, ts₁) =>
      match parseExpression f ts₁ 0 with
      | .error e => .error e
      | .ok (Option.none, ts₂) =>
        match ts₂.current with
        | .error e => .error e
        | .ok cur => .error (.parserError .subscriptKeyRequired cur.line cur.column)
      | .ok (some key, ts₂) =>
        match ts₂.consume_expected ["RBRACK"] with
        | .error e => .error e
        | .ok (_, ts₃) => .ok (.subscript left key, ts₃)

/-- `ListOfExpressions.parse`: `(expr COMMA)*`. -/
def parseExprList : Nat → TokenStream → Except Failure (List Ast × TokenStream)
  | 0, _ => .error .fuel
  | f + 1, ts =>
    if ts.is_end then .ok ([], ts)
    else
      match parseExpression f ts 0 with
      | .error e => .error e
      | .ok (Option.none, ts₁) => .ok ([], ts₁)
      | .ok (some e, ts₁) =>
        match ts₁.current with
        | .error err => .error err
        | .ok cur =>
          if cur.name = "COMMA" then
            match ts₁.consume_expected ["COMMA"] with
            | .error err => .error err
            | .ok (_, ts₂) =>
              match parseExprList f ts₂ with
              | .error err => .error err
              | .ok (rest, ts₃) => .ok (e :: rest, ts₃)
          else .ok ([e], ts₁)

/-- `DictionaryExpression._parse_keyvals`: `(expr COLON expr COMMA)*`. -/
def parseKeyvals : Nat → TokenStream → Except Failure (List (Ast × Ast) × TokenStream)
  | 0, _ => .error .fuel
  | f + 1, ts =>
    if ts.is_end then .ok ([], ts)
    else
      match parseExpression f ts 0 with
      | .error e => .error e
      | .ok (Option.none, ts₁) => .ok ([], ts₁)
      | .ok (some key, ts₁) =>
        match ts₁.consume_expected ["COLON"] with
        | .error e => .error e
        | .ok (_, ts₂) =>
          match parseExpression f ts₂ 0 with
          | .error e => .error e
          | .ok (Option.none, ts₃) =>
            match ts₃.consume with
            | .error e => .error e
            | .ok (bad, _) => .error (.parserError .dictValueExpected bad.line bad.column)
          | .ok (some value, ts₃) =>
            match ts₃.current with
            | .error e => .error e
            | .ok cur =>
              if cur.name = "COMMA" then
                match ts₃.consume_expected ["COMMA"] with
                | .error e => .error e
                | .ok (_, ts₄) =>
                  match parseKeyvals f ts₄ with
                  | .error e => .error e
                  | .ok (rest, ts₅) => .ok ((key, value) :: rest, ts₅)
              else .ok ([(key, value)], ts₃)

end

/-- `ReturnStatement.parse`: rejected with 'Return outside of function'
unless `'function'` occurs somewhere in the scope stack; the carried
expression is optional. -/
def parseReturnStmt (f : Nat) (scope : Scope) (ts : TokenStream) :
    Except Failure (Ast × TokenStream) :=
  if scope = ([] : Scope) ∨ ScopeTag.function ∉ scope then
    match ts.current with
    | .error e => .error e
    | .ok cur => .error (.parserError .returnOutsideFunction cur.line cur.column)
  else
    match ts.consume_expected ["RETURN"] with
    | .error e => .error e
    | .ok (_, ts₁) =>
      match parseExpression f ts₁ 0 with
      | .error e => .error e
      | .ok (value, ts₂) =>
        match ts₂.consume_expected ["NEWLINE"] with
        | .error e => .error e
        | .ok (_, ts₃) => .ok (.returnStmt value, ts₃)

/-- `BreakStatement.parse`: rejected with 'Break outside of loop' unless
the TOP of the scope stack (the innermost enclosing construct) is a
loop. -/
def parseBreakStmt (scope : Scope) (ts : TokenStream) :
    Except Failure (Ast × TokenStream) :=
  if scope = ([] : Scope) ∨ List.head? scope ≠ some ScopeTag.loop then
    match ts.current with
    | .error e => .error e
    | .ok cur => .error (.parserError .breakOutsideLoop cur.line cur.column)
  else
    match ts.consume_expected ["BREAK", "NEWLINE"] with
    | .error e => .error e
    | .ok (_, ts₁) => .ok (.breakStmt, ts₁)

/-- `ContinueStatement.parse`: as for break. -/
def parseContinueStmt (scope : Scope) (ts : TokenStream) :
    Except Failure (Ast × TokenStream) :=
  if scope = ([] : Scope) ∨ List.head? scope ≠ some ScopeTag.loop then
    match ts.current with
    | .error e => .error e
    | .ok cur => .error (.parserError .continueOutsideLoop cur.line cur.column)
  else
    match ts.consume_expected ["CONTINUE", "NEWLINE"] with
    | .error e => .error e
    | .ok (_, ts₁) => .ok (.continueStmt, ts₁)

/-- `FunctionStatement._parse_params`: `(NAME COMMA)*`, entered only
when the current token is a NAME. -/
def parseParamsLoop : Nat → TokenStream → Except Failure (List TokenVal × TokenStream)
  | 0, _ => .error .fuel
  | f + 1, ts =>
    if ts.is_end then .ok ([], ts)
    else
      match ts.consume_expected ["NAME"] with
      | .error e => .error e
      | .ok (idTok, ts₁) =>
        match ts₁.current with
        | .error e => .error e
        | .ok cur =>
          if cur.name = "COMMA" then
            match ts₁.consume_expected ["COMMA"] with
            | .error e => .error e
            | .ok (_, ts₂) =>
              match parseParamsLoop f ts₂ with
              | .error e => .error e
              | .ok (rest, ts₃) => .ok (idTok.value :: rest, ts₃)
          else .ok ([idTok.value], ts₁)

def parseParams (f : Nat) (ts : TokenStream) :
    Except Failure (List TokenVal × TokenStream) :=
  match ts.current with
  | .error e => .error e
  | .ok cur => if cur.name = "NAME" then parseParamsLoop f ts else .ok ([], ts)

mutual

/-- `Block.parse`: `NEWLINE INDENT statements DEDENT`. -/
def parseBlock : Nat → Scope → TokenStream → Except Failure (List Ast × TokenStream)
  | 0, _, _ => .error .fuel
  | f + 1, scope, ts =>
    match ts.consume_expected ["NEWLINE", "INDENT"] with
    | .error e => .error e
    | .ok (_, ts₁) =>
      match parseStatements f scope ts₁ with
      | .error e => .error e
      | .ok (sts, ts₂) =>
        match ts₂.consume_expected ["DEDENT"] with
        | .error e => .error e
        | .ok (_, ts₃) => .ok (sts, ts₃)

/-- `Statements.parse`: statements until end of stream or a statement
subparser yields `None`. -/
def parseStatements : Nat → Scope → TokenStream → Except Failure (List Ast × TokenStream)
  | 0, _, _ => .error .fuel
  | f + 1, scope, ts =>
    if ts.is_end then .ok ([], ts)
    else
      match parseStatement f scope ts with
      | .error e => .error e
      | .ok (Option.none, ts₁) => .ok ([], ts₁)
      | .ok (some st, ts₁) =>
        match parseStatements f scope ts₁ with
        | .error e => .error e
        | .ok (rest, ts₂) => .ok (st :: rest, ts₂)

/-- `Statements.get_statement_subparser` dispatch plus the chosen
subparser's `parse`; only the default `ExpressionStatement` can produce
`None`. -/
def parseStatement : Nat → Scope → TokenStream → Except Failure (Option Ast × TokenStream)
  | 0, _, _ => .error .fuel
  | f + 1, scope, ts =>
    match ts.current with
    | .error e => .error e
    | .ok cur =>
      if cur.name = "FUNCTION" then
        match parseFunctionStmt f scope ts with
        | .error e => .error e
        | .ok (st, ts₁) => .ok (some st, ts₁)
      else if cur.name = "IF" then
        match parseConditionStmt f scope ts with
        | .error e => .error e
        | .ok (st, ts₁) => .ok (some st, ts₁)
      else if cur.name = "MATCH" then
        match parseMatchStmt f scope ts with
        | .error e => .error e
        | .ok (st, ts₁) => .ok (some st, ts₁)
      else if cur.name = "WHILE" then
        match parseWhileStmt f scope ts with
        | .error e => .error e
        | .ok (st, ts₁) => .ok (some st, ts₁)
      else if cur.name = "FOR" then
        match parseForStmt f scope ts with
        | .error e => .error e
        | .ok (st, ts₁) => .ok (some st, ts₁)
      else if cur.name = "RETURN" then
        match parseReturnStmt f scope ts with
        | .error e => .error e
        | .ok (st, ts₁) => .ok (some st, ts₁)
      else if cur.name = "BREAK" then
        match parseBreakStmt scope ts with
        | .error e => .error e
        | .ok (st, ts₁) => .ok (some st, ts₁)
      else if cur.name = "CONTINUE" then
        match parseContinueStmt scope ts with
        | .error e => .error e
        | .ok (st, ts₁) => .ok (some st, ts₁)
      else parseExprStatement f ts

/-- `FunctionStatement.parse`: the body block is parsed with
`'function'` pushed on the scope stack. -/
def parseFunctionStmt : Nat → Scope → TokenStream → Except Failure (Ast × TokenStream)
  | 0, _, _ => .error .fuel
  | f + 1, scope, ts =>
    match ts.consume_expected ["FUNCTION"] with
    | .error e => .error e
    | .ok (_, ts₁) =>
      match ts₁.consume_expected ["NAME"] with
      | .error e => .error e
      | .ok (idTok, ts₂) =>
        match ts₂.consume_expected ["LPAREN"] with
        | .error e => .error e
        | .ok (_, ts₃) =>
          match parseParams f ts₃ with
          | .error e => .error e
          | .ok (params, ts₄) =>
            match ts₄.consume_expected ["RPAREN", "COLON"] with
            | .error e => .error e
            | .ok (_, ts₅) =>
              match parseBlock f (ScopeTag.function :: scope) ts₅ with
              | .error e => .error e
              | .ok (block, ts₆) =>
                -- `if block is None` is dead: Statements.parse returns a list
                .ok (.function idTok.value params block, ts₆)

/-- `ConditionalStatement._parse_elif_conditions`. -/
def parseElifs : Nat → Scope → TokenStream →
    Except Failure (List (Ast × List Ast) × TokenStream)
  | 0, _, _ => .error .fuel
  | f + 1, scope, ts =>
    if ts.is_end then .ok ([], ts)
    else
      match ts.current with
      | .error e => .error e
      | .ok cur =>
        if cur.name = "ELIF" then
          match ts.consume_expected ["ELIF"] with
          | .error e => .error e
          | .ok (_, ts₁) =>
            match parseExpression f ts₁ 0 with
            | .error e => .error e
            | .ok (Option.none, ts₂) =>
              match ts₂.current with
              | .error e => .error e
              | .ok bad => .error (.parserError .expectedElifCondition bad.line bad.column)
            | .ok (some test, ts₂) =>
              match ts₂.consume_expected ["COLON"] with
              | .error e => .error e
              | .ok (_, ts₃) =>
                match parseBlock f scope ts₃ with
                | .error e => .error e
                | .ok (block, ts₄) =>
                  match parseElifs f scope ts₄ with
                  | .error e => .error e
                  | .ok (rest, ts₅) => .ok ((test, block) :: rest, ts₅)
        else .ok ([], ts)

/-- `ConditionalStatement._parse_else`. -/
def parseElse : Nat → Scope → TokenStream →
    Except Failure (Option (List Ast) × TokenStream)
  | 0, _, _ => .error .fuel
  | f + 1, scope, ts =>
    if ts.is_end then .ok (Option.none, ts)
    else
      match ts.current with
      | .error e => .error e
      | .ok cur =>
        if cur.name = "ELSE" then
          match ts.consume_expected ["ELSE", "COLON"] with
          | .error e => .error e
          | .ok (_, ts₁) =>
            match parseBlock f scope ts₁ with
            | .error e => .error e
            | .ok (block, ts₂) => .ok (some block, ts₂)
        else .ok (Option.none, ts)

/-- `ConditionalStatement.parse` (no scope push: a conditional is not a
function-or-loop construct). -/
def parseConditionStmt : Nat → Scope → TokenStream → Except Failure (Ast × TokenStream)
  | 0, _, _ => .error .fuel
  | f + 1, scope, ts =>
    match ts.consume_expected ["IF"] with
    | .error e => .error e
    | .ok (_, ts₁) =>
      match parseExpression f ts₁ 0 with
      | .error e => .error e
      | .ok (Option.none, ts₂) =>
        match ts₂.current with
        | .error e => .error e
        | .ok bad => .error (.parserError .expectedIfCondition bad.line bad.column)
      | .ok (some test, ts₂) =>
        match ts₂.consume_expected ["COLON"] with
        | .error e => .error e
        | .ok (_, ts₃) =>
          match parseBlock f scope ts₃ with
          | .error e => .error e
          | .ok (ifBlock, ts₄) =>
            match parseElifs f scope ts₄ with
            | .error e => .error e
            | .ok (elifs, ts₅) =>
              match parseElse f scope ts₅ with
              | .error e => .error e
              | .ok (elseBlock, ts₆) => .ok (.condition test ifBlock elifs elseBlock, ts₆)

/-- `MatchStatement._parse_when` repeated while the current token is
WHEN. -/
def parseWhens : Nat → Scope → TokenStream →
    Except Failure (List (Ast × List Ast) × TokenStream)
  | 0, _, _ => .error .fuel
  | f + 1, scope, ts =>
    if ts.is_end then .ok ([], ts)
    else
      match ts.current with
      | .error e => .error e
      | .ok cur =>
        if cur.name = "WHEN" then
          match ts.consume_expected ["WHEN"] with
          | .error e => .error e
          | .ok (_, ts₁) =>
            match parseExpression f ts₁ 0 with
            | .error e => .error e
            | .ok (Option.none, ts₂) =>
              match ts₂.current with
              | .error e => .error e
              | .ok bad => .error (.parserError .patternExpected bad.line bad.column)
            | .ok (some pat, ts₂) =>
              match ts₂.consume_expected ["COLON"] with
              | .error e => .error e
              | .ok (_, ts₃) =>
                match parseBlock f scope ts₃ with
                | .error e => .error e
                | .ok (block, ts₄) =>
                  match parseWhens f scope ts₄ with
                  | .error e => .error e
                  | .ok (rest, ts₅) => .ok ((pat, block) :: rest, ts₅)
        else .ok ([], ts)

/-- `MatchStatement.parse` (the subject expression is not None-checked;
an absent subject is stored and only faults at evaluation time). -/
def parseMatchStmt : Nat → Scope → TokenStream → Except Failure (Ast × TokenStream)
  | 0, _, _ => .error .fuel
  | f + 1, scope, ts =>
    match ts.consume_expected ["MATCH"] with
    | .error e => .error e
    | .ok (_, ts₁) =>
      match parseExpression f ts₁ 0 with
      | .error e => .error e
      | .ok (test, ts₂) =>
        match ts₂.consume_expected ["COLON", "NEWLINE", "INDENT"] with
        | .error e => .error e
        | .ok (_, ts₃) =>
          match parseWhens f scope ts₃ with
          | .error e => .error e
          | .ok (patterns, ts₄) =>
            if patterns.isEmpty then
              match ts₄.current with
              | .error e => .error e
              | .ok bad => .error (.parserError .whenPatternExpected bad.line bad.column)
            else
              match parseElse f scope ts₄ with
              | .error e => .error e
              | .ok (elseBlock, ts₅) =>
                match ts₅.consume_expected ["DEDENT"] with
                | .error e => .error e
                | .ok (_, ts₆) => .ok (.matchStmt test patterns elseBlock, ts₆)

/-- `WhileLoopStatement.parse`: the body block is parsed with `'loop'`
pushed on the scope stack. -/
def parseWhileStmt : Nat → Scope → TokenStream → Except Failure (Ast × TokenStream)
  | 0, _, _ => .error .fuel
  | f + 1, scope, ts =>
    match ts.consume_expected ["WHILE"] with
    | .error e => .error e
    | .ok (_, ts₁) =>
      match parseExpression f ts₁ 0 with
      | .error e => .error e
      | .ok (Option.none, ts₂) =>
        match ts₂.current with
        | .error e => .error e
        | .ok bad => .error (.parserError .whileConditionExpected bad.line bad.column)
      | .ok (some test, ts₂) =>
        match ts₂.consume_expected ["COLON"] with
        | .error e => .error e
        | .ok (_, ts₃) =>
          match parseBlock f (ScopeTag.loop :: scope) ts₃ with
          | .error e => .error e
          | .ok (block, ts₄) => .ok (.whileLoop test block, ts₄)

/-- `ForLoopStatement.parse`: the body block is parsed with `'loop'`
pushed on the scope stack (the collection expression is not
None-checked). -/
def parseForStmt : Nat → Scope → TokenStream → Except Failure (Ast × TokenStream)
  | 0, _, _ => .error .fuel
  | f + 1, scope, ts =>
    match ts.consume_expected ["FOR"] with
    | .error e => .error e
    | .ok (_, ts₁) =>
      match ts₁.consume_expected ["NAME"] with
      | .error e => .error e
      | .ok (idTok, ts₂) =>
        match ts₂.consume_expected ["IN"] with
        | .error e => .error e
        | .ok (_, ts₃) =>
          match parseExpression f ts₃ 0 with
          | .error e => .error e
          | .ok (collection, ts₄) =>
            match ts₄.consume_expected ["COLON"] with
            | .error e => .error e
            | .ok (_, ts₅) =>
              match parseBlock f (ScopeTag.loop :: scope) ts₅ with
              | .error e => .error e
              | .ok (block, ts₆) => .ok (.forLoop idTok.value collection block, ts₆)

/-- `ExpressionStatement.parse`: an expression statement, or an
assignment when the next token is ASSIGN
(`AssignmentStatement.parse`). -/
def parseExprStatement : Nat → TokenStream → Except Failure (Option Ast × TokenStream)
  | 0, _ => .error .fuel
  | f + 1, ts =>
    match parseExpression f ts 0 with
    | .error e => .error e
    | .ok (Option.none, ts₁) => .ok (Option.none, ts₁)
    | .ok (some e, ts₁) =>
      match ts₁.current with
      | .error err => .error err
      | .ok cur =>
        if cur.name = "ASSIGN" then
          match ts₁.consume_expected ["ASSIGN"] with
          | .error err => .error err
          | .ok (_, ts₂) =>
            match parseExpression f ts₂ 0 with
            | .error err => .error err
            | .ok (right, ts₃) =>
              match ts₃.consume_expected ["NEWLINE"] with
              | .error err => .error err
              | .ok (_, ts₄) => .ok (some (.assignment e right), ts₄)
        else
          match ts₁.consume_expected ["NEWLINE"] with
          | .error err => .error err
          | .ok (_, ts₂) => .ok (some e, ts₂)

end

/-- `Program.parse` through `Parser.parse`: statements from a fresh
empty scope stack, then `expect_end`. -/
def parseProgram (f : Nat) (ts : TokenStream) : Except Failure (List Ast) :=
  match parseStatements f ([] : Scope) ts with
  | .error e => .error e
  | .ok (sts, ts₁) =>
    match ts₁.expect_end with
    | .error e => .error e
    | .ok _ => .ok sts

/-- The lexing + parsing front half of `interpreter.evaluate_env`. -/
def parseSource (f : Nat) (s : String) : Except Failure (List Ast) :=
  match tokenize s with
  | .error e => .error e
  | .ok toks => parseProgram f ⟨toks, 0⟩

/-! ## Interpreter values (`abrvalg/interpreter.py`)

Python runtime values.  Arrays and dictionaries are embedded as
immutable lists (see the header note), floats as rationals.  A
user-defined function value is the `ast.Function` node itself, exactly
as `eval_function_declaration` stores it; it carries NO definition-time
environment.  A built-in is the `BuiltinFunction(params, body)`
namedtuple, its native `body` identified by name. -/

/-- The five builtins of `add_builtins`. -/
inductive BName where
  | print
  | len
  | slice
  | str
  | int
  deriving DecidableEq, Repr

inductive Value where
  | none
  | bool (b : Bool)
  | int (n : Int)
  | float (q : Rat)
  | str (s : String)
  | list (xs : List Value)
  | dict (entries : List (Value × Value))
  | range (start stop : Int)
  | builtin (params : List TokenVal) (name : BName)
  | func (name : TokenVal) (params : List TokenVal) (body : List Ast)
  deriving Repr

/-- `val is None` — what `Environment.get` and `eval_identifier` test. -/
def Value.isNone : Value → Bool
  | .none => true
  | _ => false

/-- The value carried by a `Number`/`String`/`Identifier` node, as a
runtime value. -/
def TokenVal.toValue : TokenVal → Value
  | .none => .none
  | .str s => .str s
  | .int n => .int n
  | .float q => .float q

/-! ## Environments

`Environment` is a mutable name→value dict plus an optional parent.
During evaluation the code ONLY ever mutates the innermost frame
(`Environment.set` writes `self._values`), so the chain is embedded as
the current frame plus the list of ancestor frames, and every evaluator
returns the updated chain.  Frames are insertion-ordered association
lists keyed by token values (Python dict keys). -/

/-- One environment frame (`Environment._values`). -/
abbrev Frame := List (TokenVal × Value)

/-- Python dict assignment: replace in place, or append a new key. -/
def Frame.set (f : Frame) (k : TokenVal) (v : Value) : Frame :=
  match f with
  | [] => [(k, v)]
  | (k', v') :: rest =>
    if k' = k then (k', v) :: rest else (k', v') :: Frame.set rest k v

/-- Python `dict.get(key)` (None default folded in by the caller). -/
def Frame.get? (f : Frame) (k : TokenVal) : Option Value :=
  match f with
  | [] => Option.none
  | (k', v') :: rest => if k' = k then some v' else Frame.get? rest k

/-- An environment chain: the current frame and its ancestors, innermost
first.  The global environment has `rest = []`. -/
structure Env where
  head : Frame
  rest : List Frame
  deriving Repr

/-- `Environment.set`: bind in the current frame. -/
def Env.set (e : Env) (k : TokenVal) (v : Value) : Env :=
  ⟨Frame.set e.head k v, e.rest⟩

/-- `Environment.get`, one frame at a time:
`val = self._values.get(key, None); if val is None and parent is not
None: return parent.get(key); else: return val`.  Note that a key BOUND
to `None` is indistinguishable from an absent key. -/
def envGetFrames : Frame → List Frame → TokenVal → Value
  | f, parents, k =>
    let val := (Frame.get? f k).getD .none
    match parents with
    | [] => val
    | g :: gs => if val.isNone then envGetFrames g gs k else val

def Env.get (e : Env) (k : TokenVal) : Value := envGetFrames e.head e.rest k

/-! ## Runtime faults, control-flow signals and results -/

/-- Host exceptions that can escape evaluation (`RuntimeFault`s of the
spec; none carries a source position). -/
inductive RErr where
  | nameError (name : TokenVal)       -- 'Name "{}" is not defined'
  | typeError (msg : String)          -- host TypeError (incl. arity message)
  | attributeError                    -- e.g. `function.params` on a non-function
  | keyError                          -- missing dict key / unknown unary operator
  | indexError                        -- list index out of range
  | valueError                        -- int() of a non-numeric string
  | zeroDivisionError
  | invalidOperator (op : String)     -- 'Invalid operator {}'
  | unknownNode                       -- 'Unknown node {} {}'
  | unmodeledMutation                 -- eval_setitem: in-place mutation, outside this embedding
  | unmodeledFormat                   -- host '%' string-formatting, outside this embedding
  | fuel                              -- fuel exhausted (no Python counterpart)
  deriving DecidableEq, Repr

/-- What `raise` can carry out of a statement: a runtime fault or one of
the three control-flow signals `Break(ret)`, `Continue(ret)`,
`Return(value)` from `interpreter.py`. -/
inductive Exn where
  | err (e : RErr)
  | brk (v : Value)
  | cont (v : Value)
  | ret (v : Value)
  deriving Repr

/-- Result of evaluating a node: a value, or a raised exception; both
carry the environment chain as mutated so far. -/
inductive Res where
  | ok (v : Value) (env : Env)
  | exn (e : Exn) (env : Env)
  deriving Repr

/-- Result of evaluating a list of expressions. -/
inductive ResL where
  | ok (vs : List Value) (env : Env)
  | exn (e : Exn) (env : Env)
  deriving Repr

/-- Result of evaluating dictionary items. -/
inductive ResP where
  | ok (ps : List (Value × Value)) (env : Env)
  | exn (e : Exn) (env : Env)
  deriving Repr

/-! ## Host value semantics

The `operator` module calls and builtin bodies delegate to host (Python)
semantics; these helpers spell that out for the embedded value kinds.
`bool` participates in arithmetic as 0/1, as in Python. -/

/-- Python `bool(x)`. -/
def truthy : Value → Bool
  | .none => false
  | .bool b => b
  | .int n => n ≠ 0
  | .float q => q ≠ 0
  | .str s => s ≠ ""
  | .list xs => ¬xs.isEmpty
  | .dict es => ¬es.isEmpty
  | .range a b => a < b
  | .builtin _ _ => true
  | .func _ _ _ => true

/-- A numeric operand (int, float or bool), or `none`. -/
inductive NumV where
  | int (n : Int)
  | float (q : Rat)

def numOf : Value → Option NumV
  | .int n => some (.int n)
  | .float q => some (.float q)
  | .bool b => some (.int (if b then 1 else 0))
  | _ => Option.none

def NumV.toRat : NumV → Rat
  | .int n => (n : Rat)
  | .float q => q

/-- Combine two numerics with int/float promotion. -/
def numPromote (a b : NumV) (fi : Int → Int → Int) (ff : Rat → Rat → Rat) : Value :=
  match a, b with
  | .int x, .int y => .int (fi x y)
  | _, _ => .float (ff a.toRat b.toRat)

mutual

/-- Python `==` over the embedded value kinds: numeric kinds compare by
value (`1 == 1.0 == True`), sequences element-wise, dicts by key lookup;
distinct non-numeric kinds are unequal.  User functions are namedtuples
and compare structurally; two builtins compare by name (the same
`BuiltinFunction` instance compares equal to itself). -/
def pyEq : Value → Value → Bool
  | .none, .none => true
  | .str a, .str b => a = b
  | .list a, .list b => pyEqList a b
  | .dict a, .dict b => a.length = b.length ∧ pyEqEntries a b
  | .range a b, .range c d =>
    -- py3 ranges compare as sequences (step 1 here)
    (b ≤ a ∧ d ≤ c) ∨ (a = c ∧ b = d)
  | .builtin ps n, .builtin ps' n' => ps = ps' ∧ n = n'
  | .func n ps b, .func n' ps' b' => n = n' ∧ ps = ps' ∧ pyEqAstList b b'
  | a, b =>
    match numOf a, numOf b with
    | some x, some y => x.toRat = y.toRat
    | _, _ => false
termination_by a b => sizeOf a + sizeOf b
decreasing_by all_goals simp_arith

def pyEqList : List Value → List Value → Bool
  | [], [] => true
  | a :: as', b :: bs => pyEq a b && pyEqList as' bs
  | _, _ => false
termination_by a b => sizeOf a + sizeOf b
decreasing_by all_goals simp_arith

/-- One entry of the left dict looked up in the right dict: scan for the
first key equal under `pyEq` and compare the values. -/
def entryMatches : Value → Value → List (Value × Value) → Bool
  | _, _, [] => false
  | k, v, (k', v') :: rest => if pyEq k' k then pyEq v v' else entryMatches k v rest
termination_by k v ys => sizeOf k + sizeOf v + sizeOf ys
decreasing_by all_goals simp_arith

def pyEqEntries : List (Value × Value) → List (Value × Value) → Bool
  | [], _ => true
  | (k, v) :: rest, ys => entryMatches k v ys && pyEqEntries rest ys
termination_by a b => sizeOf a + sizeOf b
decreasing_by all_goals simp_arith

/-- Structural equality of stored AST bodies (namedtuple `==`). -/
def pyEqAst : Ast → Ast → Bool
  | .number a, .number b => a = b
  | .string a, .string b => a = b
  | .identifier a, .identifier b => a = b
  | .assignment l r, .assignment l' r' => pyEqAst l l' && pyEqAstOpt r r'
  | .binaryOperator o l r, .binaryOperator o' l' r' => o = o' && pyEqAst l l' && pyEqAst r r'
  | .unaryOperator o r, .unaryOperator o' r' => o = o' && pyEqAst r r'
  | .call l a, .call l' a' => pyEqAst l l' && pyEqAstList a a'
  | .function n p b, .function n' p' b' => n = n' && p = p' && pyEqAstList b b'
  | .condition t i e el, .condition t' i' e' el' =>
    pyEqAst t t' && pyEqAstList i i' && pyEqClauses e e' && pyEqAstListOpt el el'
  | .matchStmt t p el, .matchStmt t' p' el' =>
    pyEqAstOpt t t' && pyEqClauses p p' && pyEqAstListOpt el el'
  | .whileLoop t b, .whileLoop t' b' => pyEqAst t t' && pyEqAstList b b'
  | .forLoop v c b, .forLoop v' c' b' => v = v' && pyEqAstOpt c c' && pyEqAstList b b'
  | .breakStmt, .breakStmt => true
  | .continueStmt, .continueStmt => true
  | .returnStmt v, .returnStmt v' => pyEqAstOpt v v'
  | .array i, .array i' => pyEqAstList i i'
  | .dictionary i, .dictionary i' => pyEqPairs i i'
  | .subscript l k, .subscript l' k' => pyEqAst l l' && pyEqAst k k'
  | _, _ => false
termination_by a b => sizeOf a + sizeOf b
decreasing_by all_goals simp_arith

def pyEqAstOpt : Option Ast → Option Ast → Bool
  | Option.none, Option.none => true
  | some a, some b => pyEqAst a b
  | _, _ => false
termination_by a b => sizeOf a + sizeOf b
decreasing_by all_goals simp_arith

def pyEqAstList : List Ast → List Ast → Bool
  | [], [] => true
  | a :: as', b :: bs => pyEqAst a b && pyEqAstList as' bs
  | _, _ => false
termination_by a b => sizeOf a + sizeOf b
decreasing_by all_goals simp_arith

def pyEqAstListOpt : Option (List Ast) → Option (List Ast) → Bool
  | Option.none, Option.none => true
  | some a, some b => pyEqAstList a b
  | _, _ => false
termination_by a b => sizeOf a + sizeOf b
decreasing_by all_goals simp_arith

def pyEqClauses : List (Ast × List Ast) → List (Ast × List Ast) → Bool
  | [], [] => true
  | (a, b) :: r, (a', b') :: r' => pyEqAst a a' && pyEqAstList b b' && pyEqClauses r r'
  | _, _ => false
termination_by a b => sizeOf a + sizeOf b
decreasing_by all_goals simp_arith

def pyEqPairs : List (Ast × Ast) → List (Ast × Ast) → Bool
  | [], [] => true
  | (a, b) :: r, (a', b') :: r' => pyEqAst a a' && pyEqAst b b' && pyEqPairs r r'
  | _, _ => false
termination_by a b => sizeOf a + sizeOf b
decreasing_by all_goals simp_arith

end

/-- Python `d[key]` lookup for the embedded dicts: the first entry whose
key is `==` to the requested key. -/
def pyDictLookup : List (Value × Value) → Value → Option Value
  | [], _ => Option.none
  | (k, v) :: rest, key => if pyEq k key then some v else pyDictLookup rest key

/-- Python dict keys must be hashable: lists and dicts are not. -/
def hashable : Value → Bool
  | .list _ => false
  | .dict _ => false
  | _ => true

/-- Building a dict from evaluated key/value pairs: insertion order with
`dict[k] = v` semantics (an equal key keeps its position, its value is
replaced), unhashable keys fault. -/
def pyDictInsert (entries : List (Value × Value)) (k v : Value) : List (Value × Value) :=
  match entries with
  | [] => [(k, v)]
  | (k', v') :: rest =>
    if pyEq k' k then (k', v) :: rest else (k', v') :: pyDictInsert rest k v

/-- `operator.add`. -/
def pyAdd (a b : Value) : Except RErr Value :=
  match a, b with
  | .str x, .str y => .ok (.str (x ++ y))
  | .list x, .list y => .ok (.list (x ++ y))
  | _, _ =>
    match numOf a, numOf b with
    | some x, some y => .ok (numPromote x y (· + ·) (· + ·))
    | _, _ => .error (.typeError "unsupported operand type(s) for +")

/-- `operator.sub`. -/
def pySub (a b : Value) : Except RErr Value :=
  match numOf a, numOf b with
  | some x, some y => .ok (numPromote x y (· - ·) (· - ·))
  | _, _ => .error (.typeError "unsupported operand type(s) for -")

/-- Python sequence repetition `s * n` (a negative count yields the
empty sequence). -/
def repCount (n : Int) : Nat := n.toNat

/-- `operator.mul`, including str/list repetition by an int (or bool). -/
def pyMul (a b : Value) : Except RErr Value :=
  match a, b with
  | .str s, _ =>
    match numOf b with
    | some (.int n) => .ok (.str (String.join (List.replicate (repCount n) s)))
    | _ => .error (.typeError "can't multiply sequence by non-int")
  | _, .str s =>
    match numOf a with
    | some (.int n) => .ok (.str (String.join (List.replicate (repCount n) s)))
    | _ => .error (.typeError "can't multiply sequence by non-int")
  | .list xs, _ =>
    match numOf b with
    | some (.int n) => .ok (.list (List.flatten (List.replicate (repCount n) xs)))
    | _ => .error (.typeError "can't multiply sequence by non-int")
  | _, .list xs =>
    match numOf a with
    | some (.int n) => .ok (.list (List.flatten (List.replicate (repCount n) xs)))
    | _ => .error (.typeError "can't multiply sequence by non-int")
  | _, _ =>
    match numOf a, numOf b with
    | some x, some y => .ok (numPromote x y (· * ·) (· * ·))
    | _, _ => .error (.typeError "unsupported operand type(s) for *")

/-- `operator.truediv`: always a float; division by zero faults. -/
def pyDiv (a b : Value) : Except RErr Value :=
  match numOf a, numOf b with
  | some x, some y =>
    if y.toRat = 0 then .error .zeroDivisionError
    else .ok (.float (x.toRat / y.toRat))
  | _, _ => .error (.typeError "unsupported operand type(s) for /")

/-- `operator.mod` on numbers: the result carries the divisor's sign
(`Int.fmod`; floored modulo for floats).  A left string operand would be
host %-formatting, which is outside this embedding. -/
def pyMod (a b : Value) : Except RErr Value :=
  match a, b with
  | .str _, _ => .error .unmodeledFormat
  | _, _ =>
    match numOf a, numOf b with
    | some x, some y =>
      if y.toRat = 0 then .error .zeroDivisionError
      else
        match x, y with
        | .int m, .int n => .ok (.int (Int.fmod m n))
        | _, _ =>
          let q := x.toRat
          let d := y.toRat
          .ok (.float (q - d * (⌊q / d⌋ : Int)))
    | _, _ => .error (.typeError "unsupported operand type(s) for %")

mutual

/-- Python `<` for the orderable embedded kinds: numbers (with bool as
0/1), strings, and lists lexicographically; everything else is a
TypeError. -/
def pyLt : Value → Value → Except RErr Bool
  | .str x, .str y => .ok (decide (x < y))
  | .list xs, .list ys => pyLtList xs ys
  | a, b =>
    match numOf a, numOf b with
    | some x, some y => .ok (decide (x.toRat < y.toRat))
    | _, _ => .error (.typeError "'<' not supported between operand types")
termination_by a b => sizeOf a + sizeOf b
decreasing_by all_goals simp_arith

/-- Lexicographic `<` on lists, faulting where element comparison
does. -/
def pyLtList : List Value → List Value → Except RErr Bool
  | [], [] => .ok false
  | [], _ :: _ => .ok true
  | _ :: _, [] => .ok false
  | x :: xs, y :: ys =>
    if pyEq x y then pyLtList xs ys
    else pyLt x y
termination_by a b => sizeOf a + sizeOf b
decreasing_by all_goals simp_arith

end

/-- The six comparison operators, all defined from `<` and `==` the way
the host's total order on comparable values behaves. -/
def pyCompare (op : String) (a b : Value) : Except RErr Value :=
  match op with
  | "==" => .ok (.bool (pyEq a b))
  | "!=" => .ok (.bool (!pyEq a b))
  | "<" => (pyLt a b).map .bool
  | ">" => (pyLt b a).map .bool
  | "<=" =>
    match pyLt b a with
    | .ok r => .ok (.bool (!r))
    | .error e => .error e
  | ">=" =>
    match pyLt a b with
    | .ok r => .ok (.bool (!r))
    | .error e => .error e
  | _ => .error (.invalidOperator op)

/-- `range(start, end)` for the `..`/`...` operators: the host requires
integer (or bool) endpoints. -/
def pyRange (a b : Value) (closed : Bool) : Except RErr Value :=
  match numOf a, numOf b with
  | some (.int x), some (.int y) => .ok (.range x (if closed then y + 1 else y))
  | _, _ => .error (.typeError "'float' object cannot be interpreted as an integer")

/-- `operator.neg`. -/
def pyNeg (a : Value) : Except RErr Value :=
  match numOf a with
  | some (.int n) => .ok (.int (-n))
  | some (.float q) => .ok (.float (-q))
  | _ => .error (.typeError "bad operand type for unary -")

/-- Elements an abrvalg for-loop iterates: lists, ranges, strings
(characters), dicts (keys); anything else is the host's 'not iterable'
TypeError. -/
def toIter : Value → Except RErr (List Value)
  | .list xs => .ok xs
  | .range a b => .ok ((List.range (b - a).toNat).map (fun i => .int (a + i)))
  | .str s => .ok (s.data.map (fun c => .str (String.mk [c])))
  | .dict es => .ok (es.map (·.1))
  | _ => .error (.typeError "object is not iterable")

/-- Python `len`. -/
def pyLen : Value → Except RErr Value
  | .str s => .ok (.int s.length)
  | .list xs => .ok (.int xs.length)
  | .dict es => .ok (.int es.length)
  | .range a b => .ok (.int ((b - a).toNat))
  | _ => .error (.typeError "object has no len()")

/-- Normalize a Python index (negative counts from the end); `none` when
out of range. -/
def normIndex (i : Int) (len : Nat) : Option Nat :=
  let j := if i < 0 then i + len else i
  if 0 ≤ j ∧ j < len then some j.toNat else Option.none

/-- `collection[key]` (`eval_getitem`'s `collection[key]`). -/
def pyGetItem (c k : Value) : Except RErr Value :=
  match c with
  | .list xs =>
    match numOf k with
    | some (.int i) =>
      match normIndex i xs.length with
      | some j => .ok (xs.getD j .none)
      | Option.none => .error .indexError
    | _ => .error (.typeError "list indices must be integers")
  | .str s =>
    match numOf k with
    | some (.int i) =>
      match normIndex i s.length with
      | some j => .ok (.str (String.mk [s.data.getD j ' ']))
      | Option.none => .error .indexError
    | _ => .error (.typeError "string indices must be integers")
  | .range a b =>
    match numOf k with
    | some (.int i) =>
      match normIndex i ((b - a).toNat) with
      | some j => .ok (.int (a + j))
      | Option.none => .error .indexError
    | _ => .error (.typeError "range indices must be integers")
  | .dict es =>
    if hashable k then
      match pyDictLookup es k with
      | some v => .ok v
      | Option.none => .error .keyError
    else .error (.typeError "unhashable type")
  | _ => .error (.typeError "object is not subscriptable")

/-- Clamp one endpoint of a Python slice. -/
def sliceBound (i : Int) (len : Nat) : Nat :=
  (if i < 0 then max 0 (i + len) else min i len).toNat

/-- `list(iter[start:stop])` of the `slice` builtin, over lists, strings
and ranges (the slice of a string or range is converted to a list by the
surrounding `list(...)`). -/
def pySlice (c start stop : Value) : Except RErr Value :=
  match numOf start, numOf stop with
  | some (.int i), some (.int j) =>
    match c with
    | .list xs =>
      .ok (.list ((xs.take (sliceBound j xs.length)).drop (sliceBound i xs.length)))
    | .str s =>
      .ok (.list ((((s.data.take (sliceBound j s.length))).drop (sliceBound i s.length)).map
        (fun ch => .str (String.mk [ch]))))
    | .range a b =>
      let len := (b - a).toNat
      .ok (.list (((((List.range len).take (sliceBound j len))).drop (sliceBound i len)).map
        (fun m => Value.int (a + m))))
    | _ => .error (.typeError "object is not subscriptable")
  | _, _ => .error (.typeError "slice indices must be integers")

/-- Decimal rendering of a float modelled as a rational: exact for the
integral case (`"2.0"`), an explicit fraction otherwise.  Host float
repr is approximated; no theorem depends on it. -/
def floatStr (q : Rat) : String :=
  if q.den = 1 then toString q.num ++ ".0"
  else toString q.num ++ "/" ++ toString q.den

mutual

/-- Python `str(value)` over the embedded kinds (container rendering
approximates the host's repr; no theorem depends on it). -/
def pyStr : Value → String
  | .none => "None"
  | .bool b => if b then "True" else "False"
  | .int n => toString n
  | .float q => floatStr q
  | .str s => s
  | .list xs => "[" ++ pyStrJoin xs ++ "]"
  | .dict es => "\x7b" ++ pyStrJoinPairs es ++ "\x7d"
  | .range a b => "range(" ++ toString a ++ ", " ++ toString b ++ ")"
  | .builtin _ _ => "BuiltinFunction"
  | .func _ _ _ => "Function"

/-- `repr` of a list element: strings get quoted. -/
def pyReprElem : Value → String
  | .str s => "'" ++ s ++ "'"
  | v => pyStr v

def pyStrJoin : List Value → String
  | [] => ""
  | [x] => pyReprElem x
  | x :: rest => pyReprElem x ++ ", " ++ pyStrJoin rest

def pyStrJoinPairs : List (Value × Value) → String
  | [] => ""
  | [(k, v)] => pyReprElem k ++ ": " ++ pyReprElem v
  | (k, v) :: rest => pyReprElem k ++ ": " ++ pyReprElem v ++ ", " ++ pyStrJoinPairs rest

end

/-- Python `int(s)` for a string: optional surrounding whitespace,
optional sign, one or more digits. -/
def intOfString (s : String) : Except RErr Value :=
  let cs := (s.data.dropWhile (· = ' ')).reverse.dropWhile (· = ' ') |>.reverse
  let (neg, ds) :=
    match cs with
    | '-' :: rest => (true, rest)
    | '+' :: rest => (false, rest)
    | rest => (false, rest)
  if ds.isEmpty ∨ ¬ds.all isDigit then .error .valueError
  else .ok (.int (if neg then -(digitsToNat ds : Int) else (digitsToNat ds : Int)))

/-- Python `int(value)`: ints and bools pass through, floats truncate
toward zero, strings parse, everything else is a TypeError. -/
def pyInt : Value → Except RErr Value
  | .int n => .ok (.int n)
  | .bool b => .ok (.int (if b then 1 else 0))
  | .float q => .ok (.int (q.num / (q.den : Int)))
  | .str s => intOfString s
  | _ => .error (.typeError "int() argument must be a string or a number")

/-! ## The evaluator (`interpreter.py`) -/

/-- The `simple_operations` table of `eval_binary_operator`. -/
def isSimpleOp (op : String) : Bool :=
  op ∈ ["+", "-", "*", "/", "%", ">", ">=", "<", "<=", "==", "!=", "..", "..."]

/-- Apply one of the `simple_operations` to already-evaluated
operands. -/
def simpleBinOp (op : String) (l r : Value) : Except RErr Value :=
  match op with
  | "+" => pyAdd l r
  | "-" => pySub l r
  | "*" => pyMul l r
  | "/" => pyDiv l r
  | "%" => pyMod l r
  | ".." => pyRange l r false
  | "..." => pyRange l r true
  | ">" | ">=" | "<" | "<=" | "==" | "!=" => pyCompare op l r
  | _ => .error (.invalidOperator op)   -- unreachable under isSimpleOp

/-- `function.params`: only function values have a `params` field;
anything else is a raw AttributeError. -/
def fnParams : Value → Option (List TokenVal)
  | .builtin ps _ => some ps
  | .func _ ps _ => some ps
  | _ => Option.none

/-- `'Expected {} arguments, got {}'`. -/
def arityMsg (exp got : Nat) : String :=
  "Expected " ++ toString exp ++ " arguments, got " ++ toString got

/-- `dict(zip(function.params, arg_values))` followed by
`Environment._from_dict`: bind by position, later duplicates
overwriting earlier ones. -/
def bindParams (params : List TokenVal) (vals : List Value) : Frame :=
  (params.zip vals).foldl (fun fr p => fr.set p.1 p.2) []

/-- Discard the callee frame after `eval_call` returns, resuming the
caller's environment chain (a call environment always has an ancestor,
so the `[]` branch is unreachable). -/
def popCallEnv (e : Env) : Env :=
  match e.rest with
  | h :: t => ⟨h, t⟩
  | [] => ⟨e.head, []⟩

/-- The native bodies of `add_builtins`, applied to the bound-argument
frame and the caller's environment.  `print`'s output is not observed by
the embedding; it returns `None` like the host `print`. -/
def applyBuiltin (name : BName) (args : Frame) (env : Env) : Res :=
  match name with
  | .print =>
    match Frame.get? args (.str "value") with
    | some _ => .ok .none env
    | Option.none => .exn (.err .keyError) env
  | .len =>
    match Frame.get? args (.str "iter") with
    | some v =>
      match pyLen v with
      | .ok r => .ok r env
      | .error e => .exn (.err e) env
    | Option.none => .exn (.err .keyError) env
  | .slice =>
    match Frame.get? args (.str "iter"), Frame.get? args (.str "start"),
          Frame.get? args (.str "stop") with
    | some c, some i, some j =>
      match pySlice c i j with
      | .ok r => .ok r env
      | .error e => .exn (.err e) env
    | _, _, _ => .exn (.err .keyError) env
  | .str =>
    match Frame.get? args (.str "in") with
    | some v => .ok (.str (pyStr v)) env
    | Option.none => .exn (.err .keyError) env
  | .int =>
    match Frame.get? args (.str "in") with
    | some v =>
      match pyInt v with
      | .ok r => .ok r env
      | .error e => .exn (.err e) env
    | Option.none => .exn (.err .keyError) env

/-- `isinstance(node, ast.Break)` etc., as the interpreter tests them. -/
def Ast.isBreak : Ast → Bool
  | .breakStmt => true
  | _ => false

def Ast.isContinue : Ast → Bool
  | .continueStmt => true
  | _ => false

def Ast.isReturn : Ast → Bool
  | .returnStmt _ => true
  | _ => false

/-- `isinstance(node.left, ast.SubscriptOperator)`. -/
def Ast.isSubscript : Ast → Bool
  | .subscript _ _ => true
  | _ => false

/-- The `.value` attribute of an AST node: present on `Number`, `String`
and `Identifier` nodes, an AttributeError elsewhere. -/
def Ast.valueAttr : Ast → Option TokenVal
  | .number v => some v
  | .string v => some v
  | .identifier v => some v
  | _ => Option.none

mutual

/-- `eval_node` (hence `eval_expression` and `eval_statement`): dispatch
on the node kind.  `Break`/`Continue` nodes have no evaluator — they are
intercepted by `eval_statements` — so reaching them here is the
'Unknown node' fault. -/
def evalNode : Nat → Ast → Env → Res
  | 0, _, env => .exn (.err .fuel) env
  | f + 1, node, env =>
    match node with
    | .number v => .ok v.toValue env
    | .string v => .ok v.toValue env
    | .identifier k =>
      -- eval_identifier: a name resolved to None (absent OR bound to
      -- the nothing value) is a NameError
      let val := env.get k
      if val.isNone then .exn (.err (.nameError k)) env else .ok val env
    | .array items =>
      match evalExprList f items env with
      | .exn e e' => .exn e e'
      | .ok vs env₁ => .ok (.list vs) env₁
    | .dictionary items =>
      match evalDictItems f items [] env with
      | .exn e e' => .exn e e'
      | .ok ps env₁ => .ok (.dict ps) env₁
    | .binaryOperator op l r =>
      if isSimpleOp op then
        match evalNode f l env with
        | .exn e e' => .exn e e'
        | .ok lv env₁ =>
          match evalNode f r env₁ with
          | .exn e e' => .exn e e'
          | .ok rv env₂ =>
            match simpleBinOp op lv rv with
            | .ok v => .ok v env₂
            | .error err => .exn (.err err) env₂
      else if op = "&&" then
        -- bool(eval(left)) and bool(eval(right)): the right operand is
        -- evaluated only when the left is truthy
        match evalNode f l env with
        | .exn e e' => .exn e e'
        | .ok lv env₁ =>
          if truthy lv then
            match evalNode f r env₁ with
            | .exn e e' => .exn e e'
            | .ok rv env₂ => .ok (.bool (truthy rv)) env₂
          else .ok (.bool false) env₁
      else if op = "||" then
        -- bool(eval(left)) or bool(eval(right))
        match evalNode f l env with
        | .exn e e' => .exn e e'
        | .ok lv env₁ =>
          if truthy lv then .ok (.bool true) env₁
          else
            match evalNode f r env₁ with
            | .exn e e' => .exn e e'
            | .ok rv env₂ => .ok (.bool (truthy rv)) env₂
      else .exn (.err (.invalidOperator op)) env
    | .unaryOperator op r =>
      -- operations[node.operator] is looked up before the operand is
      -- evaluated (KeyError for an unsupported operator)
      if op = "-" then
        match evalNode f r env with
        | .exn e e' => .exn e e'
        | .ok v env₁ =>
          match pyNeg v with
          | .ok nv => .ok nv env₁
          | .error err => .exn (.err err) env₁
      else if op = "!" then
        match evalNode f r env with
        | .exn e e' => .exn e e'
        | .ok v env₁ => .ok (.bool (!truthy v)) env₁
      else .exn (.err .keyError) env
    | .subscript l k =>
      match evalNode f l env with
      | .exn e e' => .exn e e'
      | .ok cv env₁ =>
        match evalNode f k env₁ with
        | .exn e e' => .exn e e'
        | .ok kv env₂ =>
          match pyGetItem cv kv with
          | .ok v => .ok v env₂
          | .error err => .exn (.err err) env₂
    | .assignment left right =>
      -- eval_assignment: a subscript target is eval_setitem (in-place
      -- host mutation, outside this embedding — header note); otherwise
      -- env.set(node.left.value, eval_expression(node.right, env)):
      -- the .value attribute access comes first, then the right-hand
      -- side is evaluated, then the current frame is written
      if left.isSubscript then .exn (.err .unmodeledMutation) env
      else
        match left.valueAttr with
        | Option.none => .exn (.err .attributeError) env
        | some k =>
          match right with
          | Option.none => .exn (.err .unknownNode) env
          | some re =>
            match evalNode f re env with
            | .exn e e' => .exn e e'
            | .ok v env₁ => .ok .none (env₁.set k v)
    | .condition test ifb elifs elseb =>
      match evalNode f test env with
      | .exn e e' => .exn e e'
      | .ok tv env₁ =>
        if truthy tv then evalStmtsAux f ifb .none env₁
        else evalElifs f elifs elseb env₁
    | .matchStmt test patterns elseb =>
      match test with
      | Option.none => .exn (.err .unknownNode) env
      | some te =>
        match evalNode f te env with
        | .exn e e' => .exn e e'
        | .ok tv env₁ => evalMatchClauses f tv patterns elseb env₁
    | .whileLoop t b => evalWhile f t b env
    | .forLoop var coll body =>
      match coll with
      | Option.none => .exn (.err .unknownNode) env
      | some ce =>
        match evalNode f ce env with
        | .exn e e' => .exn e e'
        | .ok cv env₁ =>
          match toIter cv with
          | .error err => .exn (.err err) env₁
          | .ok vs => evalForIter f var vs body env₁
    | .function name params body =>
      -- eval_function_declaration: bind the node itself in the CURRENT
      -- environment; env.set returns None
      .ok .none (env.set name (.func name params body))
    | .call left args =>
      -- eval_call: resolve the callee, check arity against
      -- function.params BEFORE evaluating any argument expression, then
      -- bind arguments by position and run the native body (builtin) or
      -- the function body in a FRESH frame parented on the caller's
      -- current environment; a Return raised in the body is caught
      -- exactly at this boundary
      match evalNode f left env with
      | .exn e e' => .exn e e'
      | .ok fv env₁ =>
        match fv with
        | .builtin bps bname =>
          if bps.length ≠ args.length then
            .exn (.err (.typeError (arityMsg bps.length args.length))) env₁
          else
            match evalExprList f args env₁ with
            | .exn e e' => .exn e e'
            | .ok vals env₂ => applyBuiltin bname (bindParams bps vals) env₂
        | .func _ fps fbody =>
          if fps.length ≠ args.length then
            .exn (.err (.typeError (arityMsg fps.length args.length))) env₁
          else
            match evalExprList f args env₁ with
            | .exn e e' => .exn e e'
            | .ok vals env₂ =>
              match evalStmtsAux f fbody .none ⟨bindParams fps vals, env₂.head :: env₂.rest⟩ with
              | .ok v e' => .ok v (popCallEnv e')
              | .exn x e' =>
                match x with
                | .ret v => .ok v (popCallEnv e')
                | .err er => .exn (.err er) (popCallEnv e')
                | .brk v => .exn (.brk v) (popCallEnv e')
                | .cont v => .exn (.cont v) (popCallEnv e')
        | _ => .exn (.err .attributeError) env₁   -- function.params on a non-function
    | .returnStmt v =>
      -- eval_return produces the carried value; the Return SIGNAL is
      -- raised by eval_statements
      match v with
      | Option.none => .ok .none env
      | some e =>
        match evalNode f e env with
        | .exn ex e' => .exn ex e'
        | .ok rv env₁ => .ok rv env₁
    | .breakStmt => .exn (.err .unknownNode) env
    | .continueStmt => .exn (.err .unknownNode) env

/-- `eval_statements` with its running `ret`: a `Break`/`Continue` node
raises the signal (carrying `ret`) before evaluation; a `Return`
statement's value is raised as the Return signal; otherwise the last
statement's value is returned. -/
def evalStmtsAux : Nat → List Ast → Value → Env → Res
  | 0, _, _, env => .exn (.err .fuel) env
  | _ + 1, [], ret, env => .ok ret env
  | f + 1, s :: rest, ret, env =>
    if s.isBreak then .exn (.brk ret) env
    else if s.isContinue then .exn (.cont ret) env
    else
      match evalNode f s env with
      | .exn e e' => .exn e e'
      | .ok v env₁ =>
        if s.isReturn then .exn (.ret v) env₁
        else evalStmtsAux f rest v env₁

/-- `eval_while_loop`: re-test, run the body, catch Break (ending the
loop) and Continue (re-testing); the loop's value is None. -/
def evalWhile : Nat → Ast → List Ast → Env → Res
  | 0, _, _, env => .exn (.err .fuel) env
  | f + 1, test, body, env =>
    match evalNode f test env with
    | .exn e e' => .exn e e'
    | .ok tv env₁ =>
      if truthy tv then
        match evalStmtsAux f body .none env₁ with
        | .ok _ e' => evalWhile f test body e'
        | .exn x e' =>
          match x with
          | .brk _ => .ok .none e'
          | .cont _ => evalWhile f test body e'
          | .err er => .exn (.err er) e'
          | .ret v => .exn (.ret v) e'
      else .ok .none env₁

/-- `eval_for_loop`'s iteration: bind the loop variable IN THE CURRENT
ENVIRONMENT (no child scope), run the body, catch Break/Continue. -/
def evalForIter : Nat → TokenVal → List Value → List Ast → Env → Res
  | 0, _, _, _, env => .exn (.err .fuel) env
  | _ + 1, _, [], _, env => .ok .none env
  | f + 1, var, v :: vs, body, env =>
    match evalStmtsAux f body .none (env.set var v) with
    | .ok _ e' => evalForIter f var vs body e'
    | .exn x e' =>
      match x with
      | .brk _ => .ok .none e'
      | .cont _ => evalForIter f var vs body e'
      | .err er => .exn (.err er) e'
      | .ret w => .exn (.ret w) e'

/-- Left-to-right evaluation of an expression list (array items, call
arguments). -/
def evalExprList : Nat → List Ast → Env → ResL
  | 0, _, env => .exn (.err .fuel) env
  | _ + 1, [], env => .ok [] env
  | f + 1, a :: rest, env =>
    match evalNode f a env with
    | .exn e e' => ResL.exn e e'
    | .ok v env₁ =>
      match evalExprList f rest env₁ with
      | .exn e e' => .exn e e'
      | .ok vs env₂ => .ok (v :: vs) env₂

/-- `eval_dict`: evaluate each key then value, inserting as Python's
dict comprehension does (unhashable keys fault at insertion). -/
def evalDictItems : Nat → List (Ast × Ast) → List (Value × Value) → Env → ResP
  | 0, _, _, env => .exn (.err .fuel) env
  | _ + 1, [], acc, env => .ok acc env
  | f + 1, (ke, ve) :: rest, acc, env =>
    match evalNode f ke env with
    | .exn e e' => ResP.exn e e'
    | .ok kv env₁ =>
      match evalNode f ve env₁ with
      | .exn e e' => ResP.exn e e'
      | .ok vv env₂ =>
        if hashable kv then evalDictItems f rest (pyDictInsert acc kv vv) env₂
        else .exn (.err (.typeError "unhashable type")) env₂

/-- The elif/else cascade of `eval_condition` (value None when no branch
is taken). -/
def evalElifs : Nat → List (Ast × List Ast) → Option (List Ast) → Env → Res
  | 0, _, _, env => .exn (.err .fuel) env
  | f + 1, [], elseb, env =>
    match elseb with
    | some b => evalStmtsAux f b .none env
    | Option.none => .ok .none env
  | f + 1, (t, b) :: rest, elseb, env =>
    match evalNode f t env with
    | .exn e e' => .exn e e'
    | .ok tv env₁ =>
      if truthy tv then evalStmtsAux f b .none env₁
      else evalElifs f rest elseb env₁

/-- The pattern cascade of `eval_match`: first pattern whose value `==`
the subject wins. -/
def evalMatchClauses : Nat → Value → List (Ast × List Ast) → Option (List Ast) → Env → Res
  | 0, _, _, _, env => .exn (.err .fuel) env
  | f + 1, _, [], elseb, env =>
    match elseb with
    | some b => evalStmtsAux f b .none env
    | Option.none => .ok .none env
  | f + 1, tv, (p, b) :: rest, elseb, env =>
    match evalNode f p env with
    | .exn e e' => .exn e e'
    | .ok pv env₁ =>
      if pyEq pv tv then evalStmtsAux f b .none env₁
      else evalMatchClauses f tv rest elseb env₁

end

/-- `eval_statements` proper (running value starts as None). -/
def evalStatements (f : Nat) (stmts : List Ast) (env : Env) : Res :=
  evalStmtsAux f stmts .none env

/-- `add_builtins`: seed the five builtins, in insertion order. -/
def add_builtins (env : Env) : Env :=
  ((((env.set (.str "print") (.builtin [.str "value"] .print)).set
    (.str "len") (.builtin [.str "iter"] .len)).set
    (.str "slice") (.builtin [.str "iter", .str "start", .str "stop"] .slice)).set
    (.str "str") (.builtin [.str "in"] .str)).set
    (.str "int") (.builtin [.str "in"] .int)

/-- `create_global_env`. -/
def create_global_env : Env := add_builtins ⟨[], []⟩

/-- The full pipeline of `evaluate` (non-verbose): lex, parse, evaluate
against a fresh global environment.  Lexical/syntax failures stop before
evaluation; the evaluation result (value or runtime fault) is returned
as a `Res`. -/
def evaluate (f : Nat) (s : String) : Except Failure Res :=
  match parseSource f s with
  | .error e => .error e
  | .ok prog => .ok (evalStatements f prog create_global_env)

/-! ## The environment-chain invariant

`Environment.set` only ever writes the innermost frame, and `eval_call`
discards the callee frame on every exit path, so no evaluation step can
change the ancestor frames of the environment it was handed.  This is
the structural fact behind the data-model sentence that each frame is
owned by the evaluation that created it. -/

/-- The ancestor frames carried by a result. -/
def Res.restOf : Res → List Frame
  | .ok _ e => e.rest
  | .exn _ e => e.rest

@[simp] theorem Res.restOf_ok (v : Value) (e : Env) : (Res.ok v e).restOf = e.rest := rfl

@[simp] theorem Res.restOf_exn (x : Exn) (e : Env) : (Res.exn x e).restOf = e.rest := rfl

def ResL.restOf : ResL → List Frame
  | .ok _ e => e.rest
  | .exn _ e => e.rest

@[simp] theorem ResL.restOfL_ok (vs : List Value) (e : Env) : (ResL.ok vs e).restOf = e.rest := rfl

@[simp] theorem ResL.restOfL_exn (x : Exn) (e : Env) : (ResL.exn x e).restOf = e.rest := rfl

def ResP.restOf : ResP → List Frame
  | .ok _ e => e.rest
  | .exn _ e => e.rest

@[simp] theorem ResP.restOfP_ok (ps : List (Value × Value)) (e : Env) :
    (ResP.ok ps e).restOf = e.rest := rfl

@[simp] theorem ResP.restOfP_exn (x : Exn) (e : Env) : (ResP.exn x e).restOf = e.rest := rfl

@[simp] theorem Env.set_rest (e : Env) (k : TokenVal) (v : Value) :
    (e.set k v).rest = e.rest := rfl

/-- Every builtin body returns the caller's environment unchanged. -/
theorem applyBuiltin_rest (n : BName) (args : Frame) (env : Env) :
    (applyBuiltin n args env).restOf = env.rest := by
  cases n <;> simp only [applyBuiltin] <;> (repeat' split) <;> simp

theorem restOf_eq_ok {r : Res} {v : Value} {e' : Env} {L : List Frame}
    (h : r = .ok v e') (hr : r.restOf = L) : e'.rest = L := by
  subst h; simpa using hr

theorem restOf_eq_exn {r : Res} {x : Exn} {e' : Env} {L : List Frame}
    (h : r = .exn x e') (hr : r.restOf = L) : e'.rest = L := by
  subst h; simpa using hr

theorem restOfL_eq_ok {r : ResL} {vs : List Value} {e' : Env} {L : List Frame}
    (h : r = .ok vs e') (hr : r.restOf = L) : e'.rest = L := by
  subst h; simpa using hr

theorem restOfL_eq_exn {r : ResL} {x : Exn} {e' : Env} {L : List Frame}
    (h : r = .exn x e') (hr : r.restOf = L) : e'.rest = L := by
  subst h; simpa using hr

theorem restOfP_eq_ok {r : ResP} {ps : List (Value × Value)} {e' : Env} {L : List Frame}
    (h : r = .ok ps e') (hr : r.restOf = L) : e'.rest = L := by
  subst h; simpa using hr

theorem restOfP_eq_exn {r : ResP} {x : Exn} {e' : Env} {L : List Frame}
    (h : r = .exn x e') (hr : r.restOf = L) : e'.rest = L := by
  subst h; simpa using hr

/-- No evaluation step changes the ancestor frames of the environment it
was handed: only the innermost frame is ever written, and `eval_call`
pops the callee frame on every exit path. -/
theorem restInvariant (f : Nat) :
    (∀ node env, (evalNode f node env).restOf = env.rest) ∧
    (∀ stmts ret env, (evalStmtsAux f stmts ret env).restOf = env.rest) ∧
    (∀ t b env, (evalWhile f t b env).restOf = env.rest) ∧
    (∀ var vs b env, (evalForIter f var vs b env).restOf = env.rest) ∧
    (∀ es env, (evalExprList f es env).restOf = env.rest) ∧
    (∀ its acc env, (evalDictItems f its acc env).restOf = env.rest) ∧
    (∀ cl eb env, (evalElifs f cl eb env).restOf = env.rest) ∧
    (∀ tv cl eb env, (evalMatchClauses f tv cl eb env).restOf = env.rest) := by
  induction f with
  | zero =>
    refine ⟨?_, ?_, ?_, ?_, ?_, ?_, ?_, ?_⟩ <;> intros <;>
      simp [evalNode, evalStmtsAux, evalWhile, evalForIter, evalExprList,
            evalDictItems, evalElifs, evalMatchClauses]
  | succ f ih =>
    obtain ⟨ihN, ihS, ihW, ihF, ihL, ihP, ihE, ihM⟩ := ih
    refine ⟨?_, ?_, ?_, ?_, ?_, ?_, ?_, ?_⟩
    · -- evalNode
      intro node env
      cases node with
      | number v => simp [evalNode]
      | string v => simp [evalNode]
      | identifier k => simp only [evalNode]; split <;> simp
      | array items =>
        simp only [evalNode]
        split
        next e e' heq => simpa using restOfL_eq_exn heq (ihL items env)
        next vs env₁ heq => simpa using restOfL_eq_ok heq (ihL items env)
      | dictionary items =>
        simp only [evalNode]
        split
        next e e' heq => simpa using restOfP_eq_exn heq (ihP items [] env)
        next ps env₁ heq => simpa using restOfP_eq_ok heq (ihP items [] env)
      | binaryOperator op l r =>
        simp only [evalNode]
        split
        · -- simple operator
          split
          next e e' heq => simpa using restOf_eq_exn heq (ihN l env)
          next lv env₁ heq =>
            have he₁ := restOf_eq_ok heq (ihN l env)
            split
            next e e' heq₂ => simpa using (restOf_eq_exn heq₂ (ihN r env₁)).trans he₁
            next rv env₂ heq₂ =>
              have he₂ := (restOf_eq_ok heq₂ (ihN r env₁)).trans he₁
              split <;> simpa using he₂
        · split
          · -- &&
            split
            next e e' heq => simpa using restOf_eq_exn heq (ihN l env)
            next lv env₁ heq =>
              have he₁ := restOf_eq_ok heq (ihN l env)
              split
              · split
                next e e' heq₂ => simpa using (restOf_eq_exn heq₂ (ihN r env₁)).trans he₁
                next rv env₂ heq₂ => simpa using (restOf_eq_ok heq₂ (ihN r env₁)).trans he₁
              · simpa using he₁
          · split
            · -- ||
              split
              next e e' heq => simpa using restOf_eq_exn heq (ihN l env)
              next lv env₁ heq =>
                have he₁ := restOf_eq_ok heq (ihN l env)
                split
                · simpa using he₁
                · split
                  next e e' heq₂ => simpa using (restOf_eq_exn heq₂ (ihN r env₁)).trans he₁
                  next rv env₂ heq₂ => simpa using (restOf_eq_ok heq₂ (ihN r env₁)).trans he₁
            · simp
      | unaryOperator op r =>
        simp only [evalNode]
        split
        · split
          next e e' heq => simpa using restOf_eq_exn heq (ihN r env)
          next v env₁ heq =>
            have he₁ := restOf_eq_ok heq (ihN r env)
            split <;> simpa using he₁
        · split
          · split
            next e e' heq => simpa using restOf_eq_exn heq (ihN r env)
            next v env₁ heq => simpa using restOf_eq_ok heq (ihN r env)
          · simp
      | subscript l k =>
        simp only [evalNode]
        split
        next e e' heq => simpa using restOf_eq_exn heq (ihN l env)
        next cv env₁ heq =>
          have he₁ := restOf_eq_ok heq (ihN l env)
          split
          next e e' heq₂ => simpa using (restOf_eq_exn heq₂ (ihN k env₁)).trans he₁
          next kv env₂ heq₂ =>
            have he₂ := (restOf_eq_ok heq₂ (ihN k env₁)).trans he₁
            split <;> simpa using he₂
      | assignment left right =>
        simp only [evalNode]
        split
        · simp
        · split
          · simp
          next k heq =>
            cases right with
            | none => simp
            | some re =>
              simp only []
              split
              next e e' heq₂ => simpa using restOf_eq_exn heq₂ (ihN re env)
              next v env₁ heq₂ => simpa using restOf_eq_ok heq₂ (ihN re env)
      | condition test ifb elifs elseb =>
        simp only [evalNode]
        split
        next e e' heq => simpa using restOf_eq_exn heq (ihN test env)
        next tv env₁ heq =>
          have he₁ := restOf_eq_ok heq (ihN test env)
          split
          · exact (ihS ifb .none env₁).trans he₁
          · exact (ihE elifs elseb env₁).trans he₁
      | matchStmt test patterns elseb =>
        simp only [evalNode]
        cases test with
        | none => simp
        | some te =>
          simp only []
          split
          next e e' heq => simpa using restOf_eq_exn heq (ihN te env)
          next tv env₁ heq =>
            exact (ihM tv patterns elseb env₁).trans (restOf_eq_ok heq (ihN te env))
      | whileLoop t b => simpa [evalNode] using ihW t b env
      | forLoop var coll body =>
        simp only [evalNode]
        cases coll with
        | none => simp
        | some ce =>
          simp only []
          split
          next e e' heq => simpa using restOf_eq_exn heq (ihN ce env)
          next cv env₁ heq =>
            have he₁ := restOf_eq_ok heq (ihN ce env)
            split
            next err heq₂ => simpa using he₁
            next vs heq₂ => exact (ihF var vs body env₁).trans he₁
      | function name params body => simp [evalNode]
      | call left args =>
        simp only [evalNode]
        split
        next e e' heq => simpa using restOf_eq_exn heq (ihN left env)
        next fv env₁ heq =>
          have he₁ := restOf_eq_ok heq (ihN left env)
          split
          next bps bname =>
            split
            · simpa using he₁
            · split
              next e e' heq₂ => simpa using (restOfL_eq_exn heq₂ (ihL args env₁)).trans he₁
              next vals env₂ heq₂ =>
                have he₂ := (restOfL_eq_ok heq₂ (ihL args env₁)).trans he₁
                exact (applyBuiltin_rest bname (bindParams bps vals) env₂).trans he₂
          next _fname fps fbody =>
            split
            · simpa using he₁
            · split
              next e e' heq₂ => simpa using (restOfL_eq_exn heq₂ (ihL args env₁)).trans he₁
              next vals env₂ heq₂ =>
                have he₂ := (restOfL_eq_ok heq₂ (ihL args env₁)).trans he₁
                have hbody := ihS fbody .none ⟨bindParams fps vals, env₂.head :: env₂.rest⟩
                split
                next v e' heq₃ =>
                  have h' : e'.rest = env₂.head :: env₂.rest := restOf_eq_ok heq₃ hbody
                  simpa [popCallEnv, h'] using he₂
                next x e' heq₃ =>
                  have h' : e'.rest = env₂.head :: env₂.rest := restOf_eq_exn heq₃ hbody
                  cases x <;> simpa [popCallEnv, h'] using he₂
          next => simpa using he₁
      | returnStmt v =>
        simp only [evalNode]
        cases v with
        | none => simp
        | some e =>
          simp only []
          split
          next ex e' heq => simpa using restOf_eq_exn heq (ihN e env)
          next rv env₁ heq => simpa using restOf_eq_ok heq (ihN e env)
      | breakStmt => simp [evalNode]
      | continueStmt => simp [evalNode]
    · -- evalStmtsAux
      intro stmts ret env
      cases stmts with
      | nil => simp [evalStmtsAux]
      | cons s rest =>
        simp only [evalStmtsAux]
        split
        · simp
        · split
          · simp
          · split
            next e e' heq => simpa using restOf_eq_exn heq (ihN s env)
            next v env₁ heq =>
              have he₁ := restOf_eq_ok heq (ihN s env)
              split
              · simpa using he₁
              · exact (ihS rest v env₁).trans he₁
    · -- evalWhile
      intro t b env
      simp only [evalWhile]
      split
      next e e' heq => simpa using restOf_eq_exn heq (ihN t env)
      next tv env₁ heq =>
        have he₁ := restOf_eq_ok heq (ihN t env)
        split
        · split
          next v e' heq₂ =>
            exact (ihW t b e').trans ((restOf_eq_ok heq₂ (ihS b .none env₁)).trans he₁)
          next x e' heq₂ =>
            have he₂ := (restOf_eq_exn heq₂ (ihS b .none env₁)).trans he₁
            cases x with
            | err er => simpa using he₂
            | brk v => simpa using he₂
            | cont v => exact (ihW t b e').trans he₂
            | ret v => simpa using he₂
        · simpa using he₁
    · -- evalForIter
      intro var vs b env
      cases vs with
      | nil => simp [evalForIter]
      | cons v vtail =>
        simp only [evalForIter]
        split
        next w e' heq =>
          exact (ihF var vtail b e').trans
            ((restOf_eq_ok heq (ihS b .none (env.set var v))).trans (by simp))
        next x e' heq =>
          have he₂ : e'.rest = env.rest :=
            (restOf_eq_exn heq (ihS b .none (env.set var v))).trans (by simp)
          cases x with
          | err er => simpa using he₂
          | brk w => simpa using he₂
          | cont w => exact (ihF var vtail b e').trans he₂
          | ret w => simpa using he₂
    · -- evalExprList
      intro es env
      cases es with
      | nil => simp [evalExprList]
      | cons a rest =>
        simp only [evalExprList]
        split
        next e e' heq => simpa using restOf_eq_exn heq (ihN a env)
        next v env₁ heq =>
          have he₁ := restOf_eq_ok heq (ihN a env)
          split
          next e e' heq₂ => simpa using (restOfL_eq_exn heq₂ (ihL rest env₁)).trans he₁
          next vs env₂ heq₂ => simpa using (restOfL_eq_ok heq₂ (ihL rest env₁)).trans he₁
    · -- evalDictItems
      intro its acc env
      cases its with
      | nil => simp [evalDictItems]
      | cons kv rest =>
        obtain ⟨ke, ve⟩ := kv
        simp only [evalDictItems]
        split
        next e e' heq => simpa using restOf_eq_exn heq (ihN ke env)
        next k env₁ heq =>
          have he₁ := restOf_eq_ok heq (ihN ke env)
          split
          next e e' heq₂ => simpa using (restOf_eq_exn heq₂ (ihN ve env₁)).trans he₁
          next v env₂ heq₂ =>
            have he₂ := (restOf_eq_ok heq₂ (ihN ve env₁)).trans he₁
            split
            · exact (ihP rest (pyDictInsert acc k v) env₂).trans he₂
            · simpa using he₂
    · -- evalElifs
      intro cl eb env
      cases cl with
      | nil =>
        simp only [evalElifs]
        cases eb with
        | none => simp
        | some b => exact ihS b .none env
      | cons c rest =>
        obtain ⟨t, b⟩ := c
        simp only [evalElifs]
        split
        next e e' heq => simpa using restOf_eq_exn heq (ihN t env)
        next tv env₁ heq =>
          have he₁ := restOf_eq_ok heq (ihN t env)
          split
          · exact (ihS b .none env₁).trans he₁
          · exact (ihE rest eb env₁).trans he₁
    · -- evalMatchClauses
      intro tv cl eb env
      cases cl with
      | nil =>
        simp only [evalMatchClauses]
        cases eb with
        | none => simp
        | some b => exact ihS b .none env
      | cons c rest =>
        obtain ⟨p, b⟩ := c
        simp only [evalMatchClauses]
        split
        next e e' heq => simpa using restOf_eq_exn heq (ihN p env)
        next pv env₁ heq =>
          have he₁ := restOf_eq_ok heq (ihN p env)
          split
          · exact (ihS b .none env₁).trans he₁
          · exact (ihM tv rest eb env₁).trans he₁

/-! ## Characterizing environment lookup (claim C1) -/

/-- The first frame along the chain that binds `k` to a value OTHER
than the nothing value, and that value; `none` when every frame leaves
`k` unbound or bound to nothing.  This is what `Environment.get`
actually computes (see `env_get_eq_firstNonNone`): a binding to the
nothing value is skipped exactly like an absent binding. -/
def firstNonNoneBinding : List Frame → TokenVal → Option Value
  | [], _ => Option.none
  | f :: rest, k =>
    match Frame.get? f k with
    | some v => if v.isNone then firstNonNoneBinding rest k else some v
    | Option.none => firstNonNoneBinding rest k

theorem firstNonNoneBinding_not_none {fs : List Frame} {k : TokenVal} {v : Value}
    (h : firstNonNoneBinding fs k = some v) : v.isNone = false := by
  induction fs with
  | nil => simp [firstNonNoneBinding] at h
  | cons f rest ih =>
    simp only [firstNonNoneBinding] at h
    split at h
    next w hw =>
      split at h
      · exact ih h
      next hv => cases h; simpa using hv
    next => exact ih h

theorem envGetFrames_eq_firstNonNone (parents : List Frame) (f : Frame) (k : TokenVal) :
    envGetFrames f parents k = (firstNonNoneBinding (f :: parents) k).getD .none := by
  induction parents generalizing f with
  | nil =>
    simp only [envGetFrames, firstNonNoneBinding]
    cases hv : Frame.get? f k with
    | none => simp
    | some v =>
      simp only [Option.getD_some]
      split
      next h => cases v <;> simp_all [Value.isNone, firstNonNoneBinding]
      next h => simp
  | cons g gs ih =>
    simp only [envGetFrames, firstNonNoneBinding]
    cases hv : Frame.get? f k with
    | none => simpa [Value.isNone] using ih g
    | some v =>
      cases hn : v.isNone with
      | true => simpa [hn] using ih g
      | false => simp [hn]

/-- `Environment.get` returns the value of the nearest frame binding the
name to a non-nothing value (or the nothing value when there is none). -/
theorem env_get_eq_firstNonNone (env : Env) (k : TokenVal) :
    env.get k = (firstNonNoneBinding (env.head :: env.rest) k).getD .none :=
  envGetFrames_eq_firstNonNone env.rest env.head k

/-! ## Claim C1 — environment lookup and NameError -/

/-- C1 counterexample.  The claim says lookup returns the value bound in
the NEAREST frame that binds the name, walking to the parent only when
the name is ABSENT from the current frame, and that a name bound to the
nothing value counts as found.  Here the innermost frame binds `x` (to
nothing), yet `Environment.get` walks to the parent and returns `5`;
and with no parent, evaluating the identifier `x` raises NameError even
though `x` IS bound in the frame. -/
theorem c1_counterexample :
    Env.get ⟨[(.str "x", Value.none)], [[(.str "x", Value.int 5)]]⟩ (.str "x") = Value.int 5 ∧
    Frame.get? ([(.str "x", Value.none)] : Frame) (.str "x") = some Value.none ∧
    evalNode 1 (.identifier (.str "x")) ⟨[(.str "x", Value.none)], []⟩ =
      .exn (.err (.nameError (.str "x"))) ⟨[(.str "x", Value.none)], []⟩ :=
  ⟨rfl, rfl, rfl⟩

/-- C1 (amended): for every environment chain and identifier, lookup
returns the value bound in the nearest frame that binds the name to a
value OTHER than nothing — walking to the parent when the name is
absent from the current frame OR bound there to nothing — and
evaluating the identifier raises NameError if and only if no frame in
the chain binds the name to a non-nothing value. -/
theorem c1_lookup_amended (f : Nat) (env : Env) (k : TokenVal) :
    env.get k = (firstNonNoneBinding (env.head :: env.rest) k).getD .none ∧
    evalNode (f + 1) (.identifier k) env =
      (match firstNonNoneBinding (env.head :: env.rest) k with
       | some v => .ok v env
       | Option.none => .exn (.err (.nameError k)) env) := by
  refine ⟨env_get_eq_firstNonNone env k, ?_⟩
  simp only [evalNode, env_get_eq_firstNonNone env k]
  cases hf : firstNonNoneBinding (env.head :: env.rest) k with
  | none => simp [Value.isNone]
  | some v => simp [firstNonNoneBinding_not_none hf]

/-! ## Claim C3 — indent level counts the unit anywhere in the line -/

/-- Modelled from the claim's words: the number of consecutive
repetitions of the indent unit at the START of the line.  Compare with
`countSub`, the source's `line.count(indent_symbol)`. -/
def leadingUnitRepsAux (u : Char) (us : List Char) : Nat → List Char → Nat
  | 0, _ => 0
  | _ + 1, [] => 0
  | fl + 1, c :: t =>
    if (u :: us).isPrefixOf (c :: t) then 1 + leadingUnitRepsAux u us fl (t.drop us.length)
    else 0

def leadingUnitReps (u : Char) (us : List Char) (cs : List Char) : Nat :=
  leadingUnitRepsAux u us (cs.length + 1) cs

/-- C3: on the source `"x\n a\nc d"` the indent unit is detected as one
space from line 2; line 3 `"c d"` has ZERO leading repetitions of it,
yet `tokenize` computes indent level `line.count(' ') = 1` (the interior
space!), keeps the line at level 1 (no DEDENT) and strips its first
character `c`, tokenizing only `d`.  The claim (and the spec, 'count of
indent-unit repetitions at its start') describes level 0 with `c d`
intact; the code counts occurrences anywhere in the line and strips
non-whitespace source text. -/
theorem c3_indent_level_bug :
    countSub [' '] ("c d".data) = 1 ∧
    leadingUnitReps ' ' [] ("c d".data) = 0 ∧
    tokenize "x\n a\nc d" = .ok
      [Token.mk "NAME" (.str "x") 1 1, Token.mk "NEWLINE" .none 1 2,
       Token.mk "INDENT" .none 2 0,
       Token.mk "NAME" (.str "a") 2 1, Token.mk "NEWLINE" .none 2 2,
       Token.mk "NAME" (.str "d") 3 2, Token.mk "NEWLINE" .none 3 3,
       Token.mk "DEDENT" .none 3 0] :=
  ⟨rfl, rfl, rfl⟩

/-! ## Claim C6 — unknown escape sequences are left in place -/

/-- C6: decoding the string literal `"\x"` (an escape sequence outside
the fixed table) does NOT fault: `decode_str` strips the quotes and
leaves `\x` verbatim in the result, because the substitution regex
`\\(r|n|t|\\|'|")` only matches table escapes — the unknown-escape
`raise` inside `replace` is unreachable, and `decode_str` has no fault
outcome at all.  (The second conjunct shows a table escape being
resolved, the third the whole lexer emitting the undecoded value.) -/
theorem c6_unknown_escape_kept :
    decode_str ['"', '\\', 'x', '"'] = ['\\', 'x'] ∧
    decode_str ['"', '\\', 'n', '"'] = ['\n'] ∧
    tokenize "\"\\x\"" = .ok
      [Token.mk "STRING" (.str "\\x") 1 1, Token.mk "NEWLINE" .none 1 5] :=
  ⟨rfl, rfl, rfl⟩

/-! ## Claim C9 — TokenStream.current on an exhausted stream -/

/-- C9 counterexample: on the stream over the EMPTY token sequence,
`current()` does not produce the structured UnexpectedEndOfInput error:
the handler's `self._tokens[-1]` raises a raw IndexError. -/
theorem c9_counterexample :
    TokenStream.current ⟨[], 0⟩ = .error .indexError := rfl

/-- C9 (amended): whenever the cursor is at or past the end of the
token sequence, `current()` fails; with at least one token it fails
with the structured 'Unexpected end of input' carrying the LAST token's
line and column, but over an empty token sequence it fails with an
unstructured IndexError. -/
theorem c9_current_amended (ts : TokenStream) (h : ts.tokens.length ≤ ts.pos) :
    ts.current =
      (match ts.tokens.getLast? with
       | some last => .error (.unexpectedEnd last.line last.column)
       | Option.none => .error .indexError) := by
  unfold TokenStream.current
  rw [List.get?_eq_none.mpr h]

/-- C9 witness: a one-token stream consumed past its end fails with the
structured error at that token's position. -/
theorem c9_witness :
    TokenStream.current ⟨[Token.mk "NUMBER" (.int 1) 1 1], 1⟩ =
      .error (.unexpectedEnd 1 1) := by
  have := c9_current_amended ⟨[Token.mk "NUMBER" (.int 1) 1 1], 1⟩ (by decide)
  simpa using this

/-! ## Claim C7 — arity mismatch faults before arguments are evaluated -/

/-- C7: when the callee evaluates to a function value (builtin or
user-defined, leaving the environment unchanged, as every
parser-producible callee does) whose parameter count differs from the
argument count, the call faults with the deterministic arity TypeError
— for EVERY argument list of that length, so no argument expression is
ever evaluated, the body never runs, and the caller's environment is
returned unchanged. -/
theorem c7_arity_mismatch_faults_first (f : Nat) (callee : Ast) (env : Env) (fv : Value)
    (params : List TokenVal)
    (hcallee : evalNode f callee env = .ok fv env)
    (hp : fnParams fv = some params) :
    ∀ args : List Ast, params.length ≠ args.length →
      evalNode (f + 1) (.call callee args) env =
        .exn (.err (.typeError (arityMsg params.length args.length))) env := by
  intro args hne
  simp only [evalNode, hcallee]
  cases fv with
  | builtin bps bname =>
    simp only [fnParams, Option.some.injEq] at hp
    subst hp
    simp [hne]
  | func fn fps fbody =>
    simp only [fnParams, Option.some.injEq] at hp
    subst hp
    simp [hne]
  | none => simp [fnParams] at hp
  | bool b => simp [fnParams] at hp
  | int n => simp [fnParams] at hp
  | float q => simp [fnParams] at hp
  | str s => simp [fnParams] at hp
  | list xs => simp [fnParams] at hp
  | dict es => simp [fnParams] at hp
  | range a b => simp [fnParams] at hp

/-- C7 witness: calling a 2-parameter function with one argument that is
itself an unresolvable identifier produces the arity TypeError (not a
NameError — the argument was never evaluated) and leaves the calling
environment unchanged. -/
theorem c7_witness :
    evalNode 2 (.call (.identifier (.str "f")) [.identifier (.str "boom")])
        ⟨[(.str "f", .func (.str "f") [.str "a", .str "b"]
            [.returnStmt (some (.identifier (.str "a")))])], []⟩ =
      .exn (.err (.typeError (arityMsg 2 1)))
        ⟨[(.str "f", .func (.str "f") [.str "a", .str "b"]
            [.returnStmt (some (.identifier (.str "a")))])], []⟩ :=
  c7_arity_mismatch_faults_first 1 (.identifier (.str "f"))
    ⟨[(.str "f", .func (.str "f") [.str "a", .str "b"]
        [.returnStmt (some (.identifier (.str "a")))])], []⟩
    (.func (.str "f") [.str "a", .str "b"] [.returnStmt (some (.identifier (.str "a")))])
    [.str "a", .str "b"] rfl rfl [.identifier (.str "boom")] (by decide)

/-! ## Claim C8 — short-circuiting boolean operators -/

/-- C8: for `&&` and `||`, the right operand is evaluated exactly when
the left operand does not decide the result (left truthy for `&&`, left
falsy for `||`); when it is skipped the result is the boolean decided by
the left operand — for EVERY right operand, so its effects never occur
— and every successful evaluation of either operator yields a boolean
value. -/
theorem c8_short_circuit (f : Nat) (l : Ast) (env : Env) (v : Value) (env₁ : Env)
    (hl : evalNode f l env = .ok v env₁) :
    (truthy v = false → ∀ r : Ast,
      evalNode (f + 1) (.binaryOperator "&&" l r) env = .ok (.bool false) env₁) ∧
    (truthy v = true → ∀ r : Ast,
      evalNode (f + 1) (.binaryOperator "&&" l r) env =
        (match evalNode f r env₁ with
         | .ok w env₂ => .ok (.bool (truthy w)) env₂
         | .exn e env₂ => .exn e env₂)) ∧
    (truthy v = true → ∀ r : Ast,
      evalNode (f + 1) (.binaryOperator "||" l r) env = .ok (.bool true) env₁) ∧
    (truthy v = false → ∀ r : Ast,
      evalNode (f + 1) (.binaryOperator "||" l r) env =
        (match evalNode f r env₁ with
         | .ok w env₂ => .ok (.bool (truthy w)) env₂
         | .exn e env₂ => .exn e env₂)) ∧
    (∀ (r : Ast) (u : Value) (env' : Env),
      evalNode (f + 1) (.binaryOperator "&&" l r) env = .ok u env' → ∃ b, u = .bool b) ∧
    (∀ (r : Ast) (u : Value) (env' : Env),
      evalNode (f + 1) (.binaryOperator "||" l r) env = .ok u env' → ∃ b, u = .bool b) := by
  have hand : isSimpleOp "&&" = false := rfl
  have hor : isSimpleOp "||" = false := rfl
  refine ⟨?_, ?_, ?_, ?_, ?_, ?_⟩
  · intro hf r
    simp [evalNode, hand, hl, hf]
  · intro ht r
    simp only [evalNode, hand, Bool.false_eq_true, if_false, reduceIte, hl, ht]
    cases evalNode f r env₁ <;> simp
  · intro ht r
    simp [evalNode, hor, hl, ht]
  · intro hf r
    simp only [evalNode, hor, Bool.false_eq_true, if_false, reduceIte, hl, hf]
    cases evalNode f r env₁ <;> simp
  · intro r u env' h
    simp only [evalNode, hand, Bool.false_eq_true, if_false, reduceIte] at h
    cases hle : evalNode f l env with
    | exn e e' => rw [hle] at h; cases h
    | ok lv e' =>
      rw [hle] at h
      by_cases htv : truthy lv
      · simp only [htv, if_true] at h
        cases hr : evalNode f r e' with
        | exn e e'' => rw [hr] at h; cases h
        | ok w e'' => rw [hr] at h; cases h; exact ⟨_, rfl⟩
      · simp only [htv, if_false, Bool.false_eq_true] at h
        cases h; exact ⟨_, rfl⟩
  · intro r u env' h
    simp only [evalNode, hor, Bool.false_eq_true, if_false, reduceIte] at h
    cases hle : evalNode f l env with
    | exn e e' => rw [hle] at h; cases h
    | ok lv e' =>
      rw [hle] at h
      by_cases htv : truthy lv
      · simp only [htv, if_true] at h
        cases h; exact ⟨_, rfl⟩
      · simp only [htv, if_false, Bool.false_eq_true] at h
        cases hr : evalNode f r e' with
        | exn e e'' => rw [hr] at h; cases h
        | ok w e'' => rw [hr] at h; cases h; exact ⟨_, rfl⟩

/-- C8 witness: `0 && boom` evaluates to `False` without ever touching
the unresolvable right operand, and `0 || 3` coerces the right operand
to the boolean `True`. -/
theorem c8_witness :
    evalNode 2 (.binaryOperator "&&" (.number (.int 0)) (.identifier (.str "boom"))) ⟨[], []⟩ =
      .ok (.bool false) ⟨[], []⟩ ∧
    evalNode 2 (.binaryOperator "||" (.number (.int 0)) (.number (.int 3))) ⟨[], []⟩ =
      .ok (.bool true) ⟨[], []⟩ := by
  constructor
  · exact (c8_short_circuit 1 (.number (.int 0)) ⟨[], []⟩ (.int 0) ⟨[], []⟩ rfl).1
      rfl (.identifier (.str "boom"))
  · have := ((c8_short_circuit 1 (.number (.int 0)) ⟨[], []⟩ (.int 0) ⟨[], []⟩ rfl).2.2.2.1)
      rfl (.number (.int 3))
    simpa using this

/-! ## Claim C2 — user-defined function calls -/

/-- The value of a result, if it is not an exception. -/
def Res.valOf : Res → Option Value
  | .ok v _ => some v
  | .exn _ _ => Option.none

/-- A program whose observable result distinguishes caller-parented
call frames from definition-site closures: `g` reads a free `x`; `h`
binds `x = 2` locally and calls `g`.  Caller-parented scoping yields 2
(the value along the CALL chain), definition-site scoping would yield
the global 1. -/
def c2DynProg : List Ast :=
  [.assignment (.identifier (.str "x")) (some (.number (.int 1))),
   .function (.str "g") [] [.returnStmt (some (.identifier (.str "x")))],
   .function (.str "h") []
     [.assignment (.identifier (.str "x")) (some (.number (.int 2))),
      .returnStmt (some (.call (.identifier (.str "g")) []))],
   .call (.identifier (.str "h")) []]

/-- C2: a call whose callee evaluates to a user-defined function value
(with matching arity, the arguments evaluating left-to-right to `vals`)
runs the body in the FRESHLY created environment
`⟨bindParams params vals, env₂.head :: env₂.rest⟩` — a new frame over
the caller's CURRENT environment; the stored function value carries no
definition-site environment at all.  A Return signal escaping the body
is consumed exactly at this call boundary, its carried value becoming
the call's result; a body that completes without Return yields its last
statement's value; either way the callee frame is discarded and the
caller's environment is exactly restored.  The final conjunct runs
`c2DynProg`, observing the caller-chain (dynamic-scoping-like)
resolution of a free name. -/
theorem c2_call_runs_body_in_fresh_caller_parented_env
    (f : Nat) (callee : Ast) (args : List Ast) (env env₁ env₂ : Env)
    (fname : TokenVal) (params : List TokenVal) (body : List Ast) (vals : List Value)
    (hcallee : evalNode f callee env = .ok (.func fname params body) env₁)
    (hargs : evalExprList f args env₁ = .ok vals env₂)
    (har : params.length = args.length) :
    (∀ v e', evalStmtsAux f body .none ⟨bindParams params vals, env₂.head :: env₂.rest⟩ =
        .exn (.ret v) e' →
      evalNode (f + 1) (.call callee args) env = .ok v env₂) ∧
    (∀ v e', evalStmtsAux f body .none ⟨bindParams params vals, env₂.head :: env₂.rest⟩ =
        .ok v e' →
      evalNode (f + 1) (.call callee args) env = .ok v env₂) ∧
    Res.valOf (evalStatements 20 c2DynProg ⟨[], []⟩) = some (.int 2) := by
  have hlen : ¬params.length ≠ args.length := by omega
  refine ⟨?_, ?_, rfl⟩
  · intro v e' hb
    have hrest := (restInvariant f).2.1 body .none
      ⟨bindParams params vals, env₂.head :: env₂.rest⟩
    rw [hb] at hrest
    simp only [Res.restOf_exn] at hrest
    simp only [evalNode, hcallee, hlen, if_false, reduceIte, hargs, hb, popCallEnv, hrest]
  · intro v e' hb
    have hrest := (restInvariant f).2.1 body .none
      ⟨bindParams params vals, env₂.head :: env₂.rest⟩
    rw [hb] at hrest
    simp only [Res.restOf_ok] at hrest
    simp only [evalNode, hcallee, hlen, if_false, reduceIte, hargs, hb, popCallEnv, hrest]

/-- C2 witness: calling a 1-parameter function `id` bound in the global
frame: the explicit Return unwinds to the call with the argument's
value, and the caller's environment is returned unchanged. -/
theorem c2_witness :
    evalNode 4 (.call (.identifier (.str "id")) [.number (.int 5)])
        ⟨[(.str "id", .func (.str "id") [.str "a"]
            [.returnStmt (some (.identifier (.str "a")))])], []⟩ =
      .ok (.int 5)
        ⟨[(.str "id", .func (.str "id") [.str "a"]
            [.returnStmt (some (.identifier (.str "a")))])], []⟩ :=
  (c2_call_runs_body_in_fresh_caller_parented_env 3 (.identifier (.str "id"))
    [.number (.int 5)]
    ⟨[(.str "id", .func (.str "id") [.str "a"]
        [.returnStmt (some (.identifier (.str "a")))])], []⟩
    ⟨[(.str "id", .func (.str "id") [.str "a"]
        [.returnStmt (some (.identifier (.str "a")))])], []⟩
    ⟨[(.str "id", .func (.str "id") [.str "a"]
        [.returnStmt (some (.identifier (.str "a")))])], []⟩
    (.str "id") [.str "a"] [.returnStmt (some (.identifier (.str "a")))] [.int 5]
    rfl rfl rfl).1 (.int 5)
    ⟨[(.str "a", .int 5)],
     [[(.str "id", .func (.str "id") [.str "a"]
         [.returnStmt (some (.identifier (.str "a")))])]]⟩ (by rfl)

/-! ## Claim C10 — for-loops bind in the enclosing environment -/

/-- The environment carried by a result. -/
def Res.envOf : Res → Env
  | .ok _ e => e
  | .exn _ e => e

theorem Frame.get_set_self (fr : Frame) (k : TokenVal) (v : Value) :
    Frame.get? (Frame.set fr k v) k = some v := by
  induction fr with
  | nil => simp [Frame.set, Frame.get?]
  | cons a rest ih =>
    obtain ⟨k', v'⟩ := a
    simp only [Frame.set]
    split
    next h => simp [Frame.get?, h]
    next h => simp [Frame.get?, h, ih]

theorem Frame.get_set_ne (fr : Frame) (k k₂ : TokenVal) (v : Value) (h : k₂ ≠ k) :
    Frame.get? (Frame.set fr k v) k₂ = Frame.get? fr k₂ := by
  induction fr with
  | nil =>
    simp only [Frame.set, Frame.get?]
    rw [if_neg (fun hh => h hh.symm)]
  | cons a rest ih =>
    obtain ⟨k', v'⟩ := a
    simp only [Frame.set]
    split
    next he =>
      subst he
      simp only [Frame.get?]
      rw [if_neg (fun hh => h hh.symm), if_neg (fun hh => h hh.symm)]
    next he =>
      simp only [Frame.get?]
      split <;> simp [ih]

/-- Body runs of a for-loop that preserve the loop variable's binding
leave it holding the element of the iteration that last ran (possibly
`none`-elimination: if the loop body never ran because the collection
was empty, the environment is returned untouched). -/
theorem forIterBinding {var : TokenVal} {body : List Ast}
    (hpres : ∀ (g : Nat) (e : Env),
      Frame.get? ((evalStmtsAux g body .none e).envOf).head var = Frame.get? e.head var) :
    ∀ (vals : List Value) (f : Nat) (env : Env) (v' : Value) (envF : Env),
      evalForIter f var vals body env = .ok v' envF →
      (∃ v ∈ vals, Frame.get? envF.head var = some v) ∨ (vals = [] ∧ envF = env) := by
  intro vals
  induction vals with
  | nil =>
    intro f env v' envF h
    cases f with
    | zero => simp [evalForIter] at h
    | succ g => simp only [evalForIter] at h; cases h; exact Or.inr ⟨rfl, rfl⟩
  | cons v vs ih =>
    intro f env v' envF h
    cases f with
    | zero => simp [evalForIter] at h
    | succ g =>
      simp only [evalForIter] at h
      have hbindOf : ∀ e' : Env, (evalStmtsAux g body .none (env.set var v)).envOf = e' →
          Frame.get? e'.head var = some v := by
        intro e' he
        have hp := hpres g (env.set var v)
        rw [he] at hp
        simpa [Env.set, Frame.get_set_self] using hp
      cases hb : evalStmtsAux g body .none (env.set var v) with
      | ok w e' =>
        rw [hb] at h
        rcases ih g e' v' envF h with ⟨u, hu, hbu⟩ | ⟨hnil, henv⟩
        · exact Or.inl ⟨u, List.mem_cons_of_mem _ hu, hbu⟩
        · subst henv
          exact Or.inl ⟨v, List.mem_cons_self _ _, hbindOf _ (by rw [hb]; rfl)⟩
      | exn x e' =>
        rw [hb] at h
        cases x with
        | brk w =>
          cases h
          exact Or.inl ⟨v, List.mem_cons_self _ _, hbindOf _ (by rw [hb]; rfl)⟩
        | cont w =>
          rcases ih g e' v' envF h with ⟨u, hu, hbu⟩ | ⟨hnil, henv⟩
          · exact Or.inl ⟨u, List.mem_cons_of_mem _ hu, hbu⟩
          · subst henv
            exact Or.inl ⟨v, List.mem_cons_self _ _, hbindOf _ (by rw [hb]; rfl)⟩
        | err er => cases h
        | ret w => cases h

/-- When, additionally, no body run ever raises Break, the loop consumes
the whole collection and the loop variable ends bound to its LAST
element. -/
theorem forIterLast {var : TokenVal} {body : List Ast}
    (hpres : ∀ (g : Nat) (e : Env),
      Frame.get? ((evalStmtsAux g body .none e).envOf).head var = Frame.get? e.head var)
    (hnobrk : ∀ (g : Nat) (e : Env) (w : Value) (e' : Env),
      evalStmtsAux g body .none e ≠ .exn (.brk w) e') :
    ∀ (vals : List Value) (l : Value) (f : Nat) (env : Env) (v' : Value) (envF : Env),
      evalForIter f var vals body env = .ok v' envF →
      vals.getLast? = some l →
      Frame.get? envF.head var = some l := by
  intro vals
  induction vals with
  | nil => intro l f env v' envF _ hl; simp at hl
  | cons v vs ih =>
    intro l f env v' envF h hl
    cases f with
    | zero => simp [evalForIter] at h
    | succ g =>
      simp only [evalForIter] at h
      have hbindOf : ∀ e' : Env, (evalStmtsAux g body .none (env.set var v)).envOf = e' →
          Frame.get? e'.head var = some v := by
        intro e' he
        have hp := hpres g (env.set var v)
        rw [he] at hp
        simpa [Env.set, Frame.get_set_self] using hp
      have hstep : ∀ e' : Env, (evalStmtsAux g body .none (env.set var v)).envOf = e' →
          evalForIter g var vs body e' = .ok v' envF →
          Frame.get? envF.head var = some l := by
        intro e' he hrec
        cases vs with
        | nil =>
          cases g with
          | zero => simp [evalForIter] at hrec
          | succ g' =>
            simp only [evalForIter] at hrec
            cases hrec
            simp only [List.getLast?_singleton, Option.some.injEq] at hl
            exact hl ▸ hbindOf _ he
        | cons u us =>
          have hl' : (u :: us).getLast? = some l := by
            simpa [List.getLast?_cons_cons] using hl
          exact ih l g e' v' envF hrec hl'
      cases hb : evalStmtsAux g body .none (env.set var v) with
      | ok w e' =>
        rw [hb] at h
        exact hstep e' (by rw [hb]; rfl) h
      | exn x e' =>
        rw [hb] at h
        cases x with
        | brk w => exact absurd hb (hnobrk g (env.set var v) w e')
        | cont w => exact hstep e' (by rw [hb]; rfl) h
        | err er => cases h
        | ret w => cases h

/-- Any other name that the body runs leave untouched keeps its binding
across the whole loop. -/
theorem forIterOther {var : TokenVal} {body : List Ast} {k : TokenVal} (hk : k ≠ var)
    (hpresk : ∀ (g : Nat) (e : Env),
      Frame.get? ((evalStmtsAux g body .none e).envOf).head k = Frame.get? e.head k) :
    ∀ (vals : List Value) (f : Nat) (env : Env) (v' : Value) (envF : Env),
      evalForIter f var vals body env = .ok v' envF →
      Frame.get? envF.head k = Frame.get? env.head k := by
  intro vals
  induction vals with
  | nil =>
    intro f env v' envF h
    cases f with
    | zero => simp [evalForIter] at h
    | succ g => simp only [evalForIter] at h; cases h; rfl
  | cons v vs ih =>
    intro f env v' envF h
    cases f with
    | zero => simp [evalForIter] at h
    | succ g =>
      simp only [evalForIter] at h
      have hstepk : ∀ e' : Env, (evalStmtsAux g body .none (env.set var v)).envOf = e' →
          Frame.get? e'.head k = Frame.get? env.head k := by
        intro e' he
        have hp := hpresk g (env.set var v)
        rw [he] at hp
        rw [hp]
        simpa [Env.set] using Frame.get_set_ne env.head var k v hk
      cases hb : evalStmtsAux g body .none (env.set var v) with
      | ok w e' =>
        rw [hb] at h
        exact (ih g e' v' envF h).trans (hstepk e' (by rw [hb]; rfl))
      | exn x e' =>
        rw [hb] at h
        cases x with
        | brk w => cases h; exact hstepk _ (by rw [hb]; rfl)
        | cont w => exact (ih g e' v' envF h).trans (hstepk e' (by rw [hb]; rfl))
        | err er => cases h
        | ret w => cases h

/-- C10 counterexample.  The claim says the loop variable ends bound to
the last ELEMENT that was bound to it.  With body `i = 99`, the loop
over the non-empty collection `[1, 2]` terminates normally with `i`
bound to `99` in the enclosing frame — not to any element of the
collection — because the enclosing-environment binding the loop leaks is
whatever the last body run left there. -/
theorem c10_counterexample :
    evalForIter 6 (.str "i") [.int 1, .int 2]
        [.assignment (.identifier (.str "i")) (some (.number (.int 99)))] ⟨[], []⟩ =
      .ok .none ⟨[(.str "i", .int 99)], []⟩ ∧
    (Value.int 99 = Value.int 2 → False) := by
  exact ⟨by rfl, by intro h; cases h⟩

/-- C10 (amended): a for-loop creates no child environment — it binds
the loop variable directly in the enclosing environment's innermost
frame and runs the body there.  After the loop over a non-empty
collection terminates (normally or via break), provided the body itself
never rebinds the loop variable, the variable remains bound in that
frame to the last element that was bound to it — the collection's last
element when no break fired; any other name whose binding every body
run preserves keeps its binding; and the ancestor frames are returned
untouched unconditionally. -/
theorem c10_for_loop_amended (f : Nat) (var : TokenVal) (vals : List Value)
    (body : List Ast) (env : Env) (v' : Value) (envF : Env)
    (hrun : evalForIter f var vals body env = .ok v' envF)
    (hpres : ∀ (g : Nat) (e : Env),
      Frame.get? ((evalStmtsAux g body .none e).envOf).head var = Frame.get? e.head var) :
    (vals ≠ [] → ∃ v ∈ vals, Frame.get? envF.head var = some v) ∧
    (∀ l, vals.getLast? = some l →
      (∀ (g : Nat) (e : Env) (w : Value) (e' : Env),
        evalStmtsAux g body .none e ≠ .exn (.brk w) e') →
      Frame.get? envF.head var = some l) ∧
    (∀ k, k ≠ var →
      (∀ (g : Nat) (e : Env),
        Frame.get? ((evalStmtsAux g body .none e).envOf).head k = Frame.get? e.head k) →
      Frame.get? envF.head k = Frame.get? env.head k) ∧
    envF.rest = env.rest := by
  refine ⟨?_, ?_, ?_, ?_⟩
  · intro hne
    rcases forIterBinding hpres vals f env v' envF hrun with h | ⟨hnil, _⟩
    · exact h
    · exact absurd hnil hne
  · intro l hl hnobrk
    exact forIterLast hpres hnobrk vals l f env v' envF hrun hl
  · intro k hk hpresk
    exact forIterOther hk hpresk vals f env v' envF hrun
  · have := (restInvariant f).2.2.2.1 var vals body env
    rw [hrun] at this
    simpa using this

/-- C10 witness: a loop with an empty body (which trivially preserves
every binding) over `[1, 2]` leaves `i` bound in the enclosing frame to
the last element `2`, leaves an unrelated binding `z` unchanged, and
keeps the ancestor frames. -/
theorem c10_witness :
    Frame.get? ((evalForIter 3 (.str "i") [.int 1, .int 2] []
        ⟨[(.str "z", .int 7)], [[]]⟩).envOf).head (.str "i") = some (.int 2) ∧
    Frame.get? ((evalForIter 3 (.str "i") [.int 1, .int 2] []
        ⟨[(.str "z", .int 7)], [[]]⟩).envOf).head (.str "z") = some (.int 7) := by
  have hpres : ∀ (g : Nat) (e : Env),
      Frame.get? ((evalStmtsAux g ([] : List Ast) .none e).envOf).head (.str "i") =
        Frame.get? e.head (.str "i") := by
    intro g e; cases g <;> rfl
  have hrun : evalForIter 3 (.str "i") [.int 1, .int 2] []
      ⟨[(.str "z", .int 7)], [[]]⟩ =
      .ok .none ⟨[(.str "z", .int 7), (.str "i", .int 2)], [[]]⟩ := by rfl
  have h := c10_for_loop_amended 3 (.str "i") [.int 1, .int 2] []
    ⟨[(.str "z", .int 7)], [[]]⟩ .none ⟨[(.str "z", .int 7), (.str "i", .int 2)], [[]]⟩
    hrun hpres
  constructor
  · have := h.2.1 (.int 2) (by rfl) (by intro g e w e'; cases g <;> simp [evalStmtsAux])
    rw [hrun]
    simpa [Res.envOf] using this
  · have := h.2.2.1 (.str "z") (by simp) (by intro g e; cases g <;> rfl)
    rw [hrun]
    simp only [Res.envOf] at this ⊢
    rw [this]
    rfl

/-! ## Claim C4 — parse-time validation of break/continue/return

The only raise site for 'Return outside of function' is the scope guard
of `ReturnStatement.parse`; the lemmas below establish that nothing the
guard-passing path calls (token-stream primitives and the expression
grammar) can produce that error, so the guard characterizes it
exactly. -/

/-- `r` is not a `ParserError` at all. -/
def noPE {α : Type} (r : Except Failure α) : Prop :=
  ∀ m l c, r ≠ .error (.parserError m l c)

/-- `r` is not the 'Return outside of function' error. -/
def notROF {α : Type} (r : Except Failure α) : Prop :=
  ∀ l c, r ≠ .error (.parserError .returnOutsideFunction l c)

theorem noPE_ok {α : Type} (x : α) : noPE (.ok x : Except Failure α) := by
  intro m l c h; cases h

theorem notROF_ok {α : Type} (x : α) : notROF (.ok x : Except Failure α) := by
  intro l c h; cases h

/-- Propagating an error produced by a `noPE` computation (possibly at a
different result type) cannot produce a ParserError. -/
theorem noPE_reraise {α β : Type} {r : Except Failure α} {e : Failure}
    (heq : r = .error e) (h : noPE r) : noPE (.error e : Except Failure β) := by
  intro m l c hc
  injection hc with hc
  exact h m l c (by rw [heq, hc])

theorem notROF_reraise {α β : Type} {r : Except Failure α} {e : Failure}
    (heq : r = .error e) (h : notROF r) : notROF (.error e : Except Failure β) := by
  intro l c hc
  injection hc with hc
  exact h l c (by rw [heq, hc])

theorem notROF_of_noPE {α : Type} {r : Except Failure α} (h : noPE r) : notROF r :=
  fun l c => h .returnOutsideFunction l c

/-- A ParserError with any message other than 'Return outside of
function'. -/
theorem notROF_msg {α : Type} {m : PMsg} (hm : m ≠ .returnOutsideFunction) (l c : Nat) :
    notROF (.error (.parserError m l c) : Except Failure α) := by
  intro l' c' h
  injection h with h
  cases h
  exact hm rfl

theorem current_noPE (ts : TokenStream) : noPE ts.current := by
  unfold TokenStream.current
  split
  · exact noPE_ok _
  · split <;> (intro m l c h; cases h)

theorem consume_noPE (ts : TokenStream) : noPE ts.consume := by
  unfold TokenStream.consume
  split
  next e heq => exact noPE_reraise heq (current_noPE ts)
  next => exact noPE_ok _

theorem consume_expected_noPE (ts : TokenStream) (names : List String) :
    noPE (ts.consume_expected names) := by
  induction names generalizing ts with
  | nil => intro m l c h; cases h
  | cons n rest ih =>
    cases rest with
    | nil =>
      simp only [TokenStream.consume_expected]
      split
      next e heq => exact noPE_reraise heq (consume_noPE ts)
      next t ts' heq =>
        split
        · exact noPE_ok _
        · intro m l c h; cases h
    | cons n2 rest2 =>
      simp only [TokenStream.consume_expected]
      split
      next e heq => exact noPE_reraise heq (consume_noPE ts)
      next t ts' heq =>
        split
        · exact ih ts'
        · intro m l c h; cases h

theorem getNextPrecedence_noPE (ts : TokenStream) : noPE (getNextPrecedence ts) := by
  unfold getNextPrecedence
  split
  · exact noPE_ok _
  · split
    next e heq => exact noPE_reraise heq (current_noPE ts)
    next t heq =>
      split
      · split
        · exact noPE_ok _
        · intro m l c h; cases h
      · split
        · exact noPE_ok _
        · split
          · exact noPE_ok _
          · exact noPE_ok _

/-- No expression-grammar subparser can produce the 'Return outside of
function' error: its only raise site is `ReturnStatement.parse`'s scope
guard, and expressions never parse statements. -/
theorem exprParser_notROF (f : Nat) :
    (∀ ts prec, notROF (parseExpression f ts prec)) ∧
    (∀ kind ts, notROF (parsePrefixForm f kind ts)) ∧
    (∀ ts, notROF (parseUnaryExpr f ts)) ∧
    (∀ left prec ts, notROF (parseInfixLoop f left prec ts)) ∧
    (∀ left ts, notROF (parseBinaryExpr f left ts)) ∧
    (∀ left ts, notROF (parseCallExpr f left ts)) ∧
    (∀ left ts, notROF (parseSubscriptExpr f left ts)) ∧
    (∀ ts, notROF (parseExprList f ts)) ∧
    (∀ ts, notROF (parseKeyvals f ts)) := by
  induction f with
  | zero =>
    refine ⟨fun ts prec l c h => ?_, fun kind ts l c h => ?_, fun ts l c h => ?_,
            fun left prec ts l c h => ?_, fun left ts l c h => ?_, fun left ts l c h => ?_,
            fun left ts l c h => ?_, fun ts l c h => ?_, fun ts l c h => ?_⟩ <;>
      (injection h with h; exact Failure.noConfusion h)
  | succ f ih =>
    obtain ⟨ihE, ihPre, ihU, ihIL, ihB, ihC, ihSub, ihL, ihKV⟩ := ih
    refine ⟨?_, ?_, ?_, ?_, ?_, ?_, ?_, ?_, ?_⟩
    · -- parseExpression
      intro ts prec l c h
      simp only [parseExpression] at h
      split at h
      · rename_i e heq
        injection h with h; subst h
        exact current_noPE _ _ l c heq
      · split at h
        · rename_i e heq
          injection h with h; subst h
          exact ihPre _ _ l c heq
        · exact Except.noConfusion h
        · split at h
          · rename_i e heq
            injection h with h; subst h
            exact ihIL _ _ _ l c heq
          · exact Except.noConfusion h
    · -- parsePrefixForm
      intro kind ts l c h
      simp only [parsePrefixForm] at h
      split at h
      · split at h
        · rename_i e heq
          injection h with h; subst h
          exact consume_expected_noPE _ _ _ l c heq
        · exact Except.noConfusion h
      · split at h
        · split at h
          · rename_i e heq
            injection h with h; subst h
            exact consume_expected_noPE _ _ _ l c heq
          · exact Except.noConfusion h
        · split at h
          · split at h
            · rename_i e heq
              injection h with h; subst h
              exact consume_expected_noPE _ _ _ l c heq
            · exact Except.noConfusion h
          · split at h
            · -- LPAREN group
              split at h
              · rename_i e heq
                injection h with h; subst h
                exact consume_expected_noPE _ _ _ l c heq
              · split at h
                · rename_i e heq
                  injection h with h; subst h
                  exact ihE _ _ l c heq
                · split at h
                  · rename_i e heq
                    injection h with h; subst h
                    exact consume_expected_noPE _ _ _ l c heq
                  · exact Except.noConfusion h
            · split at h
              · -- LBRACK array
                split at h
                · rename_i e heq
                  injection h with h; subst h
                  exact consume_expected_noPE _ _ _ l c heq
                · split at h
                  · rename_i e heq
                    injection h with h; subst h
                    exact ihL _ l c heq
                  · split at h
                    · rename_i e heq
                      injection h with h; subst h
                      exact consume_expected_noPE _ _ _ l c heq
                    · exact Except.noConfusion h
              · split at h
                · -- LCBRACK dictionary
                  split at h
                  · rename_i e heq
                    injection h with h; subst h
                    exact consume_expected_noPE _ _ _ l c heq
                  · split at h
                    · rename_i e heq
                      injection h with h; subst h
                      exact ihKV _ l c heq
                    · split at h
                      · rename_i e heq
                        injection h with h; subst h
                        exact consume_expected_noPE _ _ _ l c heq
                      · exact Except.noConfusion h
                · split at h
                  · -- OPERATOR prefix
                    split at h
                    · rename_i e heq
                      injection h with h; subst h
                      exact ihU _ l c heq
                    · exact Except.noConfusion h
                  · exact Except.noConfusion h
    · -- parseUnaryExpr
      intro ts l c h
      simp only [parseUnaryExpr] at h
      split at h
      · rename_i e heq
        injection h with h; subst h
        exact consume_expected_noPE _ _ _ l c heq
      · split at h
        · injection h with h
          injection h with h1 h2 h3
          exact PMsg.noConfusion h1
        · split at h
          · rename_i e heq
            injection h with h; subst h
            exact ihE _ _ l c heq
          · exact Except.noConfusion h
          · split at h
            · rename_i e heq
              injection h with h; subst h
              exact consume_noPE _ _ l c heq
            · injection h with h
              injection h with h1 h2 h3
              exact PMsg.noConfusion h1
    · -- parseInfixLoop
      intro left prec ts l c h
      simp only [parseInfixLoop] at h
      split at h
      · rename_i e heq
        injection h with h; subst h
        exact getNextPrecedence_noPE _ _ l c heq
      · split at h
        · split at h
          · rename_i e heq
            injection h with h; subst h
            exact current_noPE _ _ l c heq
          · rename_i cur heq₂
            split at h
            · rename_i e heq
              injection h with h; subst h
              -- the dispatched infix subparser errored
              split at heq
              · exact ihB _ _ l c heq
              · split at heq
                · exact ihC _ _ l c heq
                · split at heq
                  · exact ihSub _ _ l c heq
                  · injection heq with heq
                    exact Failure.noConfusion heq
            · exact ihIL _ _ _ l c h
        · exact Except.noConfusion h
    · -- parseBinaryExpr
      intro left ts l c h
      simp only [parseBinaryExpr] at h
      split at h
      · rename_i e heq
        injection h with h; subst h
        exact consume_expected_noPE _ _ _ l c heq
      · split at h
        · injection h with h
          exact Failure.noConfusion h
        · split at h
          · rename_i e heq
            injection h with h; subst h
            exact ihE _ _ l c heq
          · exact Except.noConfusion h
          · split at h
            · rename_i e heq
              injection h with h; subst h
              exact consume_noPE _ _ l c heq
            · injection h with h
              injection h with h1 h2 h3
              exact PMsg.noConfusion h1
    · -- parseCallExpr
      intro left ts l c h
      simp only [parseCallExpr] at h
      split at h
      · rename_i e heq
        injection h with h; subst h
        exact consume_expected_noPE _ _ _ l c heq
      · split at h
        · rename_i e heq
          injection h with h; subst h
          exact ihL _ l c heq
        · split at h
          · rename_i e heq
            injection h with h; subst h
            exact consume_expected_noPE _ _ _ l c heq
          · exact Except.noConfusion h
    · -- parseSubscriptExpr
      intro left ts l c h
      simp only [parseSubscriptExpr] at h
      split at h
      · rename_i e heq
        injection h with h; subst h
        exact consume_expected_noPE _ _ _ l c heq
      · split at h
        · rename_i e heq
          injection h with h; subst h
          exact ihE _ _ l c heq
        · split at h
          · rename_i e heq
            injection h with h; subst h
            exact current_noPE _ _ l c heq
          · injection h with h
            injection h with h1 h2 h3
            exact PMsg.noConfusion h1
        · split at h
          · rename_i e heq
            injection h with h; subst h
            exact consume_expected_noPE _ _ _ l c heq
          · exact Except.noConfusion h
    · -- parseExprList
      intro ts l c h
      simp only [parseExprList] at h
      split at h
      · exact Except.noConfusion h
      · split at h
        · rename_i e heq
          injection h with h; subst h
          exact ihE _ _ l c heq
        · exact Except.noConfusion h
        · split at h
          · rename_i e heq
            injection h with h; subst h
            exact current_noPE _ _ l c heq
          · split at h
            · split at h
              · rename_i e heq
                injection h with h; subst h
                exact consume_expected_noPE _ _ _ l c heq
              · split at h
                · rename_i e heq
                  injection h with h; subst h
                  exact ihL _ l c heq
                · exact Except.noConfusion h
            · exact Except.noConfusion h
    · -- parseKeyvals
      intro ts l c h
      simp only [parseKeyvals] at h
      split at h
      · exact Except.noConfusion h
      · split at h
        · rename_i e heq
          injection h with h; subst h
          exact ihE _ _ l c heq
        · exact Except.noConfusion h
        · split at h
          · rename_i e heq
            injection h with h; subst h
            exact consume_expected_noPE _ _ _ l c heq
          · split at h
            · rename_i e heq
              injection h with h; subst h
              exact ihE _ _ l c heq
            · split at h
              · rename_i e heq
                injection h with h; subst h
                exact consume_noPE _ _ l c heq
              · injection h with h
                injection h with h1 h2 h3
                exact PMsg.noConfusion h1
            · split at h
              · rename_i e heq
                injection h with h; subst h
                exact current_noPE _ _ l c heq
              · split at h
                · split at h
                  · rename_i e heq
                    injection h with h; subst h
                    exact consume_expected_noPE _ _ _ l c heq
                  · split at h
                    · rename_i e heq
                      injection h with h; subst h
                      exact ihKV _ l c heq
                    · exact Except.noConfusion h
                · exact Except.noConfusion h

set_option maxHeartbeats 3200000 in
/-- C4: break/continue/return legality is decided entirely at parse
time from the scope stack of enclosing constructs.  (i) With the
innermost enclosing function-or-loop construct not a loop (stack empty
or topped by `function`), a break or continue statement is rejected
with its 'outside of loop' SyntaxError at the current token; with a
loop on top it is accepted (reduced to plain token consumption) and can
never produce that error.  (ii) A return statement is rejected with
'Return outside of function' exactly when no `function` tag occurs
anywhere in the stack — inside a function it can never produce that
error, whatever else may go wrong.  (iii) End-to-end parses: `break`
bare, inside a function body, and inside a function nested in a while
loop (innermost construct a function!) are all rejected; `break` inside
a while loop — also through a non-scoping `if` — is accepted; `return`
is rejected bare and inside a bare loop, accepted in a function and in
a loop nested in a function.  (iv) The evaluator itself performs no
such check: a Break/Continue statement unconditionally raises its
signal. -/
theorem c4_scope_validation :
    (∀ (scope : Scope) (ts : TokenStream) (tok : Token), ts.current = .ok tok →
      List.head? scope ≠ some ScopeTag.loop →
      parseBreakStmt scope ts = .error (.parserError .breakOutsideLoop tok.line tok.column)) ∧
    (∀ (scope : Scope) (ts : TokenStream), List.head? scope = some ScopeTag.loop →
      parseBreakStmt scope ts =
        (match ts.consume_expected ["BREAK", "NEWLINE"] with
         | .error e => .error e
         | .ok (_, ts₁) => .ok (.breakStmt, ts₁))) ∧
    (∀ (scope : Scope) (ts : TokenStream) (l c : Nat),
      List.head? scope = some ScopeTag.loop →
      parseBreakStmt scope ts ≠ .error (.parserError .breakOutsideLoop l c)) ∧
    (∀ (scope : Scope) (ts : TokenStream) (tok : Token), ts.current = .ok tok →
      List.head? scope ≠ some ScopeTag.loop →
      parseContinueStmt scope ts =
        .error (.parserError .continueOutsideLoop tok.line tok.column)) ∧
    (∀ (scope : Scope) (ts : TokenStream) (l c : Nat),
      List.head? scope = some ScopeTag.loop →
      parseContinueStmt scope ts ≠ .error (.parserError .continueOutsideLoop l c)) ∧
    (∀ (f : Nat) (scope : Scope) (ts : TokenStream) (tok : Token), ts.current = .ok tok →
      ScopeTag.function ∉ scope →
      parseReturnStmt f scope ts =
        .error (.parserError .returnOutsideFunction tok.line tok.column)) ∧
    (∀ (f : Nat) (scope : Scope) (ts : TokenStream) (l c : Nat),
      ScopeTag.function ∈ scope →
      parseReturnStmt f scope ts ≠ .error (.parserError .returnOutsideFunction l c)) ∧
    ((tokenize "break" = .ok
        [Token.mk "BREAK" (.none) 1 1,
        Token.mk "NEWLINE" (.none) 1 6] ∧
      parseProgram 50 ⟨[Token.mk "BREAK" (.none) 1 1,
        Token.mk "NEWLINE" (.none) 1 6], 0⟩ =
        .error (.parserError .breakOutsideLoop 1 1)) ∧
     (tokenize "continue" = .ok
        [Token.mk "CONTINUE" (.none) 1 1,
        Token.mk "NEWLINE" (.none) 1 9] ∧
      parseProgram 50 ⟨[Token.mk "CONTINUE" (.none) 1 1,
        Token.mk "NEWLINE" (.none) 1 9], 0⟩ =
        .error (.parserError .continueOutsideLoop 1 1)) ∧
     (tokenize "func f():\n    break" = .ok
        [Token.mk "FUNCTION" (.none) 1 1,
        Token.mk "NAME" (.str "f") 1 6,
        Token.mk "LPAREN" (.str "(") 1 7,
        Token.mk "RPAREN" (.str ")") 1 8,
        Token.mk "COLON" (.str ":") 1 9,
        Token.mk "NEWLINE" (.none) 1 10,
        Token.mk "INDENT" (.none) 2 0,
        Token.mk "BREAK" (.none) 2 1,
        Token.mk "NEWLINE" (.none) 2 6,
        Token.mk "DEDENT" (.none) 2 0] ∧
      parseProgram 50 ⟨[Token.mk "FUNCTION" (.none) 1 1,
        Token.mk "NAME" (.str "f") 1 6,
        Token.mk "LPAREN" (.str "(") 1 7,
        Token.mk "RPAREN" (.str ")") 1 8,
        Token.mk "COLON" (.str ":") 1 9,
        Token.mk "NEWLINE" (.none) 1 10,
        Token.mk "INDENT" (.none) 2 0,
        Token.mk "BREAK" (.none) 2 1,
        Token.mk "NEWLINE" (.none) 2 6,
        Token.mk "DEDENT" (.none) 2 0], 0⟩ =
        .error (.parserError .breakOutsideLoop 2 1)) ∧
     (tokenize "while 1:\n    func f():\n        break" = .ok
        [Token.mk "WHILE" (.none) 1 1,
        Token.mk "NUMBER" (.int 1) 1 7,
        Token.mk "COLON" (.str ":") 1 8,
        Token.mk "NEWLINE" (.none) 1 9,
        Token.mk "INDENT" (.none) 2 0,
        Token.mk "FUNCTION" (.none) 2 1,
        Token.mk "NAME" (.str "f") 2 6,
        Token.mk "LPAREN" (.str "(") 2 7,
        Token.mk "RPAREN" (.str ")") 2 8,
        Token.mk "COLON" (.str ":") 2 9,
        Token.mk "NEWLINE" (.none) 2 10,
        Token.mk "INDENT" (.none) 3 0,
        Token.mk "BREAK" (.none) 3 1,
        Token.mk "NEWLINE" (.none) 3 6,
        Token.mk "DEDENT" (.none) 3 0,
        Token.mk "DEDENT" (.none) 3 0] ∧
      parseProgram 50 ⟨[Token.mk "WHILE" (.none) 1 1,
        Token.mk "NUMBER" (.int 1) 1 7,
        Token.mk "COLON" (.str ":") 1 8,
        Token.mk "NEWLINE" (.none) 1 9,
        Token.mk "INDENT" (.none) 2 0,
        Token.mk "FUNCTION" (.none) 2 1,
        Token.mk "NAME" (.str "f") 2 6,
        Token.mk "LPAREN" (.str "(") 2 7,
        Token.mk "RPAREN" (.str ")") 2 8,
        Token.mk "COLON" (.str ":") 2 9,
        Token.mk "NEWLINE" (.none) 2 10,
        Token.mk "INDENT" (.none) 3 0,
        Token.mk "BREAK" (.none) 3 1,
        Token.mk "NEWLINE" (.none) 3 6,
        Token.mk "DEDENT" (.none) 3 0,
        Token.mk "DEDENT" (.none) 3 0], 0⟩ =
        .error (.parserError .breakOutsideLoop 3 1)) ∧
     (tokenize "while 1:\n    break" = .ok
        [Token.mk "WHILE" (.none) 1 1,
        Token.mk "NUMBER" (.int 1) 1 7,
        Token.mk "COLON" (.str ":") 1 8,
        Token.mk "NEWLINE" (.none) 1 9,
        Token.mk "INDENT" (.none) 2 0,
        Token.mk "BREAK" (.none) 2 1,
        Token.mk "NEWLINE" (.none) 2 6,
        Token.mk "DEDENT" (.none) 2 0] ∧
      parseProgram 50 ⟨[Token.mk "WHILE" (.none) 1 1,
        Token.mk "NUMBER" (.int 1) 1 7,
        Token.mk "COLON" (.str ":") 1 8,
        Token.mk "NEWLINE" (.none) 1 9,
        Token.mk "INDENT" (.none) 2 0,
        Token.mk "BREAK" (.none) 2 1,
        Token.mk "NEWLINE" (.none) 2 6,
        Token.mk "DEDENT" (.none) 2 0], 0⟩ =
        .ok [.whileLoop (.number (.int 1)) [.breakStmt]]) ∧
     (tokenize "while 1:\n    if x:\n        break" = .ok
        [Token.mk "WHILE" (.none) 1 1,
        Token.mk "NUMBER" (.int 1) 1 7,
        Token.mk "COLON" (.str ":") 1 8,
        Token.mk "NEWLINE" (.none) 1 9,
        Token.mk "INDENT" (.none) 2 0,
        Token.mk "IF" (.none) 2 1,
        Token.mk "NAME" (.str "x") 2 4,
        Token.mk "COLON" (.str ":") 2 5,
        Token.mk "NEWLINE" (.none) 2 6,
        Token.mk "INDENT" (.none) 3 0,
        Token.mk "BREAK" (.none) 3 1,
        Token.mk "NEWLINE" (.none) 3 6,
        Token.mk "DEDENT" (.none) 3 0,
        Token.mk "DEDENT" (.none) 3 0] ∧
      parseProgram 50 ⟨[Token.mk "WHILE" (.none) 1 1,
        Token.mk "NUMBER" (.int 1) 1 7,
        Token.mk "COLON" (.str ":") 1 8,
        Token.mk "NEWLINE" (.none) 1 9,
        Token.mk "INDENT" (.none) 2 0,
        Token.mk "IF" (.none) 2 1,
        Token.mk "NAME" (.str "x") 2 4,
        Token.mk "COLON" (.str ":") 2 5,
        Token.mk "NEWLINE" (.none) 2 6,
        Token.mk "INDENT" (.none) 3 0,
        Token.mk "BREAK" (.none) 3 1,
        Token.mk "NEWLINE" (.none) 3 6,
        Token.mk "DEDENT" (.none) 3 0,
        Token.mk "DEDENT" (.none) 3 0], 0⟩ =
        .ok [.whileLoop (.number (.int 1))
             [.condition (.identifier (.str "x")) [.breakStmt] [] Option.none]]) ∧
     (tokenize "return 1" = .ok
        [Token.mk "RETURN" (.none) 1 1,
        Token.mk "NUMBER" (.int 1) 1 8,
        Token.mk "NEWLINE" (.none) 1 9] ∧
      parseProgram 50 ⟨[Token.mk "RETURN" (.none) 1 1,
        Token.mk "NUMBER" (.int 1) 1 8,
        Token.mk "NEWLINE" (.none) 1 9], 0⟩ =
        .error (.parserError .returnOutsideFunction 1 1)) ∧
     (tokenize "while 1:\n    return 1" = .ok
        [Token.mk "WHILE" (.none) 1 1,
        Token.mk "NUMBER" (.int 1) 1 7,
        Token.mk "COLON" (.str ":") 1 8,
        Token.mk "NEWLINE" (.none) 1 9,
        Token.mk "INDENT" (.none) 2 0,
        Token.mk "RETURN" (.none) 2 1,
        Token.mk "NUMBER" (.int 1) 2 8,
        Token.mk "NEWLINE" (.none) 2 9,
        Token.mk "DEDENT" (.none) 2 0] ∧
      parseProgram 50 ⟨[Token.mk "WHILE" (.none) 1 1,
        Token.mk "NUMBER" (.int 1) 1 7,
        Token.mk "COLON" (.str ":") 1 8,
        Token.mk "NEWLINE" (.none) 1 9,
        Token.mk "INDENT" (.none) 2 0,
        Token.mk "RETURN" (.none) 2 1,
        Token.mk "NUMBER" (.int 1) 2 8,
        Token.mk "NEWLINE" (.none) 2 9,
        Token.mk "DEDENT" (.none) 2 0], 0⟩ =
        .error (.parserError .returnOutsideFunction 2 1)) ∧
     (tokenize "func f():\n    return 1" = .ok
        [Token.mk "FUNCTION" (.none) 1 1,
        Token.mk "NAME" (.str "f") 1 6,
        Token.mk "LPAREN" (.str "(") 1 7,
        Token.mk "RPAREN" (.str ")") 1 8,
        Token.mk "COLON" (.str ":") 1 9,
        Token.mk "NEWLINE" (.none) 1 10,
        Token.mk "INDENT" (.none) 2 0,
        Token.mk "RETURN" (.none) 2 1,
        Token.mk "NUMBER" (.int 1) 2 8,
        Token.mk "NEWLINE" (.none) 2 9,
        Token.mk "DEDENT" (.none) 2 0] ∧
      parseProgram 50 ⟨[Token.mk "FUNCTION" (.none) 1 1,
        Token.mk "NAME" (.str "f") 1 6,
        Token.mk "LPAREN" (.str "(") 1 7,
        Token.mk "RPAREN" (.str ")") 1 8,
        Token.mk "COLON" (.str ":") 1 9,
        Token.mk "NEWLINE" (.none) 1 10,
        Token.mk "INDENT" (.none) 2 0,
        Token.mk "RETURN" (.none) 2 1,
        Token.mk "NUMBER" (.int 1) 2 8,
        Token.mk "NEWLINE" (.none) 2 9,
        Token.mk "DEDENT" (.none) 2 0], 0⟩ =
        .ok [.function (.str "f") [] [.returnStmt (some (.number (.int 1)))]]) ∧
     (tokenize "func f():\n    while 1:\n        return 1" = .ok
        [Token.mk "FUNCTION" (.none) 1 1,
        Token.mk "NAME" (.str "f") 1 6,
        Token.mk "LPAREN" (.str "(") 1 7,
        Token.mk "RPAREN" (.str ")") 1 8,
        Token.mk "COLON" (.str ":") 1 9,
        Token.mk "NEWLINE" (.none) 1 10,
        Token.mk "INDENT" (.none) 2 0,
        Token.mk "WHILE" (.none) 2 1,
        Token.mk "NUMBER" (.int 1) 2 7,
        Token.mk "COLON" (.str ":") 2 8,
        Token.mk "NEWLINE" (.none) 2 9,
        Token.mk "INDENT" (.none) 3 0,
        Token.mk "RETURN" (.none) 3 1,
        Token.mk "NUMBER" (.int 1) 3 8,
        Token.mk "NEWLINE" (.none) 3 9,
        Token.mk "DEDENT" (.none) 3 0,
        Token.mk "DEDENT" (.none) 3 0] ∧
      parseProgram 50 ⟨[Token.mk "FUNCTION" (.none) 1 1,
        Token.mk "NAME" (.str "f") 1 6,
        Token.mk "LPAREN" (.str "(") 1 7,
        Token.mk "RPAREN" (.str ")") 1 8,
        Token.mk "COLON" (.str ":") 1 9,
        Token.mk "NEWLINE" (.none) 1 10,
        Token.mk "INDENT" (.none) 2 0,
        Token.mk "WHILE" (.none) 2 1,
        Token.mk "NUMBER" (.int 1) 2 7,
        Token.mk "COLON" (.str ":") 2 8,
        Token.mk "NEWLINE" (.none) 2 9,
        Token.mk "INDENT" (.none) 3 0,
        Token.mk "RETURN" (.none) 3 1,
        Token.mk "NUMBER" (.int 1) 3 8,
        Token.mk "NEWLINE" (.none) 3 9,
        Token.mk "DEDENT" (.none) 3 0,
        Token.mk "DEDENT" (.none) 3 0], 0⟩ =
        .ok [.function (.str "f") []
             [.whileLoop (.number (.int 1)) [.returnStmt (some (.number (.int 1)))]]])) ∧
    (∀ (f : Nat) (ret : Value) (env : Env),
      evalStmtsAux (f + 1) [Ast.breakStmt] ret env = .exn (.brk ret) env ∧
      evalStmtsAux (f + 1) [Ast.continueStmt] ret env = .exn (.cont ret) env) := by
  have hguard : ∀ (scope : Scope), List.head? scope = some ScopeTag.loop →
      ¬(scope = ([] : Scope) ∨ List.head? scope ≠ some ScopeTag.loop) := by
    intro scope hh hcon
    rcases hcon with hnil | hne
    · rw [hnil] at hh; cases hh
    · exact hne hh
  refine ⟨?_, ?_, ?_, ?_, ?_, ?_, ?_,
          ⟨⟨rfl, rfl⟩, ⟨rfl, rfl⟩, ⟨rfl, rfl⟩, ⟨rfl, rfl⟩, ⟨rfl, rfl⟩,
           ⟨rfl, rfl⟩, ⟨rfl, rfl⟩, ⟨rfl, rfl⟩, ⟨rfl, rfl⟩, ⟨rfl, rfl⟩⟩, ?_⟩
  · intro scope ts tok hcur hhead
    unfold parseBreakStmt
    rw [if_pos (Or.inr hhead), hcur]
  · intro scope ts hhead
    unfold parseBreakStmt
    rw [if_neg (hguard scope hhead)]
  · intro scope ts l c hhead hcon
    unfold parseBreakStmt at hcon
    rw [if_neg (hguard scope hhead)] at hcon
    split at hcon
    · rename_i e heq
      injection hcon with hcon; subst hcon
      exact consume_expected_noPE _ _ _ l c heq
    · exact Except.noConfusion hcon
  · intro scope ts tok hcur hhead
    unfold parseContinueStmt
    rw [if_pos (Or.inr hhead), hcur]
  · intro scope ts l c hhead hcon
    unfold parseContinueStmt at hcon
    rw [if_neg (hguard scope hhead)] at hcon
    split at hcon
    · rename_i e heq
      injection hcon with hcon; subst hcon
      exact consume_expected_noPE _ _ _ l c heq
    · exact Except.noConfusion hcon
  · intro f scope ts tok hcur hnotin
    unfold parseReturnStmt
    rw [if_pos (Or.inr hnotin), hcur]
  · intro f scope ts l c hmem hcon
    unfold parseReturnStmt at hcon
    have hg : ¬(scope = ([] : Scope) ∨ ScopeTag.function ∉ scope) := by
      intro hcon'
      rcases hcon' with hnil | hni
      · rw [hnil] at hmem; cases hmem
      · exact hni hmem
    rw [if_neg hg] at hcon
    split at hcon
    · rename_i e heq
      injection hcon with hcon; subst hcon
      exact consume_expected_noPE _ _ _ l c heq
    · split at hcon
      · rename_i e heq
        injection hcon with hcon; subst hcon
        exact (exprParser_notROF f).1 _ _ l c heq
      · split at hcon
        · rename_i e heq
          injection hcon with hcon; subst hcon
          exact consume_expected_noPE _ _ _ l c heq
        · exact Except.noConfusion hcon
  · intro f ret env
    exact ⟨rfl, rfl⟩

/-- C4 witness: a bare BREAK at the top level (empty scope stack) is
rejected at its token's position; with a loop on top of the stack the
same stream parses to a Break node; a RETURN inside a function's scope
never yields the 'Return outside of function' error. -/
theorem c4_witness :
    parseBreakStmt [] ⟨[Token.mk "BREAK" .none 3 7, Token.mk "NEWLINE" .none 3 12], 0⟩ =
      .error (.parserError .breakOutsideLoop 3 7) ∧
    parseBreakStmt [ScopeTag.loop]
        ⟨[Token.mk "BREAK" .none 3 7, Token.mk "NEWLINE" .none 3 12], 0⟩ =
      .ok (.breakStmt, ⟨[Token.mk "BREAK" .none 3 7, Token.mk "NEWLINE" .none 3 12], 2⟩) ∧
    parseReturnStmt 5 [ScopeTag.loop, ScopeTag.function]
        ⟨[Token.mk "RETURN" .none 1 1, Token.mk "NEWLINE" .none 1 7], 0⟩ ≠
      .error (.parserError .returnOutsideFunction 1 1) := by
  refine ⟨?_, ?_, ?_⟩
  · exact c4_scope_validation.1 []
      ⟨[Token.mk "BREAK" .none 3 7, Token.mk "NEWLINE" .none 3 12], 0⟩
      (Token.mk "BREAK" .none 3 7) rfl (by decide)
  · have := c4_scope_validation.2.1 [ScopeTag.loop]
      ⟨[Token.mk "BREAK" .none 3 7, Token.mk "NEWLINE" .none 3 12], 0⟩ rfl
    simpa using this
  · exact c4_scope_validation.2.2.2.2.2.2.1 5 [ScopeTag.loop, ScopeTag.function]
      ⟨[Token.mk "RETURN" .none 1 1, Token.mk "NEWLINE" .none 1 7], 0⟩ 1 1 (by decide)

/-! ## Claim C5 — NEWLINE per line and INDENT/DEDENT balance

Structural facts about the matched text of each lexer rule, leading to
the two counting theorems about `tokenize`. -/

/-- Number of tokens with the given kind name. -/
def countName (n : String) (ts : List Token) : Nat :=
  ts.countP (fun t => t.name = n)

theorem countName_append (n : String) (a b : List Token) :
    countName n (a ++ b) = countName n a + countName n b := by
  simp [countName]

theorem countName_replicate (n : String) (k : Nat) (t : Token) :
    countName n (List.replicate k t) = if t.name = n then k else 0 := by
  induction k with
  | zero => simp [countName]
  | succ k ih =>
    rw [List.replicate_succ]
    unfold countName at ih ⊢
    rw [List.countP_cons, ih]
    by_cases h : t.name = n
    · simp [h]
    · simp [h]

theorem countName_nil (n : String) : countName n [] = 0 := rfl

theorem strBodyAux_split (q : Char) : ∀ (fl : Nat) (cs b r : List Char),
    strBodyAux q fl cs = some (b, r) → b ++ q :: r = cs := by
  intro fl
  induction fl with
  | zero => intro cs b r h; cases h
  | succ fl ih =>
    intro cs b r h
    cases cs with
    | nil => cases h
    | cons c rest =>
      by_cases hc : c = q
      · simp only [strBodyAux] at h
        rw [if_pos hc] at h
        cases h
        simp [hc]
      · by_cases hbs : c = '\\'
        · cases rest with
          | nil =>
            simp only [strBodyAux] at h
            rw [if_neg hc, if_pos hbs] at h
            cases h
          | cons c2 rest2 =>
            simp only [strBodyAux] at h
            rw [if_neg hc, if_pos hbs] at h
            by_cases hc2 : c2 = q
            · rw [if_pos hc2] at h
              cases hrec : strBodyAux q fl rest2 with
              | none =>
                rw [hrec] at h
                cases h
                simp [hbs, hc2]
              | some p =>
                obtain ⟨b', r'⟩ := p
                rw [hrec] at h
                cases h
                have := ih rest2 b' _ hrec
                simp [hbs, hc2, ← this]
            · rw [if_neg hc2] at h
              cases hrec : strBodyAux q fl (c2 :: rest2) with
              | none => rw [hrec] at h; cases h
              | some p =>
                obtain ⟨b', r'⟩ := p
                rw [hrec] at h
                cases h
                have := ih (c2 :: rest2) b' _ hrec
                simp [hbs, ← this]
        · simp only [strBodyAux] at h
          rw [if_neg hc, if_neg hbs] at h
          cases hrec : strBodyAux q fl rest with
          | none => rw [hrec] at h; cases h
          | some p =>
            obtain ⟨b', r'⟩ := p
            rw [hrec] at h
            cases h
            have := ih rest b' _ hrec
            simp [← this]

theorem matchString_split (q : Char) (cs mt rest : List Char)
    (h : matchString q cs = some (mt, rest)) : mt ++ rest = cs := by
  cases cs with
  | nil => cases h
  | cons c tail =>
    simp only [matchString, strBody] at h
    by_cases hc : c = q
    · rw [if_pos hc] at h
      cases hrec : strBodyAux q (tail.length + 1) tail with
      | none => rw [hrec] at h; cases h
      | some p =>
        obtain ⟨b, r⟩ := p
        rw [hrec] at h
        cases h
        have := strBodyAux_split q (tail.length + 1) tail b _ hrec
        simp [hc, ← this]
    · rw [if_neg hc] at h
      cases h

theorem matchComment_split (cs mt rest : List Char)
    (h : matchComment cs = some (mt, rest)) : mt ++ rest = cs := by
  rw [matchComment.eq_def] at h
  split at h
  · cases h
    simp
  · cases h

theorem matchFloat_split (cs mt rest : List Char)
    (h : matchFloat cs = some (mt, rest)) : mt ++ rest = cs := by
  simp only [matchFloat] at h
  split at h
  · cases h
  · split at h
    · split at h
      · cases h
      · rename_i heq _
        cases h
        have h₁ := List.takeWhile_append_dropWhile (p := isDigit) (l := cs)
        rw [heq] at h₁
        simp only [List.append_assoc, List.cons_append]
        rw [List.takeWhile_append_dropWhile]
        exact h₁
    · cases h

theorem matchInt_split (cs mt rest : List Char)
    (h : matchInt cs = some (mt, rest)) : mt ++ rest = cs := by
  simp only [matchInt] at h
  split at h
  · cases h
  · cases h
    exact List.takeWhile_append_dropWhile isDigit cs

theorem matchName_split (cs mt rest : List Char)
    (h : matchName cs = some (mt, rest)) : mt ++ rest = cs := by
  cases cs with
  | nil => cases h
  | cons c tail =>
    simp only [matchName] at h
    split at h
    · cases h
      simp [List.takeWhile_append_dropWhile]
    · cases h

theorem matchWhitespace_split (cs mt rest : List Char)
    (h : matchWhitespace cs = some (mt, rest)) : mt ++ rest = cs := by
  cases cs with
  | nil => cases h
  | cons c tail =>
    simp only [matchWhitespace] at h
    split at h
    · cases h
      simp [List.takeWhile_append_dropWhile]
    · cases h

theorem matchNewlineRule_split (cs mt rest : List Char)
    (h : matchNewlineRule cs = some (mt, rest)) : mt ++ rest = cs ∧ '\n' ∈ cs := by
  cases cs with
  | nil => cases h
  | cons c tail =>
    simp only [matchNewlineRule] at h
    split at h
    · rename_i hc
      cases h
      constructor
      · simp [List.takeWhile_append_dropWhile]
      · simp [hc]
    · cases h

theorem matchLits_split (lits : List (List Char)) (cs mt rest : List Char)
    (h : matchLits lits cs = some (mt, rest)) : mt ++ rest = cs := by
  simp only [matchLits] at h
  split at h
  · rename_i hfind
    cases h
    have hpre := List.find?_some hfind
    simp only [List.isPrefixOf_iff_prefix] at hpre
    obtain ⟨t, ht⟩ := hpre
    subst ht
    simp [List.drop_left]
  · cases h

/-- `firstRuleMatch` generalized over the rule list, for induction. -/
def foldFirst (cs : List Char) (rs : List (String × Matcher)) :
    Option (String × List Char × List Char) :=
  rs.foldr (fun (r : String × Matcher) acc =>
    match r.2 cs with
    | some (mt, rest) => some (r.1, mt, rest)
    | Option.none => acc) Option.none

theorem foldFirst_cons (cs : List Char) (r : String × Matcher) (rs : List (String × Matcher)) :
    foldFirst cs (r :: rs) =
      match r.2 cs with
      | some (mt, rest) => some (r.1, mt, rest)
      | Option.none => foldFirst cs rs := rfl

theorem foldFirst_spec (cs : List Char) (P : String → List Char → List Char → Prop) :
    ∀ (rs : List (String × Matcher)),
    (∀ r ∈ rs, ∀ mt rest, r.2 cs = some (mt, rest) → P r.1 mt rest) →
    ∀ name mt rest, foldFirst cs rs = some (name, mt, rest) → P name mt rest := by
  intro rs
  induction rs with
  | nil => intro _ name mt rest h; cases h
  | cons r rs ih =>
    intro hall name mt rest h
    rw [foldFirst_cons] at h
    cases hm : r.2 cs with
    | none =>
      rw [hm] at h
      exact ih (fun r' hr' mt' rest' hm' => hall r' (List.mem_cons_of_mem _ hr') mt' rest' hm')
        name mt rest h
    | some p =>
      obtain ⟨mt', rest'⟩ := p
      rw [hm] at h
      cases h
      exact hall r (List.mem_cons_self _ _) _ _ hm

/-- Every successful rule match splits the input, is named by one of the
22 rules (so never INDENT or DEDENT), and the NEWLINE rule only fires on
input containing a newline character. -/
theorem firstRuleMatch_split (cs : List Char) (name : String) (mt rest : List Char)
    (h : firstRuleMatch cs = some (name, mt, rest)) :
    mt ++ rest = cs ∧ name ≠ "INDENT" ∧ name ≠ "DEDENT" ∧ (name = "NEWLINE" → '\n' ∈ cs) := by
  have heqf : firstRuleMatch cs = foldFirst cs lexerRules := rfl
  rw [heqf] at h
  refine foldFirst_spec cs
    (fun name mt rest =>
      mt ++ rest = cs ∧ name ≠ "INDENT" ∧ name ≠ "DEDENT" ∧ (name = "NEWLINE" → '\n' ∈ cs))
    lexerRules ?_ name mt rest h
  intro r hr
  simp only [lexerRules, List.mem_cons, List.not_mem_nil, or_false] at hr
  rcases hr with rfl|rfl|rfl|rfl|rfl|rfl|rfl|rfl|rfl|rfl|rfl|rfl|rfl|rfl|rfl|rfl|rfl|rfl|rfl|rfl|rfl|rfl
  · exact fun mt rest hm =>
      ⟨matchComment_split cs mt rest hm, by decide, by decide, fun hn => absurd hn (by decide)⟩
  · exact fun mt rest hm =>
      ⟨matchString_split '"' cs mt rest hm, by decide, by decide, fun hn => absurd hn (by decide)⟩
  · exact fun mt rest hm =>
      ⟨matchString_split '\'' cs mt rest hm, by decide, by decide, fun hn => absurd hn (by decide)⟩
  · exact fun mt rest hm =>
      ⟨matchFloat_split cs mt rest hm, by decide, by decide, fun hn => absurd hn (by decide)⟩
  · exact fun mt rest hm =>
      ⟨matchInt_split cs mt rest hm, by decide, by decide, fun hn => absurd hn (by decide)⟩
  · exact fun mt rest hm =>
      ⟨matchName_split cs mt rest hm, by decide, by decide, fun hn => absurd hn (by decide)⟩
  · exact fun mt rest hm =>
      ⟨matchWhitespace_split cs mt rest hm, by decide, by decide, fun hn => absurd hn (by decide)⟩
  · exact fun mt rest hm =>
      ⟨(matchNewlineRule_split cs mt rest hm).1, by decide, by decide,
       fun _ => (matchNewlineRule_split cs mt rest hm).2⟩
  · exact fun mt rest hm =>
      ⟨matchLits_split _ cs mt rest hm, by decide, by decide, fun hn => absurd hn (by decide)⟩
  · exact fun mt rest hm =>
      ⟨matchLits_split _ cs mt rest hm, by decide, by decide, fun hn => absurd hn (by decide)⟩
  · exact fun mt rest hm =>
      ⟨matchLits_split _ cs mt rest hm, by decide, by decide, fun hn => absurd hn (by decide)⟩
  · exact fun mt rest hm =>
      ⟨matchLits_split _ cs mt rest hm, by decide, by decide, fun hn => absurd hn (by decide)⟩
  · exact fun mt rest hm =>
      ⟨matchLits_split _ cs mt rest hm, by decide, by decide, fun hn => absurd hn (by decide)⟩
  · exact fun mt rest hm =>
      ⟨matchLits_split _ cs mt rest hm, by decide, by decide, fun hn => absurd hn (by decide)⟩
  · exact fun mt rest hm =>
      ⟨matchLits_split _ cs mt rest hm, by decide, by decide, fun hn => absurd hn (by decide)⟩
  · exact fun mt rest hm =>
      ⟨matchLits_split _ cs mt rest hm, by decide, by decide, fun hn => absurd hn (by decide)⟩
  · exact fun mt rest hm =>
      ⟨matchLits_split _ cs mt rest hm, by decide, by decide, fun hn => absurd hn (by decide)⟩
  · exact fun mt rest hm =>
      ⟨matchLits_split _ cs mt rest hm, by decide, by decide, fun hn => absurd hn (by decide)⟩
  · exact fun mt rest hm =>
      ⟨matchLits_split _ cs mt rest hm, by decide, by decide, fun hn => absurd hn (by decide)⟩
  · exact fun mt rest hm =>
      ⟨matchLits_split _ cs mt rest hm, by decide, by decide, fun hn => absurd hn (by decide)⟩
  · exact fun mt rest hm =>
      ⟨matchLits_split _ cs mt rest hm, by decide, by decide, fun hn => absurd hn (by decide)⟩
  · exact fun mt rest hm =>
      ⟨matchLits_split _ cs mt rest hm, by decide, by decide, fun hn => absurd hn (by decide)⟩

/-- Keyword re-tagging never produces an INDENT, DEDENT or NEWLINE name. -/
theorem keywordName_ne (s : String) (kw : String) (h : keywordName s = some kw) :
    kw ≠ "INDENT" ∧ kw ≠ "DEDENT" ∧ kw ≠ "NEWLINE" := by
  rw [keywordName.eq_def] at h
  split at h <;> cases h <;> exact ⟨by decide, by decide, by decide⟩

theorem countName_cons (n : String) (t : Token) (ts : List Token) :
    countName n (t :: ts) = countName n ts + (if t.name = n then 1 else 0) := by
  simp [countName, List.countP_cons]

theorem countName_eq_zero {n : String} {ts : List Token}
    (h : ∀ t ∈ ts, t.name ≠ n) : countName n ts = 0 := by
  rw [countName, List.countP_eq_zero]
  intro t ht
  simp [h t ht]

/-- All tokens produced by tokenizing a newline-free line carry rule or
keyword names, never the synthetic INDENT / DEDENT / NEWLINE names. -/
theorem tokenizeLineAux_names : ∀ (fl lineNum pos : Nat) (cs : List Char) (toks : List Token),
    '\n' ∉ cs → tokenizeLineAux fl lineNum pos cs = .ok toks →
    ∀ t ∈ toks, t.name ≠ "INDENT" ∧ t.name ≠ "DEDENT" ∧ t.name ≠ "NEWLINE" := by
  intro fl
  induction fl with
  | zero => intro _ _ _ _ _ h; cases h
  | succ fl ih =>
    intro lineNum pos cs toks hnl h
    cases cs with
    | nil =>
      cases h
      intro t ht
      cases ht
    | cons c rest =>
      cases hm : firstRuleMatch (c :: rest) with
      | none =>
        simp only [tokenizeLineAux, hm] at h
        cases h
      | some p =>
        obtain ⟨name, mt, rest'⟩ := p
        have hsplit := firstRuleMatch_split (c :: rest) name mt rest' hm
        have hnn : name ≠ "NEWLINE" := fun he => hnl (hsplit.2.2.2 he)
        have hnl' : '\n' ∉ rest' := fun hmem =>
          hnl (hsplit.1 ▸ (List.mem_append.mpr (Or.inr hmem)))
        cases hrec : tokenizeLineAux fl lineNum (pos + mt.length) rest' with
        | error e =>
          simp only [tokenizeLineAux, hm, hrec] at h
          cases h
        | ok toks' =>
          simp only [tokenizeLineAux, hm, hrec] at h
          have ihtoks := ih lineNum (pos + mt.length) rest' toks' hnl' hrec
          by_cases hig : name ∈ ignoreTokens
          · rw [if_pos hig] at h
            cases h
            exact ihtoks
          · rw [if_neg hig] at h
            cases h
            intro t ht
            rcases List.mem_cons.mp ht with rfl | hmem
            · split
              · exact ⟨hsplit.2.1, hsplit.2.2.1, hnn⟩
              · split
                · exact ⟨hsplit.2.1, hsplit.2.2.1, hnn⟩
                · split
                  · split
                    · exact keywordName_ne _ _ (by assumption)
                    · exact ⟨hsplit.2.1, hsplit.2.2.1, hnn⟩
                  · exact ⟨hsplit.2.1, hsplit.2.2.1, hnn⟩
            · exact ihtoks t hmem

theorem tokenizeLine_names (lineNum : Nat) (cs : List Char) (toks : List Token)
    (hnl : '\n' ∉ cs) (h : tokenizeLine lineNum cs = .ok toks) :
    ∀ t ∈ toks, t.name ≠ "INDENT" ∧ t.name ≠ "DEDENT" ∧ t.name ≠ "NEWLINE" :=
  tokenizeLineAux_names (cs.length + 1) lineNum 0 cs toks hnl h

theorem splitLinesAux_cons_ne (acc : List Char) (c : Char) (rest : List Char)
    (hc : ¬ c = '\n') : splitLinesAux acc (c :: rest) = splitLinesAux (c :: acc) rest := by
  rw [splitLinesAux.eq_def]
  split
  · rename_i heq
    exact absurd heq (by simp)
  · rename_i heq
    injection heq with h1 _
    exact absurd h1 hc
  · rename_i heq
    injection heq with h1 _
    exact absurd h1 hc
  · rename_i heq
    injection heq with h1 h2
    rw [h1, h2]

/-- `str.splitlines` never yields a piece containing a newline. -/
theorem splitLinesAux_no_nl : ∀ (cs acc : List Char), '\n' ∉ acc →
    ∀ line ∈ splitLinesAux acc cs, '\n' ∉ line := by
  intro cs
  induction cs with
  | nil =>
    intro acc hacc line hline
    simp only [splitLinesAux, List.mem_singleton] at hline
    subst hline
    simp [hacc]
  | cons c rest ih =>
    intro acc hacc line hline
    by_cases hc : c = '\n'
    · subst hc
      cases rest with
      | nil =>
        simp only [splitLinesAux, List.mem_singleton] at hline
        subst hline
        simp [hacc]
      | cons c₂ rest₂ =>
        simp only [splitLinesAux] at hline
        rcases List.mem_cons.mp hline with rfl | hmem
        · simp [hacc]
        · exact ih [] (by simp) line hmem
    · rw [splitLinesAux_cons_ne acc c rest hc] at hline
      refine ih (c :: acc) ?_ line hline
      intro hmem
      rcases List.mem_cons.mp hmem with heq | hmem'
      · exact hc heq.symm
      · exact hacc hmem'

theorem splitLines_no_nl (cs : List Char) :
    ∀ line ∈ splitLines cs, '\n' ∉ line := by
  cases cs with
  | nil => intro line hline; cases hline
  | cons c rest => exact splitLinesAux_no_nl (c :: rest) [] (by simp)

theorem mem_rstrip {c : Char} {cs : List Char} (h : c ∈ rstrip cs) : c ∈ cs := by
  simp only [rstrip, List.mem_reverse] at h
  exact List.mem_reverse.mp ((List.dropWhile_sublist _).subset h)

theorem mem_enumFrom_snd {α : Type} : ∀ (l : List α) (i : Nat) (p : Nat × α),
    p ∈ l.enumFrom i → p.2 ∈ l := by
  intro l
  induction l with
  | nil => intro i p h; cases h
  | cons a t ihl =>
    intro i p h
    cases h with
    | head => exact List.mem_cons_self _ _
    | tail _ h => exact List.mem_cons_of_mem _ (ihl (i + 1) p h)

/-- Spec-side count of the source lines that contribute a NEWLINE token:
the non-empty (after trailing-whitespace stripping) lines whose
indent-stripped text tokenizes to at least one non-ignored token.  The
indent-symbol state evolves exactly as in `tokenize`. -/
def specNewlineCount : Option (List Char) → List (Nat × List Char) → Nat
  | _, [] => 0
  | sym, (lineNum, raw) :: rest =>
    let line := rstrip raw
    if line.isEmpty then specNewlineCount sym rest
    else
      let sym' := match sym with
        | some u => some u
        | Option.none => detectIndent line
      let stripped := match sym' with
        | some u => line.drop (countSub u line * u.length)
        | Option.none => line
      (match tokenizeLine lineNum stripped with
       | .ok lineToks => if lineToks.isEmpty then 0 else 1
       | .error _ => 0) + specNewlineCount sym' rest

/-- Counting invariant of the per-line loop: the INDENT/DEDENT
difference of the emitted tokens equals the change in the indent level,
and the NEWLINE count is the spec-side per-line count. -/
theorem tokenizeLoop_counts : ∀ (lines : List (Nat × List Char)) (sym : Option (List Char))
    (lvl : Nat) (ts : List Token) (lvl' : Nat),
    (∀ p ∈ lines, '\n' ∉ p.2) →
    tokenizeLoop sym lvl lines = .ok (ts, lvl') →
    ((countName "INDENT" ts : Int) - (countName "DEDENT" ts : Int) = (lvl' : Int) - (lvl : Int)) ∧
    countName "NEWLINE" ts = specNewlineCount sym lines := by
  intro lines
  induction lines with
  | nil =>
    intro sym lvl ts lvl' _ h
    cases h
    exact ⟨by simp [countName], by simp [countName, specNewlineCount]⟩
  | cons hd rest ihl =>
    obtain ⟨lineNum, raw⟩ := hd
    intro sym lvl ts lvl' hnl h
    have hnlrest : ∀ p ∈ rest, '\n' ∉ p.2 := fun p hp => hnl p (List.mem_cons_of_mem _ hp)
    have hnlraw : '\n' ∉ raw := hnl (lineNum, raw) (List.mem_cons_self _ _)
    have hnlline : '\n' ∉ rstrip raw := fun hm => hnlraw (mem_rstrip hm)
    by_cases hemp : (rstrip raw).isEmpty
    · simp only [tokenizeLoop] at h
      rw [if_pos hemp] at h
      obtain ⟨hbal, hnew⟩ := ihl sym lvl ts lvl' hnlrest h
      refine ⟨hbal, ?_⟩
      simp only [specNewlineCount]
      rw [if_pos hemp]
      exact hnew
    · cases sym with
      | some u =>
        cases hline : tokenizeLine lineNum ((rstrip raw).drop (countSub u (rstrip raw) * u.length)) with
        | error e =>
          simp only [tokenizeLoop, hline] at h
          rw [if_neg hemp] at h
          cases h
        | ok lineToks =>
          simp only [tokenizeLoop, hline] at h
          rw [if_neg hemp] at h
          by_cases htoks : lineToks.isEmpty
          · rw [if_pos htoks] at h
            obtain ⟨hbal, hnew⟩ := ihl (some u) lvl ts lvl' hnlrest h
            refine ⟨hbal, ?_⟩
            simp only [specNewlineCount, hline]
            rw [if_neg hemp, if_pos htoks, Nat.zero_add]
            exact hnew
          · rw [if_neg htoks] at h
            cases hloop : tokenizeLoop (some u) (countSub u (rstrip raw)) rest with
            | error e => rw [hloop] at h; cases h
            | ok q =>
              obtain ⟨ts', finalLvl⟩ := q
              rw [hloop] at h
              cases h
              obtain ⟨hbal, hnew⟩ :=
                ihl (some u) (countSub u (rstrip raw)) ts' lvl' hnlrest hloop
              have hz := tokenizeLine_names lineNum _ lineToks
                (fun hm => hnlline (List.drop_subset _ _ hm)) hline
              have hzI : countName "INDENT" lineToks = 0 :=
                countName_eq_zero (fun t ht => (hz t ht).1)
              have hzD : countName "DEDENT" lineToks = 0 :=
                countName_eq_zero (fun t ht => (hz t ht).2.1)
              have hzN : countName "NEWLINE" lineToks = 0 :=
                countName_eq_zero (fun t ht => (hz t ht).2.2)
              rcases Nat.lt_trichotomy lvl (countSub u (rstrip raw)) with hlt | heqv | hgt
              · rw [if_pos hlt]
                refine ⟨?_, ?_⟩
                · simp [countName_append, countName_cons, countName_replicate, hzI, hzD]
                  omega
                · simp only [specNewlineCount, hline]
                  rw [if_neg hemp, if_neg htoks]
                  simp [countName_append, countName_cons, countName_replicate, hzN, hnew]
                  omega
              · rw [if_neg (show ¬ lvl < countSub u (rstrip raw) by omega),
                    if_neg (show ¬ countSub u (rstrip raw) < lvl by omega)]
                refine ⟨?_, ?_⟩
                · simp [countName_append, countName_cons, countName_replicate, hzI, hzD]
                  omega
                · simp only [specNewlineCount, hline]
                  rw [if_neg hemp, if_neg htoks]
                  simp [countName_append, countName_cons, countName_replicate, hzN, hnew]
                  omega
              · rw [if_neg (show ¬ lvl < countSub u (rstrip raw) by omega), if_pos hgt]
                refine ⟨?_, ?_⟩
                · simp [countName_append, countName_cons, countName_replicate, hzI, hzD]
                  omega
                · simp only [specNewlineCount, hline]
                  rw [if_neg hemp, if_neg htoks]
                  simp [countName_append, countName_cons, countName_replicate, hzN, hnew]
                  omega
      | none =>
        cases hdet : detectIndent (rstrip raw) with
        | none =>
          cases hline : tokenizeLine lineNum (rstrip raw) with
          | error e =>
            simp only [tokenizeLoop, hdet, hline] at h
            rw [if_neg hemp] at h
            cases h
          | ok lineToks =>
            simp only [tokenizeLoop, hdet, hline] at h
            rw [if_neg hemp] at h
            by_cases htoks : lineToks.isEmpty
            · rw [if_pos htoks] at h
              obtain ⟨hbal, hnew⟩ := ihl Option.none lvl ts lvl' hnlrest h
              refine ⟨hbal, ?_⟩
              simp only [specNewlineCount, hdet, hline]
              rw [if_neg hemp, if_pos htoks, Nat.zero_add]
              exact hnew
            · rw [if_neg htoks] at h
              cases hloop : tokenizeLoop Option.none 0 rest with
              | error e => rw [hloop] at h; cases h
              | ok q =>
                obtain ⟨ts', finalLvl⟩ := q
                rw [hloop] at h
                cases h
                obtain ⟨hbal, hnew⟩ := ihl Option.none 0 ts' lvl' hnlrest hloop
                have hz := tokenizeLine_names lineNum _ lineToks hnlline hline
                have hzI : countName "INDENT" lineToks = 0 :=
                  countName_eq_zero (fun t ht => (hz t ht).1)
                have hzD : countName "DEDENT" lineToks = 0 :=
                  countName_eq_zero (fun t ht => (hz t ht).2.1)
                have hzN : countName "NEWLINE" lineToks = 0 :=
                  countName_eq_zero (fun t ht => (hz t ht).2.2)
                rcases Nat.eq_zero_or_pos lvl with heqv | hgt
                · rw [if_neg (show ¬ lvl < 0 by omega),
                      if_neg (show ¬ 0 < lvl by omega)]
                  refine ⟨?_, ?_⟩
                  · simp [countName_append, countName_cons, countName_replicate, hzI, hzD]
                    omega
                  · simp only [specNewlineCount, hdet, hline]
                    rw [if_neg hemp, if_neg htoks]
                    simp [countName_append, countName_cons, countName_replicate, hzN, hnew]
                    omega
                · rw [if_neg (show ¬ lvl < 0 by omega), if_pos hgt]
                  refine ⟨?_, ?_⟩
                  · simp [countName_append, countName_cons, countName_replicate, hzI, hzD]
                    omega
                  · simp only [specNewlineCount, hdet, hline]
                    rw [if_neg hemp, if_neg htoks]
                    simp [countName_append, countName_cons, countName_replicate, hzN, hnew]
                    omega
        | some u =>
          cases hline : tokenizeLine lineNum ((rstrip raw).drop (countSub u (rstrip raw) * u.length)) with
          | error e =>
            simp only [tokenizeLoop, hdet, hline] at h
            rw [if_neg hemp] at h
            cases h
          | ok lineToks =>
            simp only [tokenizeLoop, hdet, hline] at h
            rw [if_neg hemp] at h
            by_cases htoks : lineToks.isEmpty
            · rw [if_pos htoks] at h
              obtain ⟨hbal, hnew⟩ := ihl (some u) lvl ts lvl' hnlrest h
              refine ⟨hbal, ?_⟩
              simp only [specNewlineCount, hdet, hline]
              rw [if_neg hemp, if_pos htoks, Nat.zero_add]
              exact hnew
            · rw [if_neg htoks] at h
              cases hloop : tokenizeLoop (some u) (countSub u (rstrip raw)) rest with
              | error e => rw [hloop] at h; cases h
              | ok q =>
                obtain ⟨ts', finalLvl⟩ := q
                rw [hloop] at h
                cases h
                obtain ⟨hbal, hnew⟩ :=
                  ihl (some u) (countSub u (rstrip raw)) ts' lvl' hnlrest hloop
                have hz := tokenizeLine_names lineNum _ lineToks
                  (fun hm => hnlline (List.drop_subset _ _ hm)) hline
                have hzI : countName "INDENT" lineToks = 0 :=
                  countName_eq_zero (fun t ht => (hz t ht).1)
                have hzD : countName "DEDENT" lineToks = 0 :=
                  countName_eq_zero (fun t ht => (hz t ht).2.1)
                have hzN : countName "NEWLINE" lineToks = 0 :=
                  countName_eq_zero (fun t ht => (hz t ht).2.2)
                rcases Nat.lt_trichotomy lvl (countSub u (rstrip raw)) with hlt | heqv | hgt
                · rw [if_pos hlt]
                  refine ⟨?_, ?_⟩
                  · simp [countName_append, countName_cons, countName_replicate, hzI, hzD]
                    omega
                  · simp only [specNewlineCount, hdet, hline]
                    rw [if_neg hemp, if_neg htoks]
                    simp [countName_append, countName_cons, countName_replicate, hzN, hnew]
                    omega
                · rw [if_neg (show ¬ lvl < countSub u (rstrip raw) by omega),
                      if_neg (show ¬ countSub u (rstrip raw) < lvl by omega)]
                  refine ⟨?_, ?_⟩
                  · simp [countName_append, countName_cons, countName_replicate, hzI, hzD]
                    omega
                  · simp only [specNewlineCount, hdet, hline]
                    rw [if_neg hemp, if_neg htoks]
                    simp [countName_append, countName_cons, countName_replicate, hzN, hnew]
                    omega
                · rw [if_neg (show ¬ lvl < countSub u (rstrip raw) by omega), if_pos hgt]
                  refine ⟨?_, ?_⟩
                  · simp [countName_append, countName_cons, countName_replicate, hzI, hzD]
                    omega
                  · simp only [specNewlineCount, hdet, hline]
                    rw [if_neg hemp, if_neg htoks]
                    simp [countName_append, countName_cons, countName_replicate, hzN, hnew]
                    omega

/-- C5 (counterexample): the source `"#c"` consists of one non-empty
line containing only a comment, yet `tokenize` emits no NEWLINE token at
all (comment-only lines produce no tokens, so the `if line_tokens:`
guard in `Lexer.tokenize` skips the NEWLINE append).  This refutes the
claim that every non-empty source line — including comment-only lines —
yields exactly one NEWLINE token. -/
theorem c5_counterexample :
    tokenize "#c" = .ok [] ∧
    splitLines "#c".data = [['#', 'c']] ∧
    (rstrip ['#', 'c']).isEmpty = false :=
  ⟨rfl, rfl, rfl⟩

/-- C5 (amended): on every successful tokenization the number of INDENT
tokens equals the number of DEDENT tokens (no balanced-indentation
hypothesis is needed), and the number of NEWLINE tokens equals the
number of source lines that are non-empty after trailing-whitespace
stripping and whose indent-stripped text yields at least one
non-ignored token — comment-only and whitespace-only lines contribute
none. -/
theorem c5_newline_indent_amended :
    (∀ (s : String) (ts : List Token), tokenize s = .ok ts →
      countName "INDENT" ts = countName "DEDENT" ts) ∧
    (∀ (s : String) (ts : List Token), tokenize s = .ok ts →
      countName "NEWLINE" ts =
        specNewlineCount Option.none
          ((splitLines s.data).enum.map (fun p => (p.1 + 1, p.2)))) := by
  have hmain : ∀ (s : String) (ts : List Token), tokenize s = .ok ts →
      countName "INDENT" ts = countName "DEDENT" ts ∧
      countName "NEWLINE" ts =
        specNewlineCount Option.none
          ((splitLines s.data).enum.map (fun p => (p.1 + 1, p.2))) := by
    intro s ts h
    cases hloop : tokenizeLoop Option.none 0
        ((splitLines s.data).enum.map (fun p => (p.1 + 1, p.2))) with
    | error e =>
      simp only [tokenize, hloop] at h
      cases h
    | ok q =>
      obtain ⟨ts₀, lvl⟩ := q
      simp only [tokenize, hloop] at h
      cases h
      have hlines : ∀ p ∈ (splitLines s.data).enum.map (fun p => (p.1 + 1, p.2)),
          '\n' ∉ p.2 := by
        intro p hp
        obtain ⟨q', hq', rfl⟩ := List.mem_map.mp hp
        exact splitLines_no_nl s.data q'.2 (mem_enumFrom_snd (splitLines s.data) 0 q' hq')
      obtain ⟨hbal, hnew⟩ := tokenizeLoop_counts _ Option.none 0 ts₀ lvl hlines hloop
      constructor
      · simp [countName_append, countName_replicate]
        omega
      · simp [countName_append, countName_replicate]
        omega
  exact ⟨fun s ts h => (hmain s ts h).1, fun s ts h => (hmain s ts h).2⟩

theorem c5_witness :
    tokenize "a\n b\nc" = .ok
      [Token.mk "NAME" (.str "a") 1 1, Token.mk "NEWLINE" .none 1 2,
       Token.mk "INDENT" .none 2 0, Token.mk "NAME" (.str "b") 2 1,
       Token.mk "NEWLINE" .none 2 2, Token.mk "DEDENT" .none 3 0,
       Token.mk "NAME" (.str "c") 3 1, Token.mk "NEWLINE" .none 3 2] ∧
    countName "INDENT"
      [Token.mk "NAME" (.str "a") 1 1, Token.mk "NEWLINE" .none 1 2,
       Token.mk "INDENT" .none 2 0, Token.mk "NAME" (.str "b") 2 1,
       Token.mk "NEWLINE" .none 2 2, Token.mk "DEDENT" .none 3 0,
       Token.mk "NAME" (.str "c") 3 1, Token.mk "NEWLINE" .none 3 2] =
    countName "DEDENT"
      [Token.mk "NAME" (.str "a") 1 1, Token.mk "NEWLINE" .none 1 2,
       Token.mk "INDENT" .none 2 0, Token.mk "NAME" (.str "b") 2 1,
       Token.mk "NEWLINE" .none 2 2, Token.mk "DEDENT" .none 3 0,
       Token.mk "NAME" (.str "c") 3 1, Token.mk "NEWLINE" .none 3 2] ∧
    countName "NEWLINE"
      [Token.mk "NAME" (.str "a") 1 1, Token.mk "NEWLINE" .none 1 2,
       Token.mk "INDENT" .none 2 0, Token.mk "NAME" (.str "b") 2 1,
       Token.mk "NEWLINE" .none 2 2, Token.mk "DEDENT" .none 3 0,
       Token.mk "NAME" (.str "c") 3 1, Token.mk "NEWLINE" .none 3 2] =
    specNewlineCount Option.none
      ((splitLines "a\n b\nc".data).enum.map (fun p => (p.1 + 1, p.2))) :=
  ⟨rfl, c5_newline_indent_amended.1 "a\n b\nc" _ rfl,
   c5_newline_indent_amended.2 "a\n b\nc" _ rfl⟩

end Abrvalg
